import Mathlib

/-!
# AgriChain: provenance chain and routing decision tree

A shallow embedding of `src/Main.cpp` (the classes `TraceabilityChain` and
`RoutingDecisionTree` with the records they share) and theorems about it.

Modelling conventions.

* A pointer is an address, a natural number; a nullable pointer is an
  `Option Nat`, with `none` for `nullptr`.  Objects live in a heap, a total
  map from addresses to records, so every address can be read and written.
* `float` and `double` values are the rational numbers they denote (no NaN,
  no infinity); `time_t` is an integer.
* `std::map` and `std::unordered_map` with string keys are association lists
  with at most one entry per key as long as they are only changed through
  `mapAssign`; the iteration order of an `unordered_map` is the list order.
* `std::queue` is a list, front first.
* A loop over pointers takes a budget of iterations and reports
  `Fault.fuel` (or `none`) when the budget is used up before the loop ends.
-/

namespace AgriChain

/-! ## Records -/

/-- Ways a call can fail to return normally. -/
inductive Fault where
  /-- `std::out_of_range`, thrown by `map::at` on an absent key
  (the specification calls it `MissingMetric`). -/
  | out_of_range
  /-- `std::bad_function_call`, thrown when an empty `std::function` is called. -/
  | bad_function_call
  /-- A null pointer is dereferenced (undefined behaviour in the source). -/
  | null_deref
  /-- The iteration budget of the model ran out before the loop ended. -/
  | fuel
  deriving DecidableEq

/-- Crop information structure (`struct Crop`). -/
structure Crop where
  id : String
  type : String
  quantity : ℚ
  harvestDate : Int
  qualityMetrics : List (String × ℚ)
  certifications : List String
  farmerId : String
  originLocation : String
  areaCode : String
  deriving DecidableEq

/-- Transaction node of the traceability chain (`struct TransactionNode`). -/
structure TransactionNode where
  transactionId : String
  timestamp : Int
  handlerId : String
  handlerType : String
  location : String
  actionTaken : String
  nextDestination : String
  cropDetails : Crop
  previous : Option Nat
  next : Option Nat
  deriving DecidableEq

/-- The constructor `TransactionNode::TransactionNode`; `now` is the value
`time(nullptr)` returns when the record is built. -/
def TransactionNode.new (id handler type loc action : String) (crop : Crop)
    (now : Int) : TransactionNode where
  transactionId := id
  timestamp := now
  handlerId := handler
  handlerType := type
  location := loc
  actionTaken := action
  nextDestination := ""
  cropDetails := crop
  previous := none
  next := none

/-- Node of the routing tree (`struct DecisionNode`).  An empty
`std::function` is `none`. -/
structure DecisionNode where
  nodeId : String
  criteriaType : String
  description : String
  decisionFunction : Option (Crop → Except Fault Bool)
  processingQueue : List Nat
  leftChild : Option Nat
  rightChild : Option Nat

/-- The constructor `DecisionNode::DecisionNode`. -/
def DecisionNode.new (id criteria desc : String) : DecisionNode where
  nodeId := id
  criteriaType := criteria
  description := desc
  decisionFunction := none
  processingQueue := []
  leftChild := none
  rightChild := none

/-- `DecisionNode::enqueue`: push at the back of the queue. -/
def DecisionNode.enqueue (n : DecisionNode) (transaction : Nat) : DecisionNode :=
  { n with processingQueue := n.processingQueue ++ [transaction] }

/-- `DecisionNode::dequeue`: `nullptr` on an empty queue, otherwise the front
element, which is popped. -/
def DecisionNode.dequeue (n : DecisionNode) : Option Nat × DecisionNode :=
  match n.processingQueue with
  | [] => (none, n)
  | transaction :: rest => (some transaction, { n with processingQueue := rest })

/-- `DecisionNode::isQueueEmpty`. -/
def DecisionNode.isQueueEmpty (n : DecisionNode) : Bool :=
  n.processingQueue.isEmpty

/-- The heap of `TransactionNode` objects. -/
abbrev TxHeap := Nat → TransactionNode

/-! ## String-keyed maps -/

/-- `find` on a map: the value stored under `k`, if any. -/
def mapFind {β : Type} : List (String × β) → String → Option β
  | [], _ => none
  | (k1, v) :: m, k => if k1 = k then some v else mapFind m k

/-- The assignment `m[k] = v`: replaces the value of an existing key, adds the
entry otherwise. -/
def mapAssign {β : Type} : List (String × β) → String → β → List (String × β)
  | [], k, v => [(k, v)]
  | (k1, v1) :: m, k, v => if k1 = k then (k, v) :: m else (k1, v1) :: mapAssign m k v

/-- The read access `m[k]`: the value under `k`, and the map, into which a
value-initialised entry is inserted when `k` is absent. -/
def mapIndex {β : Type} (dflt : β) (m : List (String × β)) (k : String) :
    β × List (String × β) :=
  match mapFind m k with
  | some v => (v, m)
  | none => (dflt, mapAssign m k dflt)

/-- `map::at`: throws `std::out_of_range` when `k` is absent. -/
def mapAt {β : Type} (m : List (String × β)) (k : String) : Except Fault β :=
  match mapFind m k with
  | some v => .ok v
  | none => .error .out_of_range

/-! ## TraceabilityChain -/

/-- The members of `class TraceabilityChain`. -/
structure TraceabilityChain where
  transactionMap : List (String × Nat)
  allTransactions : List Nat
  deriving DecidableEq

/-- A chain as default-constructed. -/
def TraceabilityChain.empty : TraceabilityChain := ⟨[], []⟩

/-- `TraceabilityChain::addTransaction`. -/
def addTransaction (c : TraceabilityChain) (h : TxHeap) (node : Nat) (previous : Option Nat) :
    TraceabilityChain × TxHeap :=
  let h2 : TxHeap :=
    match previous with
    | some p =>
      let h1 := Function.update h p { h p with next := some node }
      Function.update h1 node { h1 node with previous := some p }
    | none => h
  ({ transactionMap := mapAssign c.transactionMap (h2 node).transactionId node
     allTransactions := c.allTransactions ++ [node] }, h2)

/-- The `for` loop of `getHistory`: the first record, in iteration order,
among those of the crop with the greatest timestamp. -/
def findLatest (h : TxHeap) (cropId : String) : List (String × Nat) → Option Nat → Option Nat
  | [], current => current
  | pair :: rest, current =>
    if (h pair.2).cropDetails.id = cropId then
      match current with
      | none => findLatest h cropId rest (some pair.2)
      | some c =>
        if (h pair.2).timestamp > (h c).timestamp then findLatest h cropId rest (some pair.2)
        else findLatest h cropId rest (some c)
    else findLatest h cropId rest current

/-- The first `while` loop of `getHistory`: follow `previous` to the origin. -/
def toOrigin (h : TxHeap) : Nat → Nat → Option Nat
  | fuel, current =>
    match (h current).previous with
    | none => some current
    | some p =>
      match fuel with
      | 0 => none
      | fuel + 1 => toOrigin h fuel p

/-- The second `while` loop of `getHistory`: collect along `next`. -/
def collectForward (h : TxHeap) : Nat → Option Nat → List Nat → Option (List Nat)
  | _, none, history => some history
  | 0, some _, _ => none
  | fuel + 1, some current, history =>
    collectForward h fuel (h current).next (history ++ [current])

/-- `TraceabilityChain::getHistory`; `none` when a loop does not end within
`fuel` iterations. -/
def getHistory (fuel : Nat) (c : TraceabilityChain) (h : TxHeap) (cropId : String) :
    Option (List Nat) :=
  match findLatest h cropId c.transactionMap none with
  | none => some []
  | some current =>
    match toOrigin h fuel current with
    | none => none
    | some origin => collectForward h fuel (some origin) []

/-- The first loop of `TraceabilityChain::listAllCrops`, which fills the local
map `latestCropTransactions`, over the transactions still to visit. -/
def latestCropTransactions (h : TxHeap) : List Nat → List (String × Nat) → List (String × Nat)
  | [], latest => latest
  | transaction :: rest, latest =>
    match mapFind latest (h transaction).cropDetails.id with
    | none =>
      latestCropTransactions h rest (mapAssign latest (h transaction).cropDetails.id transaction)
    | some p =>
      if (h transaction).timestamp > (h p).timestamp then
        latestCropTransactions h rest
          (mapAssign latest (h transaction).cropDetails.id transaction)
      else latestCropTransactions h rest latest

/-- The map `listAllCrops` displays: the latest transaction of each crop. -/
def listAllCrops (c : TraceabilityChain) (h : TxHeap) : List (String × Nat) :=
  latestCropTransactions h c.allTransactions []

/-! ## RoutingDecisionTree -/

/-- The members of `class RoutingDecisionTree`, with the heap of the
`DecisionNode` objects it allocates: `nodes` maps an address to the node
stored there and `allocated` is the next free address. -/
structure RoutingDecisionTree where
  root : Option Nat
  nodeMap : List (String × Nat)
  regionalDemand : List (String × List (String × ℚ))
  nodes : Nat → DecisionNode
  allocated : Nat

/-- A tree object before its constructor body runs. -/
def RoutingDecisionTree.blank : RoutingDecisionTree where
  root := none
  nodeMap := []
  regionalDemand := []
  nodes := fun _ => DecisionNode.new "" "" ""
  allocated := 0

/-- The expression `new DecisionNode(id, criteria, desc)`: the address of the
new node and the tree whose heap holds it. -/
def RoutingDecisionTree.newNode (t : RoutingDecisionTree) (id criteria desc : String) :
    Nat × RoutingDecisionTree :=
  (t.allocated,
   { t with nodes := Function.update t.nodes t.allocated (DecisionNode.new id criteria desc)
            allocated := t.allocated + 1 })

/-- The assignment `p->decisionFunction = f`. -/
def RoutingDecisionTree.setDecisionFunction (t : RoutingDecisionTree) (p : Nat)
    (f : Crop → Except Fault Bool) : RoutingDecisionTree :=
  { t with nodes := Function.update t.nodes p { t.nodes p with decisionFunction := some f } }

/-- The assignment `p->leftChild = q`. -/
def RoutingDecisionTree.setLeftChild (t : RoutingDecisionTree) (p q : Nat) :
    RoutingDecisionTree :=
  { t with nodes := Function.update t.nodes p { t.nodes p with leftChild := some q } }

/-- The assignment `p->rightChild = q`. -/
def RoutingDecisionTree.setRightChild (t : RoutingDecisionTree) (p q : Nat) :
    RoutingDecisionTree :=
  { t with nodes := Function.update t.nodes p { t.nodes p with rightChild := some q } }

/-- The assignment `nodeMap[id] = p`. -/
def RoutingDecisionTree.nodeMapAssign (t : RoutingDecisionTree) (id : String) (p : Nat) :
    RoutingDecisionTree :=
  { t with nodeMap := mapAssign t.nodeMap id p }

/-- The assignment `regionalDemand[region][cropType] = v`. -/
def RoutingDecisionTree.demandAssign (t : RoutingDecisionTree) (region cropType : String)
    (v : ℚ) : RoutingDecisionTree :=
  let (inner, rd) := mapIndex [] t.regionalDemand region
  { t with regionalDemand := mapAssign rd region (mapAssign inner cropType v) }

/-- `RoutingDecisionTree::setupRegionalDemand`. -/
def setupRegionalDemand (t : RoutingDecisionTree) : RoutingDecisionTree :=
  let t := t.demandAssign "North" "Wheat" 8.5
  let t := t.demandAssign "North" "Rice" 7.0
  let t := t.demandAssign "North" "Corn" 6.0
  let t := t.demandAssign "North" "Tomato" 5.0
  let t := t.demandAssign "North" "Apple" 9.0
  let t := t.demandAssign "South" "Wheat" 5.0
  let t := t.demandAssign "South" "Rice" 9.0
  let t := t.demandAssign "South" "Corn" 6.5
  let t := t.demandAssign "South" "Tomato" 8.0
  let t := t.demandAssign "South" "Apple" 4.0
  let t := t.demandAssign "East" "Wheat" 6.0
  let t := t.demandAssign "East" "Rice" 8.5
  let t := t.demandAssign "East" "Corn" 5.0
  let t := t.demandAssign "East" "Tomato" 7.5
  let t := t.demandAssign "East" "Apple" 6.5
  let t := t.demandAssign "West" "Wheat" 7.0
  let t := t.demandAssign "West" "Rice" 6.0
  let t := t.demandAssign "West" "Corn" 8.0
  let t := t.demandAssign "West" "Tomato" 9.0
  let t := t.demandAssign "West" "Apple" 7.5
  t

/-- The decision function of `root`. -/
def rootDecision (crop : Crop) : Except Fault Bool :=
  .ok (crop.areaCode == "North" || crop.areaCode == "South")

/-- The decision function of `northSouth`. -/
def northSouthDecision (crop : Crop) : Except Fault Bool :=
  .ok (crop.areaCode == "North")

/-- The decision function of `eastWest`. -/
def eastWestDecision (crop : Crop) : Except Fault Bool :=
  .ok (crop.areaCode == "East")

/-- The decision function of `north`, `south`, `east` and `west`: the source
writes the same lambda four times. -/
def qualityDecision (crop : Crop) : Except Fault Bool :=
  match mapAt crop.qualityMetrics "freshness" with
  | .error e => .error e
  | .ok freshness => .ok (decide (freshness ≥ 8.0) || !crop.certifications.isEmpty)

/-- `RoutingDecisionTree::setupDecisionTree`.  Each access path of the source
(`root->leftChild->leftChild`, ...) is written as the address that path
holds, bound when the node is allocated. -/
def setupDecisionTree (t : RoutingDecisionTree) : RoutingDecisionTree :=
  let (root, t) := t.newNode "root" "AreaBased" "Region Split: North/South vs East/West"
  let t := { t with root := some root }
  let t := t.setDecisionFunction root rootDecision
  let t := t.nodeMapAssign "root" root
  let (northSouth, t) := t.newNode "northSouth" "AreaBased" "North vs South"
  let t := t.setLeftChild root northSouth
  let t := t.setDecisionFunction northSouth northSouthDecision
  let t := t.nodeMapAssign "northSouth" northSouth
  let (eastWest, t) := t.newNode "eastWest" "AreaBased" "East vs West"
  let t := t.setRightChild root eastWest
  let t := t.setDecisionFunction eastWest eastWestDecision
  let t := t.nodeMapAssign "eastWest" eastWest
  let (north, t) := t.newNode "north" "QualityBased" "North: Premium vs Standard"
  let t := t.setLeftChild northSouth north
  let t := t.setDecisionFunction north qualityDecision
  let t := t.nodeMapAssign "north" north
  let (south, t) := t.newNode "south" "QualityBased" "South: Premium vs Standard"
  let t := t.setRightChild northSouth south
  let t := t.setDecisionFunction south qualityDecision
  let t := t.nodeMapAssign "south" south
  let (east, t) := t.newNode "east" "QualityBased" "East: Premium vs Standard"
  let t := t.setLeftChild eastWest east
  let t := t.setDecisionFunction east qualityDecision
  let t := t.nodeMapAssign "east" east
  let (west, t) := t.newNode "west" "QualityBased" "West: Premium vs Standard"
  let t := t.setRightChild eastWest west
  let t := t.setDecisionFunction west qualityDecision
  let t := t.nodeMapAssign "west" west
  let (northPremium, t) := t.newNode "northPremium" "FinalDestination" "North Premium"
  let t := t.setLeftChild north northPremium
  let t := t.nodeMapAssign "northPremium" northPremium
  let (northStandard, t) := t.newNode "northStandard" "FinalDestination" "North Standard"
  let t := t.setRightChild north northStandard
  let t := t.nodeMapAssign "northStandard" northStandard
  let (southPremium, t) := t.newNode "southPremium" "FinalDestination" "South Premium"
  let t := t.setLeftChild south southPremium
  let t := t.nodeMapAssign "southPremium" southPremium
  let (southStandard, t) := t.newNode "southStandard" "FinalDestination" "South Standard"
  let t := t.setRightChild south southStandard
  let t := t.nodeMapAssign "southStandard" southStandard
  let (eastPremium, t) := t.newNode "eastPremium" "FinalDestination" "East Premium"
  let t := t.setLeftChild east eastPremium
  let t := t.nodeMapAssign "eastPremium" eastPremium
  let (eastStandard, t) := t.newNode "eastStandard" "FinalDestination" "East Standard"
  let t := t.setRightChild east eastStandard
  let t := t.nodeMapAssign "eastStandard" eastStandard
  let (westPremium, t) := t.newNode "westPremium" "FinalDestination" "West Premium"
  let t := t.setLeftChild west westPremium
  let t := t.nodeMapAssign "westPremium" westPremium
  let (westStandard, t) := t.newNode "westStandard" "FinalDestination" "West Standard"
  let t := t.setRightChild west westStandard
  let t := t.nodeMapAssign "westStandard" westStandard
  t

/-- The constructor `RoutingDecisionTree::RoutingDecisionTree`. -/
def RoutingDecisionTree.new : RoutingDecisionTree :=
  setupDecisionTree (setupRegionalDemand RoutingDecisionTree.blank)

/-- `RoutingDecisionTree::getRegionalDemand`, with the table as the accesses
`regionalDemand[region]` and `[cropType]` leave it. -/
def getRegionalDemand (t : RoutingDecisionTree) (region cropType : String) :
    ℚ × RoutingDecisionTree :=
  if (mapFind t.regionalDemand region).isSome then
    let (inner, rd1) := mapIndex [] t.regionalDemand region
    if (mapFind inner cropType).isSome then
      let (inner2, rd2) := mapIndex [] rd1 region
      let (v, inner3) := mapIndex 0 inner2 cropType
      (v, { t with regionalDemand := mapAssign rd2 region inner3 })
    else (5.0, { t with regionalDemand := rd1 })
  else (5.0, t)

/-- Rounding to the nearest integer, ties to even. -/
def roundHalfEven (x : ℚ) : Int :=
  let f := Rat.floor x
  let r := x - f
  if r < 1 / 2 then f else if 1 / 2 < r then f + 1 else if f % 2 = 0 then f else f + 1

/-- `std::to_string` on a `float`: fixed notation with six decimals. -/
def to_string (x : ℚ) : String :=
  let scaled := (roundHalfEven (|x| * 1000000)).natAbs
  let frac := toString (scaled % 1000000)
  (if x < 0 then "-" else "") ++ toString (scaled / 1000000) ++ "." ++
    String.mk (List.replicate (6 - frac.length) '0') ++ frac

/-- The statement `transaction->actionTaken += text`. -/
def appendAction (h : TxHeap) (transaction : Nat) (text : String) : TxHeap :=
  Function.update h transaction
    { h transaction with actionTaken := (h transaction).actionTaken ++ text }

/-- The `while` loop of `routeCrop`, from node `current` with the path
gathered so far.  Returns the node the loop ends at with the final path, or
the fault that ended the call, and in both cases the heap as annotated up to
that point. -/
def routeLoop (t : RoutingDecisionTree) (crop : Crop) (transaction : Nat) :
    Nat → Option Nat → String → TxHeap → Except Fault (Option Nat × String) × TxHeap
  | _, none, path, h => (.ok (none, path), h)
  | fuel, some current, path, h =>
    if (t.nodes current).leftChild = none ∧ (t.nodes current).rightChild = none then
      (.ok (some current, path), h)
    else
      match fuel with
      | 0 => (.error .fuel, h)
      | fuel + 1 =>
        match (t.nodes current).decisionFunction with
        | none => (.error .bad_function_call, h)
        | some f =>
          match f crop with
          | .error e => (.error e, h)
          | .ok decision =>
            let h1 := appendAction h transaction
              (" | " ++ (t.nodes current).nodeId ++ " decision: " ++
                (if decision then "left" else "right"))
            if decision then
              match (t.nodes current).leftChild with
              | none => (.error .null_deref, h1)
              | some l =>
                routeLoop t crop transaction fuel (some l)
                  (path ++ (" -> " ++ (t.nodes l).nodeId)) h1
            else
              match (t.nodes current).rightChild with
              | none => (.error .null_deref, h1)
              | some r =>
                routeLoop t crop transaction fuel (some r)
                  (path ++ (" -> " ++ (t.nodes r).nodeId)) h1

/-- `RoutingDecisionTree::routeCrop`: the returned node (or the fault), the
tree and the heap after the call. -/
def routeCrop (fuel : Nat) (t : RoutingDecisionTree) (h : TxHeap) (crop : Crop)
    (transaction : Nat) : Except Fault (Option Nat) × RoutingDecisionTree × TxHeap :=
  let (demand, t1) := getRegionalDemand t crop.areaCode crop.type
  let demandLevel := if demand ≥ 7.0 then "High" else "Low"
  let h1 := appendAction h transaction
    (" Regional demand: " ++ to_string demand ++ "/10 (" ++ demandLevel ++ ")")
  match routeLoop t1 crop transaction fuel t1.root "root" h1 with
  | (.error e, h2) => (.error e, t1, h2)
  | (.ok (none, _), h2) => (.ok none, t1, h2)
  | (.ok (some current, path), h2) =>
    let queued := (t1.nodes current).enqueue transaction
    let t2 := { t1 with nodes := Function.update t1.nodes current queued }
    let destination :=
      "Node: " ++ (t2.nodes current).nodeId ++ " (" ++ (t2.nodes current).description ++ ")"
    let h3 := Function.update h2 transaction
      { h2 transaction with nextDestination := destination }
    let h4 := appendAction h3 transaction (" | Final path: " ++ path)
    (.ok (some current), t2, h4)

/-- `RoutingDecisionTree::getNode`. -/
def getNode (t : RoutingDecisionTree) (nodeId : String) : Option Nat :=
  mapFind t.nodeMap nodeId

/-- Outcome of the specification's `dequeueFrom`. -/
inductive DequeueResult where
  /-- `getNode` returned `nullptr` (the specification's `UnknownNode`). -/
  | unknownNode
  /-- `dequeue` returned `nullptr` (the specification's `Empty`). -/
  | empty
  /-- `dequeue` returned this record. -/
  | record (transaction : Nat)
  deriving DecidableEq

/-- The specification's `dequeueFrom(id)`, as the source provides it:
`getNode(id)` and then `dequeue()` on the node found. -/
def dequeueFrom (t : RoutingDecisionTree) (nodeId : String) :
    DequeueResult × RoutingDecisionTree :=
  match getNode t nodeId with
  | none => (.unknownNode, t)
  | some p =>
    let (r, n) := (t.nodes p).dequeue
    (match r with
     | none => .empty
     | some transaction => .record transaction,
     { t with nodes := Function.update t.nodes p n })

/-- The conversion of a `size_t` value to `int` on a platform with 64-bit
`size_t` and 32-bit two's complement `int`: the value modulo 2^32, taken in the
range from -2^31 to 2^31 - 1. -/
def toInt (n : Nat) : Int :=
  (((n + 2147483648) % 4294967296 : Nat) : Int) - 2147483648

/-- `DecisionNode::queueSize`: the size of the queue, returned as `int`. -/
def DecisionNode.queueSize (n : DecisionNode) : Int :=
  toInt n.processingQueue.length

/-- The loop of `getAllQueueSizes` over the entries of `nodeMap` still to visit. -/
def getAllQueueSizesLoop (t : RoutingDecisionTree) :
    List (String × Nat) → List (String × Int) → List (String × Int)
  | [], result => result
  | pair :: rest, result =>
    if (t.nodes pair.2).leftChild = none ∧ (t.nodes pair.2).rightChild = none then
      getAllQueueSizesLoop t rest
        (result ++ [(pair.1 ++ " (" ++ (t.nodes pair.2).description ++ ")",
          (t.nodes pair.2).queueSize)])
    else getAllQueueSizesLoop t rest result

/-- `RoutingDecisionTree::getAllQueueSizes`. -/
def getAllQueueSizes (t : RoutingDecisionTree) : List (String × Int) :=
  getAllQueueSizesLoop t t.nodeMap []

/-- The loop of `getNodesWithItems` over the entries of `nodeMap` still to visit. -/
def getNodesWithItemsLoop (t : RoutingDecisionTree) :
    List (String × Nat) → List (String × Nat) → List (String × Nat)
  | [], result => result
  | pair :: rest, result =>
    if (t.nodes pair.2).leftChild = none ∧ (t.nodes pair.2).rightChild = none ∧
        (t.nodes pair.2).queueSize > 0 then
      getNodesWithItemsLoop t rest
        (result ++ [(pair.1 ++ " (" ++ (t.nodes pair.2).description ++ ")", pair.2)])
    else getNodesWithItemsLoop t rest result

/-- `RoutingDecisionTree::getNodesWithItems`: labels and node pointers. -/
def getNodesWithItems (t : RoutingDecisionTree) : List (String × Nat) :=
  getNodesWithItemsLoop t t.nodeMap []

/-! ## Statement vocabulary: the routing tree -/

/-- Two nodes that differ at most in their queues. -/
def SameShape (n m : DecisionNode) : Prop :=
  n.nodeId = m.nodeId ∧ n.criteriaType = m.criteriaType ∧ n.description = m.description ∧
  n.decisionFunction = m.decisionFunction ∧ n.leftChild = m.leftChild ∧ n.rightChild = m.rightChild

/-- The states of a constructed tree: root, node index and, at the fifteen addresses
the constructor allocates, every field of a node except its queue are as the
constructor leaves them, and the queues of the seven inner nodes are empty.
`inv_new`, `routeCrop_cases` and `dequeueFrom_Inv` show that
the constructed tree is such a state and that `routeCrop` and `dequeueFrom`
lead from such a state to such a state. -/
def RoutingDecisionTree.Inv (t : RoutingDecisionTree) : Prop :=
  t.root = RoutingDecisionTree.new.root ∧ t.nodeMap = RoutingDecisionTree.new.nodeMap ∧
  (∀ a, a < 15 → SameShape (t.nodes a) (RoutingDecisionTree.new.nodes a)) ∧
  (∀ a, a < 15 → ¬ ((RoutingDecisionTree.new.nodes a).leftChild = none ∧
      (RoutingDecisionTree.new.nodes a).rightChild = none) → (t.nodes a).processingQueue = [])

/-- Address of the node `routeCrop` ends at for a crop whose quality gate gives `q`. -/
def routeTarget (crop : Crop) (q : Bool) : Nat :=
  if crop.areaCode = "North" ∨ crop.areaCode = "South" then
    if crop.areaCode = "North" then (if q then 7 else 8) else (if q then 9 else 10)
  else
    if crop.areaCode = "East" then (if q then 11 else 12) else (if q then 13 else 14)

/-- A sequence of `routeCrop` calls, each given as the crop and its record: the
results in call order, and the tree and heap after the last call. -/
def routeAll (fuel : Nat) (t : RoutingDecisionTree) (h : TxHeap) :
    List (Crop × Nat) → List (Except Fault (Option Nat)) × RoutingDecisionTree × TxHeap
  | [] => ([], t, h)
  | call :: rest =>
    let r := routeCrop fuel t h call.1 call.2
    let rs := routeAll fuel r.2.1 r.2.2 rest
    (r.1 :: rs.1, rs.2)

/-- The results of `n` successive `dequeueFrom` calls on one identifier, and the tree
after the last. -/
def dequeueMany (t : RoutingDecisionTree) (nodeId : String) :
    Nat → List DequeueResult × RoutingDecisionTree
  | 0 => ([], t)
  | n + 1 =>
    let r := dequeueFrom t nodeId
    let rs := dequeueMany r.2 nodeId n
    (r.1 :: rs.1, rs.2)

/-- The records of those calls, in call order, whose `routeCrop` returned node `leaf`. -/
def recordsRoutedTo (leaf : Nat) :
    List (Crop × Nat) → List (Except Fault (Option Nat)) → List Nat
  | call :: calls, .ok (some p) :: results =>
    if p = leaf then call.2 :: recordsRoutedTo leaf calls results
    else recordsRoutedTo leaf calls results
  | _ :: calls, _ :: results => recordsRoutedTo leaf calls results
  | _, _ => []

/-! ## Statement vocabulary: the chain -/

/-- A record is registered when the identifier index holds a pointer to it. -/
def registered (c : TraceabilityChain) (p : Nat) : Prop :=
  p ∈ c.transactionMap.map Prod.snd

instance (c : TraceabilityChain) (p : Nat) : Decidable (registered c p) := by
  unfold registered; infer_instance

/-- A sequence of `addTransaction` calls, each given as the record and its
predecessor. -/
def appendAll (c : TraceabilityChain) (h : TxHeap) :
    List (Nat × Option Nat) → TraceabilityChain × TxHeap
  | [] => (c, h)
  | call :: rest =>
    appendAll (addTransaction c h call.1 call.2).1 (addTransaction c h call.1 call.2).2 rest

/-- Every predecessor is registered when it is used. -/
def PredecessorsRegistered (c : TraceabilityChain) (h : TxHeap) :
    List (Nat × Option Nat) → Prop
  | [] => True
  | call :: rest =>
    (∀ p, call.2 = some p → registered c p) ∧
    PredecessorsRegistered (addTransaction c h call.1 call.2).1
      (addTransaction c h call.1 call.2).2 rest

/-- Every appended record is new: not appended before, with null links as its
constructor leaves them. -/
def NewRecords (c : TraceabilityChain) (h : TxHeap) : List (Nat × Option Nat) → Prop
  | [] => True
  | call :: rest =>
    (call.1 ∉ c.allTransactions ∧ (h call.1).previous = none ∧ (h call.1).next = none) ∧
    NewRecords (addTransaction c h call.1 call.2).1 (addTransaction c h call.1 call.2).2 rest

/-- The pointer reached from `p` after `n` steps along `link`. -/
def walk (h : TxHeap) (link : TransactionNode → Option Nat) : Nat → Option Nat → Option Nat
  | 0, p => p
  | _ + 1, none => none
  | n + 1, some a => walk h link n (link (h a))

/-- Links of appended records lead to appended records, backwards in append
order along `previous` and forwards along `next`. -/
def ChainInv (c : TraceabilityChain) (h : TxHeap) : Prop :=
  c.allTransactions.Nodup ∧
  (∀ p, registered c p → p ∈ c.allTransactions) ∧
  (∀ p ∈ c.allTransactions, ∀ q, (h p).previous = some q →
    q ∈ c.allTransactions ∧ c.allTransactions.indexOf q < c.allTransactions.indexOf p) ∧
  (∀ p ∈ c.allTransactions, ∀ q, (h p).next = some q →
    q ∈ c.allTransactions ∧ c.allTransactions.indexOf p < c.allTransactions.indexOf q)

/-- The calls of an orderly history: each record is new and appended once under
an identifier not used before; a record without predecessor is the first of
its crop; a predecessor is registered, has no successor yet, is of the same
crop and is not younger than the record. -/
def OrderlyAppends (c : TraceabilityChain) (h : TxHeap) : List (Nat × Option Nat) → Prop
  | [] => True
  | call :: rest =>
    (call.1 ∉ c.allTransactions ∧ (h call.1).previous = none ∧ (h call.1).next = none ∧
      mapFind c.transactionMap (h call.1).transactionId = none ∧
      (match call.2 with
       | none => ∀ q ∈ c.allTransactions, (h q).cropDetails.id ≠ (h call.1).cropDetails.id
       | some p =>
         registered c p ∧ (h p).next = none ∧
         (h p).cropDetails.id = (h call.1).cropDetails.id ∧
         (h p).timestamp ≤ (h call.1).timestamp)) ∧
    OrderlyAppends (addTransaction c h call.1 call.2).1 (addTransaction c h call.1 call.2).2 rest

/-- What orderly appends maintain besides `ChainInv`: appended records stay
registered, links join records of one crop with timestamps that do not
decrease along `next`, and a crop has one record without successor. -/
def LotInv (c : TraceabilityChain) (h : TxHeap) : Prop :=
  (∀ p ∈ c.allTransactions, registered c p) ∧
  (∀ p ∈ c.allTransactions, ∀ q, (h p).next = some q →
    (h q).cropDetails.id = (h p).cropDetails.id ∧ (h p).timestamp ≤ (h q).timestamp) ∧
  (∀ p ∈ c.allTransactions, ∀ q, (h p).previous = some q →
    (h q).cropDetails.id = (h p).cropDetails.id) ∧
  (∀ p ∈ c.allTransactions, ∀ q ∈ c.allTransactions, (h p).next = none → (h q).next = none →
    (h p).cropDetails.id = (h q).cropDetails.id → p = q)

/-! ## Sample data -/

/-- A wheat crop from the North with freshness 9.0 and no certification. -/
def wheatCrop : Crop where
  id := "CROP1001"
  type := "Wheat"
  quantity := 120
  harvestDate := 1700000000
  qualityMetrics := [("freshness", 9.0)]
  certifications := []
  farmerId := "F1"
  originLocation := "Farm"
  areaCode := "North"

/-- A rice crop from the East with freshness 6.0 and an Organic certification. -/
def eastCrop : Crop where
  id := "CROP1001"
  type := "Rice"
  quantity := 250
  harvestDate := 1700000000
  qualityMetrics := [("freshness", 6.0)]
  certifications := ["Organic"]
  farmerId := "F7"
  originLocation := "Farm"
  areaCode := "East"

/-- A crop without a freshness score. -/
def unratedCrop : Crop where
  id := "CROP1004"
  type := "Corn"
  quantity := 80
  harvestDate := 1700000000
  qualityMetrics := [("size", 8.0)]
  certifications := ["Organic"]
  farmerId := "F2"
  originLocation := "Farm"
  areaCode := "South"

/-- A heap in which every address holds the farmer record of `crop`. -/
def farmerHeap (crop : Crop) : TxHeap :=
  fun _ => TransactionNode.new "TRANS1002" crop.farmerId "Farmer" crop.originLocation "Initial harvest entry" crop 1700000000

/-- A heap with a farmer record at address 0 and, at every other address, a trader
record of the same crop built in the same second. -/
def twoRecords : TxHeap := fun a =>
  if a = 0 then
    TransactionNode.new "TRANS1002" "F1" "Farmer" "Farm" "Initial harvest entry" wheatCrop 1700000000
  else
    TransactionNode.new "TRANS1003" "T1" "Trader" "Market" "Route to Retailer" wheatCrop 1700000000

/-! ## Statement vocabulary: annotations and call sequences -/

/-- The word a decision is recorded with. -/
def side (decision : Bool) : String := if decision then "left" else "right"

/-- Identifier of the region-pair node a crop passes. -/
def pairNodeId (crop : Crop) : String :=
  if crop.areaCode = "North" ∨ crop.areaCode = "South" then "northSouth" else "eastWest"

/-- The decision taken at the region-pair node. -/
def pairDecision (crop : Crop) : Bool :=
  if crop.areaCode = "North" ∨ crop.areaCode = "South" then decide (crop.areaCode = "North")
  else decide (crop.areaCode = "East")

/-- Identifier of the quality-gate node a crop passes. -/
def regionNodeId (crop : Crop) : String :=
  if crop.areaCode = "North" ∨ crop.areaCode = "South" then
    if crop.areaCode = "North" then "north" else "south"
  else
    if crop.areaCode = "East" then "east" else "west"

/-- The text `routeCrop` appends first: demand and demand level. -/
def demandText (demand : ℚ) : String :=
  " Regional demand: " ++ to_string demand ++ "/10 (" ++
    (if demand ≥ 7.0 then "High" else "Low") ++ ")"

/-- A tomato crop from the North with the freshness and certifications of `wheatCrop`. -/
def tomatoCrop : Crop where
  id := "CROP1005"
  type := "Tomato"
  quantity := 15
  harvestDate := 1700003600
  qualityMetrics := [("size", 4.5), ("freshness", 9.0)]
  certifications := []
  farmerId := "F9"
  originLocation := "Greenhouse"
  areaCode := "North"

/-- What `latestCropTransactions` holds after the transactions `seen`: one entry
for each crop of `seen` and no other, each with a transaction of that crop from
`seen` that none of its crop in `seen` exceeds in timestamp. -/
def LatestOf (h : TxHeap) (seen : List Nat) (latest : List (String × Nat)) : Prop :=
  (latest.map Prod.fst).Nodup ∧
  (∀ k, k ∈ latest.map Prod.fst ↔ ∃ p ∈ seen, (h p).cropDetails.id = k) ∧
  (∀ kv ∈ latest, kv.2 ∈ seen ∧ (h kv.2).cropDetails.id = kv.1 ∧
    ∀ q ∈ seen, (h q).cropDetails.id = kv.1 → (h q).timestamp ≤ (h kv.2).timestamp)

/-- A call to the routing tree: `routeCrop` with a crop and a record, or the
specification's `dequeueFrom` with an identifier. -/
inductive TreeCall where
  | route (crop : Crop) (transaction : Nat)
  | dequeue (nodeId : String)

/-- A sequence of calls in any interleaving: the tree and the heap after the
last call, the number of `routeCrop` calls that returned a node and the number
of `dequeueFrom` calls that returned a record. -/
def runCalls (fuel : Nat) :
    RoutingDecisionTree → TxHeap → List TreeCall → RoutingDecisionTree × TxHeap × Nat × Nat
  | t, h, [] => (t, h, 0, 0)
  | t, h, TreeCall.route crop transaction :: rest =>
    let r := routeCrop fuel t h crop transaction
    let s := runCalls fuel r.2.1 r.2.2 rest
    (s.1, s.2.1,
      s.2.2.1 + (match r.1 with
        | .ok (some _) => 1
        | _ => 0),
      s.2.2.2)
  | t, h, TreeCall.dequeue nodeId :: rest =>
    let r := dequeueFrom t nodeId
    let s := runCalls fuel r.2 h rest
    (s.1, s.2.1, s.2.2.1,
      s.2.2.2 + (match r.1 with
        | .record _ => 1
        | _ => 0))

/-- The number of records in the queues of the eight leaves. -/
def pending (t : RoutingDecisionTree) : Nat :=
  (t.nodes 7).processingQueue.length + (t.nodes 8).processingQueue.length +
  (t.nodes 9).processingQueue.length + (t.nodes 10).processingQueue.length +
  (t.nodes 11).processingQueue.length + (t.nodes 12).processingQueue.length +
  (t.nodes 13).processingQueue.length + (t.nodes 14).processingQueue.length

/-! ## Statement vocabulary: tree levels, linked chains and the application -/

/-- The children of the node at address `a`, the left child first. -/
def RoutingDecisionTree.children (t : RoutingDecisionTree) (a : Nat) : List Nat :=
  (t.nodes a).leftChild.toList ++ (t.nodes a).rightChild.toList

/-- The addresses of the nodes `k` edges below the root, from left to right. -/
def RoutingDecisionTree.level (t : RoutingDecisionTree) : Nat → List Nat
  | 0 => t.root.toList
  | k + 1 => (t.level k).flatMap t.children

/-- The identifiers of the nodes `k` edges below the root, from left to right. -/
def RoutingDecisionTree.levelIds (t : RoutingDecisionTree) (k : Nat) : List String :=
  (t.level k).map (fun a => (t.nodes a).nodeId)

/-- A corn crop whose area code is written in lower case, with freshness 6.5 and no
certification. -/
def lowercaseCrop : Crop where
  id := "CROP1006"
  type := "Corn"
  quantity := 40
  harvestDate := 1700007200
  qualityMetrics := [("freshness", 6.5)]
  certifications := []
  farmerId := "F3"
  originLocation := "Field"
  areaCode := "north"

/-- The calls of a linked chain: each record is new (not appended before, with the
null links its constructor leaves) and every predecessor is registered and has no
successor when it is used. -/
def LinkedAppends (c : TraceabilityChain) (h : TxHeap) : List (Nat × Option Nat) → Prop
  | [] => True
  | call :: rest =>
    (call.1 ∉ c.allTransactions ∧ (h call.1).previous = none ∧ (h call.1).next = none ∧
      ∀ p, call.2 = some p → registered c p ∧ (h p).next = none) ∧
    LinkedAppends (addTransaction c h call.1 call.2).1 (addTransaction c h call.1 call.2).2 rest

/-- The two links of the appended records agree: a record is the successor of its
predecessor and the predecessor of its successor. -/
def LinkInv (c : TraceabilityChain) (h : TxHeap) : Prop :=
  (∀ p ∈ c.allTransactions, ∀ q, (h p).previous = some q → (h q).next = some p) ∧
  (∀ p ∈ c.allTransactions, ∀ q, (h p).next = some q → (h q).previous = some p)

/-- A heap with the farmer record of `wheatCrop` at address 0 and, at every other
address, a trader record built earlier that carries another crop. -/
def mixedRecords : TxHeap := fun a =>
  if a = 0 then
    TransactionNode.new "TRANS1002" "F1" "Farmer" "Farm" "Initial harvest entry" wheatCrop 1700000100
  else
    TransactionNode.new "TRANS1003" "T1" "Trader" "Market" "Route to Retailer" unratedCrop 1700000000

/-- The records `class AgriculturalSupplyChainApp` keeps: its members
`traceabilityChain` and `routingTree`, and the heap of the `TransactionNode`
objects that both point to. -/
structure AgriculturalSupplyChainApp where
  traceabilityChain : TraceabilityChain
  routingTree : RoutingDecisionTree
  transactions : TxHeap

/-- The specification's `dequeueFrom(id)` in the memory of the application:
`getNode` reads the node index and `DecisionNode::dequeue` pops a pointer off
the queue of one node; neither writes to the chain or to a `TransactionNode`. -/
def AgriculturalSupplyChainApp.dequeueFrom (app : AgriculturalSupplyChainApp)
    (nodeId : String) : DequeueResult × AgriculturalSupplyChainApp :=
  ((AgriChain.dequeueFrom app.routingTree nodeId).1,
   { app with routingTree := (AgriChain.dequeueFrom app.routingTree nodeId).2 })

/-- The application after the farmer record of `wheatCrop` at address 0 has been
appended to the empty chain and routed through the freshly built tree. -/
def wheatApp : AgriculturalSupplyChainApp where
  traceabilityChain := (addTransaction TraceabilityChain.empty (farmerHeap wheatCrop) 0 none).1
  routingTree := (routeCrop 3 RoutingDecisionTree.new
    (addTransaction TraceabilityChain.empty (farmerHeap wheatCrop) 0 none).2 wheatCrop 0).2.1
  transactions := (routeCrop 3 RoutingDecisionTree.new
    (addTransaction TraceabilityChain.empty (farmerHeap wheatCrop) 0 none).2 wheatCrop 0).2.2

/-- Which of the conditions that `OrderlyAppends` puts on a call, besides the record
being new, are asked for. -/
structure AppendRules where
  freshIdentifier : Bool
  firstOfCrop : Bool
  freePredecessor : Bool
  sameCrop : Bool
  stampedInOrder : Bool

/-- The calls of `OrderlyAppends` with only the conditions that `rules` asks for: each
record is new and each predecessor is registered, and, as far as asked for, the
identifier was not used before, a record without predecessor is the first of its
crop, and a predecessor has no successor yet, is of the same crop and is not
younger than the record. -/
def AppendsUnder (rules : AppendRules) (c : TraceabilityChain) (h : TxHeap) :
    List (Nat × Option Nat) → Prop
  | [] => True
  | call :: rest =>
    (call.1 ∉ c.allTransactions ∧ (h call.1).previous = none ∧ (h call.1).next = none ∧
      (rules.freshIdentifier = true →
        mapFind c.transactionMap (h call.1).transactionId = none) ∧
      (match call.2 with
       | none => rules.firstOfCrop = true →
         ∀ q ∈ c.allTransactions, (h q).cropDetails.id ≠ (h call.1).cropDetails.id
       | some p =>
         registered c p ∧
         (rules.freePredecessor = true → (h p).next = none) ∧
         (rules.sameCrop = true → (h p).cropDetails.id = (h call.1).cropDetails.id) ∧
         (rules.stampedInOrder = true → (h p).timestamp ≤ (h call.1).timestamp))) ∧
    AppendsUnder rules (addTransaction c h call.1 call.2).1 (addTransaction c h call.1 call.2).2
      rest

/-- A heap of trader records given by rows of transaction identifier, crop identifier
and timestamp: the record at address `a` carries the `a`-th row, and an address
beyond the rows holds a record with empty identifiers. -/
def recordsOf (rows : List (String × String × Int)) : TxHeap := fun a =>
  match rows[a]? with
  | some row =>
    TransactionNode.new row.1 "T1" "Trader" "Market" "Route to Retailer"
      { wheatCrop with id := row.2.1 } row.2.2
  | none =>
    TransactionNode.new "" "T1" "Trader" "Market" "Route to Retailer"
      { wheatCrop with id := "" } 0

/-! ## Theorems -/

open RoutingDecisionTree

/-! ## String-keyed maps -/

theorem mapFind_eq_none_iff {β : Type} (m : List (String × β)) (k : String) :
    mapFind m k = none ↔ k ∉ m.map Prod.fst := by
  induction m with
  | nil => simp [mapFind]
  | cons kv m ih =>
    obtain ⟨k1, v⟩ := kv
    by_cases hk : k1 = k
    · simp [mapFind, hk]
    · simp [mapFind, hk, ih, Ne.symm hk]

theorem mapFind_mapAssign_same {β : Type} (m : List (String × β)) (k : String) (v : β) :
    mapFind (mapAssign m k v) k = some v := by
  induction m with
  | nil => simp [mapAssign, mapFind]
  | cons kv m ih =>
    obtain ⟨k1, v1⟩ := kv
    by_cases hk : k1 = k
    · simp [mapAssign, mapFind, hk]
    · simp [mapAssign, mapFind, hk, ih]

theorem mem_mapAssign {β : Type} (m : List (String × β)) (k : String) (v : β)
    (kv : String × β) (hkv : kv ∈ mapAssign m k v) : kv ∈ m ∨ kv = (k, v) := by
  induction m with
  | nil => simp [mapAssign] at hkv; exact Or.inr hkv
  | cons kv1 m ih =>
    obtain ⟨k1, v1⟩ := kv1
    by_cases hk : k1 = k
    · simp only [mapAssign, hk, if_true, List.mem_cons] at hkv
      rcases hkv with h1 | h1
      · exact Or.inr h1
      · exact Or.inl (List.mem_cons_of_mem _ h1)
    · simp only [mapAssign, hk, if_false, List.mem_cons] at hkv
      rcases hkv with h1 | h1
      · exact Or.inl (h1 ▸ List.mem_cons_self _ _)
      · rcases ih h1 with h2 | h2
        · exact Or.inl (List.mem_cons_of_mem _ h2)
        · exact Or.inr h2

theorem mem_mapAssign_self {β : Type} (m : List (String × β)) (k : String) (v : β) :
    (k, v) ∈ mapAssign m k v := by
  induction m with
  | nil => simp [mapAssign]
  | cons kv m ih =>
    obtain ⟨k1, v1⟩ := kv
    by_cases hk : k1 = k
    · simp [mapAssign, hk]
    · simp [mapAssign, hk, ih]

theorem mem_mapAssign_of_mem {β : Type} (m : List (String × β)) (k : String) (v : β)
    (kv : String × β) (hkv : kv ∈ m) (hne : kv.1 ≠ k) : kv ∈ mapAssign m k v := by
  induction m with
  | nil => cases hkv
  | cons kv1 m ih =>
    obtain ⟨k1, v1⟩ := kv1
    by_cases hk : k1 = k
    · simp only [mapAssign, hk, if_true]
      rcases List.mem_cons.mp hkv with h1 | h1
      · exact absurd (by rw [h1]; exact hk) hne
      · exact List.mem_cons_of_mem _ h1
    · simp only [mapAssign, hk, if_false]
      rcases List.mem_cons.mp hkv with h1 | h1
      · rw [h1]; exact List.mem_cons_self _ _
      · exact List.mem_cons_of_mem _ (ih h1)

/-! ## The constructed tree -/

theorem new_root : RoutingDecisionTree.new.root = some 0 := rfl

theorem new_nodeMap : RoutingDecisionTree.new.nodeMap =
    [("root", 0), ("northSouth", 1), ("eastWest", 2), ("north", 3), ("south", 4), ("east", 5),
     ("west", 6), ("northPremium", 7), ("northStandard", 8), ("southPremium", 9),
     ("southStandard", 10), ("eastPremium", 11), ("eastStandard", 12), ("westPremium", 13),
     ("westStandard", 14)] := rfl

theorem new_nodes_0 : RoutingDecisionTree.new.nodes 0 =
    { nodeId := "root", criteriaType := "AreaBased", description := "Region Split: North/South vs East/West",
      decisionFunction := some rootDecision, processingQueue := [],
      leftChild := some 1, rightChild := some 2 } := rfl

theorem new_nodes_1 : RoutingDecisionTree.new.nodes 1 =
    { nodeId := "northSouth", criteriaType := "AreaBased", description := "North vs South",
      decisionFunction := some northSouthDecision, processingQueue := [],
      leftChild := some 3, rightChild := some 4 } := rfl

theorem new_nodes_2 : RoutingDecisionTree.new.nodes 2 =
    { nodeId := "eastWest", criteriaType := "AreaBased", description := "East vs West",
      decisionFunction := some eastWestDecision, processingQueue := [],
      leftChild := some 5, rightChild := some 6 } := rfl

theorem new_nodes_3 : RoutingDecisionTree.new.nodes 3 =
    { nodeId := "north", criteriaType := "QualityBased", description := "North: Premium vs Standard",
      decisionFunction := some qualityDecision, processingQueue := [],
      leftChild := some 7, rightChild := some 8 } := rfl

theorem new_nodes_4 : RoutingDecisionTree.new.nodes 4 =
    { nodeId := "south", criteriaType := "QualityBased", description := "South: Premium vs Standard",
      decisionFunction := some qualityDecision, processingQueue := [],
      leftChild := some 9, rightChild := some 10 } := rfl

theorem new_nodes_5 : RoutingDecisionTree.new.nodes 5 =
    { nodeId := "east", criteriaType := "QualityBased", description := "East: Premium vs Standard",
      decisionFunction := some qualityDecision, processingQueue := [],
      leftChild := some 11, rightChild := some 12 } := rfl

theorem new_nodes_6 : RoutingDecisionTree.new.nodes 6 =
    { nodeId := "west", criteriaType := "QualityBased", description := "West: Premium vs Standard",
      decisionFunction := some qualityDecision, processingQueue := [],
      leftChild := some 13, rightChild := some 14 } := rfl

theorem new_nodes_7 : RoutingDecisionTree.new.nodes 7 =
    { nodeId := "northPremium", criteriaType := "FinalDestination", description := "North Premium",
      decisionFunction := none, processingQueue := [],
      leftChild := none, rightChild := none } := rfl

theorem new_nodes_8 : RoutingDecisionTree.new.nodes 8 =
    { nodeId := "northStandard", criteriaType := "FinalDestination", description := "North Standard",
      decisionFunction := none, processingQueue := [],
      leftChild := none, rightChild := none } := rfl

theorem new_nodes_9 : RoutingDecisionTree.new.nodes 9 =
    { nodeId := "southPremium", criteriaType := "FinalDestination", description := "South Premium",
      decisionFunction := none, processingQueue := [],
      leftChild := none, rightChild := none } := rfl

theorem new_nodes_10 : RoutingDecisionTree.new.nodes 10 =
    { nodeId := "southStandard", criteriaType := "FinalDestination", description := "South Standard",
      decisionFunction := none, processingQueue := [],
      leftChild := none, rightChild := none } := rfl

theorem new_nodes_11 : RoutingDecisionTree.new.nodes 11 =
    { nodeId := "eastPremium", criteriaType := "FinalDestination", description := "East Premium",
      decisionFunction := none, processingQueue := [],
      leftChild := none, rightChild := none } := rfl

theorem new_nodes_12 : RoutingDecisionTree.new.nodes 12 =
    { nodeId := "eastStandard", criteriaType := "FinalDestination", description := "East Standard",
      decisionFunction := none, processingQueue := [],
      leftChild := none, rightChild := none } := rfl

theorem new_nodes_13 : RoutingDecisionTree.new.nodes 13 =
    { nodeId := "westPremium", criteriaType := "FinalDestination", description := "West Premium",
      decisionFunction := none, processingQueue := [],
      leftChild := none, rightChild := none } := rfl

theorem new_nodes_14 : RoutingDecisionTree.new.nodes 14 =
    { nodeId := "westStandard", criteriaType := "FinalDestination", description := "West Standard",
      decisionFunction := none, processingQueue := [],
      leftChild := none, rightChild := none } := rfl

theorem new_leaf_of_ge (a : Nat) (h7 : 7 ≤ a) (h15 : a < 15) :
    (RoutingDecisionTree.new.nodes a).leftChild = none ∧
    (RoutingDecisionTree.new.nodes a).rightChild = none := by
  interval_cases a <;> exact ⟨rfl, rfl⟩

theorem sameShape_refl (n : DecisionNode) : SameShape n n := ⟨rfl, rfl, rfl, rfl, rfl, rfl⟩

theorem sameShape_trans {a b c : DecisionNode} (h1 : SameShape a b) (h2 : SameShape b c) :
    SameShape a c :=
  ⟨h1.1.trans h2.1, h1.2.1.trans h2.2.1, h1.2.2.1.trans h2.2.2.1, h1.2.2.2.1.trans h2.2.2.2.1,
    h1.2.2.2.2.1.trans h2.2.2.2.2.1, h1.2.2.2.2.2.trans h2.2.2.2.2.2⟩

theorem sameShape_enqueue (n : DecisionNode) (tx : Nat) : SameShape (n.enqueue tx) n :=
  ⟨rfl, rfl, rfl, rfl, rfl, rfl⟩

theorem sameShape_dequeue (n : DecisionNode) : SameShape n.dequeue.2 n := by
  unfold DecisionNode.dequeue; split <;> exact ⟨rfl, rfl, rfl, rfl, rfl, rfl⟩

theorem inv_new : RoutingDecisionTree.new.Inv := by
  refine ⟨rfl, rfl, fun a _ => ⟨rfl, rfl, rfl, rfl, rfl, rfl⟩, ?_⟩
  intro a ha hnl
  interval_cases a <;> rfl

theorem inv_fields {t : RoutingDecisionTree} (ht : t.Inv) :
    ((t.nodes 0).nodeId = "root" ∧ (t.nodes 0).decisionFunction = some rootDecision ∧
      (t.nodes 0).leftChild = some 1 ∧ (t.nodes 0).rightChild = some 2) ∧
    ((t.nodes 1).nodeId = "northSouth" ∧ (t.nodes 1).decisionFunction = some northSouthDecision ∧
      (t.nodes 1).leftChild = some 3 ∧ (t.nodes 1).rightChild = some 4) ∧
    ((t.nodes 2).nodeId = "eastWest" ∧ (t.nodes 2).decisionFunction = some eastWestDecision ∧
      (t.nodes 2).leftChild = some 5 ∧ (t.nodes 2).rightChild = some 6) ∧
    ((t.nodes 3).nodeId = "north" ∧ (t.nodes 3).decisionFunction = some qualityDecision ∧
      (t.nodes 3).leftChild = some 7 ∧ (t.nodes 3).rightChild = some 8) ∧
    ((t.nodes 4).nodeId = "south" ∧ (t.nodes 4).decisionFunction = some qualityDecision ∧
      (t.nodes 4).leftChild = some 9 ∧ (t.nodes 4).rightChild = some 10) ∧
    ((t.nodes 5).nodeId = "east" ∧ (t.nodes 5).decisionFunction = some qualityDecision ∧
      (t.nodes 5).leftChild = some 11 ∧ (t.nodes 5).rightChild = some 12) ∧
    ((t.nodes 6).nodeId = "west" ∧ (t.nodes 6).decisionFunction = some qualityDecision ∧
      (t.nodes 6).leftChild = some 13 ∧ (t.nodes 6).rightChild = some 14) := by
  obtain ⟨-, -, hs, -⟩ := ht
  have s0 := hs 0 (by decide); have s1 := hs 1 (by decide); have s2 := hs 2 (by decide)
  have s3 := hs 3 (by decide); have s4 := hs 4 (by decide); have s5 := hs 5 (by decide)
  have s6 := hs 6 (by decide)
  simp only [SameShape, new_nodes_0, new_nodes_1, new_nodes_2, new_nodes_3, new_nodes_4,
    new_nodes_5, new_nodes_6] at s0 s1 s2 s3 s4 s5 s6
  exact ⟨⟨s0.1, s0.2.2.2.1, s0.2.2.2.2.1, s0.2.2.2.2.2⟩, ⟨s1.1, s1.2.2.2.1, s1.2.2.2.2.1, s1.2.2.2.2.2⟩,
    ⟨s2.1, s2.2.2.2.1, s2.2.2.2.2.1, s2.2.2.2.2.2⟩, ⟨s3.1, s3.2.2.2.1, s3.2.2.2.2.1, s3.2.2.2.2.2⟩,
    ⟨s4.1, s4.2.2.2.1, s4.2.2.2.2.1, s4.2.2.2.2.2⟩, ⟨s5.1, s5.2.2.2.1, s5.2.2.2.2.1, s5.2.2.2.2.2⟩,
    ⟨s6.1, s6.2.2.2.1, s6.2.2.2.2.1, s6.2.2.2.2.2⟩⟩

theorem inv_leaf {t : RoutingDecisionTree} (ht : t.Inv) (a : Nat)
    (h7 : 7 ≤ a) (h15 : a < 15) :
    (t.nodes a).leftChild = none ∧ (t.nodes a).rightChild = none ∧
    (t.nodes a).nodeId = (RoutingDecisionTree.new.nodes a).nodeId ∧
    (t.nodes a).description = (RoutingDecisionTree.new.nodes a).description := by
  obtain ⟨-, -, hs, -⟩ := ht
  have s := hs a h15
  obtain ⟨s1, -, s3, -, s5, s6⟩ := s
  refine ⟨?_, ?_, s1, s3⟩
  · rw [s5]; interval_cases a <;> rfl
  · rw [s6]; interval_cases a <;> rfl

/-- The invariant survives a change of one queue that leaves the queues of the
inner nodes empty. -/
theorem inv_update {t t2 : RoutingDecisionTree} (ht : t.Inv) (p : Nat)
    (n : DecisionNode) (hroot : t2.root = t.root) (hmap : t2.nodeMap = t.nodeMap)
    (hnodes : t2.nodes = Function.update t.nodes p n) (hs : SameShape n (t.nodes p))
    (hq : (t.nodes p).processingQueue = [] → 7 ≤ p ∨ n.processingQueue = []) :
    t2.Inv := by
  obtain ⟨h1, h2, h3, h4⟩ := ht
  refine ⟨hroot.trans h1, hmap.trans h2, ?_, ?_⟩
  · intro a ha
    rw [hnodes]
    by_cases hap : a = p
    · subst hap; rw [Function.update_same]; exact sameShape_trans hs (h3 a ha)
    · rw [Function.update_noteq hap]; exact h3 a ha
  · intro a ha hnl
    rw [hnodes]
    by_cases hap : a = p
    · subst hap
      rw [Function.update_same]
      rcases hq (h4 a ha hnl) with h7 | h0
      · exact absurd (new_leaf_of_ge a h7 ha) hnl
      · exact h0
    · rw [Function.update_noteq hap]; exact h4 a ha hnl

/-! ## The routing loop -/

theorem routeLoop_none (t : RoutingDecisionTree) (crop : Crop) (tx fuel : Nat) (path : String)
    (h : TxHeap) : routeLoop t crop tx fuel none path h = (.ok (none, path), h) := by
  cases fuel <;> simp [routeLoop]

theorem routeLoop_leaf (t : RoutingDecisionTree) (crop : Crop) (tx fuel cur : Nat) (path : String)
    (h : TxHeap) (hl : (t.nodes cur).leftChild = none) (hr : (t.nodes cur).rightChild = none) :
    routeLoop t crop tx fuel (some cur) path h = (.ok (some cur, path), h) := by
  cases fuel <;> simp [routeLoop, hl, hr]

theorem routeLoop_left (t : RoutingDecisionTree) (crop : Crop) (tx fuel cur l : Nat)
    (path : String) (h : TxHeap) (f : Crop → Except Fault Bool)
    (hl : (t.nodes cur).leftChild = some l) (hf : (t.nodes cur).decisionFunction = some f)
    (hd : f crop = .ok true) :
    routeLoop t crop tx (fuel + 1) (some cur) path h =
      routeLoop t crop tx fuel (some l) (path ++ (" -> " ++ (t.nodes l).nodeId))
        (appendAction h tx (" | " ++ (t.nodes cur).nodeId ++ " decision: " ++ "left")) := by
  simp [routeLoop, hl, hf, hd]

theorem routeLoop_right (t : RoutingDecisionTree) (crop : Crop) (tx fuel cur l r : Nat)
    (path : String) (h : TxHeap) (f : Crop → Except Fault Bool)
    (hl : (t.nodes cur).leftChild = some l)
    (hr : (t.nodes cur).rightChild = some r) (hf : (t.nodes cur).decisionFunction = some f)
    (hd : f crop = .ok false) :
    routeLoop t crop tx (fuel + 1) (some cur) path h =
      routeLoop t crop tx fuel (some r) (path ++ (" -> " ++ (t.nodes r).nodeId))
        (appendAction h tx (" | " ++ (t.nodes cur).nodeId ++ " decision: " ++ "right")) := by
  simp [routeLoop, hl, hr, hf, hd]

theorem routeLoop_throw (t : RoutingDecisionTree) (crop : Crop) (tx fuel cur l : Nat)
    (path : String) (h : TxHeap) (f : Crop → Except Fault Bool) (e : Fault)
    (hl : (t.nodes cur).leftChild = some l) (hf : (t.nodes cur).decisionFunction = some f)
    (hd : f crop = .error e) :
    routeLoop t crop tx (fuel + 1) (some cur) path h = (.error e, h) := by
  simp [routeLoop, hl, hf, hd]

/-- A node the loop ends at has no child. -/
theorem routeLoop_ends_at_leaf (t : RoutingDecisionTree) (crop : Crop) (tx : Nat) :
    ∀ (fuel : Nat) (cur : Option Nat) (path : String) (h : TxHeap) (leaf : Nat) (path2 : String)
      (h2 : TxHeap), routeLoop t crop tx fuel cur path h = (.ok (some leaf, path2), h2) →
      (t.nodes leaf).leftChild = none ∧ (t.nodes leaf).rightChild = none := by
  intro fuel
  induction fuel with
  | zero =>
    intro cur path h leaf path2 h2 hrun
    cases cur with
    | none => simp [routeLoop] at hrun
    | some c =>
      by_cases hc : (t.nodes c).leftChild = none ∧ (t.nodes c).rightChild = none
      · simp [routeLoop, hc] at hrun
        obtain ⟨⟨rfl, -⟩, -⟩ := hrun
        exact hc
      · simp [routeLoop, hc] at hrun
  | succ fuel ih =>
    intro cur path h leaf path2 h2 hrun
    cases cur with
    | none => simp [routeLoop] at hrun
    | some c =>
      by_cases hc : (t.nodes c).leftChild = none ∧ (t.nodes c).rightChild = none
      · simp [routeLoop, hc] at hrun
        obtain ⟨⟨rfl, -⟩, -⟩ := hrun
        exact hc
      · rw [routeLoop] at hrun
        simp only [hc, if_false] at hrun
        split at hrun
        · simp at hrun
        · split at hrun
          · simp at hrun
          · split at hrun
            · split at hrun
              · simp at hrun
              · exact ih _ _ _ _ _ _ hrun
            · split at hrun
              · simp at hrun
              · exact ih _ _ _ _ _ _ hrun

theorem getRegionalDemand_nodes (t : RoutingDecisionTree) (region cropType : String) :
    (getRegionalDemand t region cropType).2.nodes = t.nodes := by
  unfold getRegionalDemand
  repeat' split
  all_goals rfl

theorem getRegionalDemand_root (t : RoutingDecisionTree) (region cropType : String) :
    (getRegionalDemand t region cropType).2.root = t.root := by
  unfold getRegionalDemand
  repeat' split
  all_goals rfl

theorem getRegionalDemand_nodeMap (t : RoutingDecisionTree) (region cropType : String) :
    (getRegionalDemand t region cropType).2.nodeMap = t.nodeMap := by
  unfold getRegionalDemand
  repeat' split
  all_goals rfl

theorem routeTarget_range (crop : Crop) (q : Bool) :
    7 ≤ routeTarget crop q ∧ routeTarget crop q < 15 := by
  unfold routeTarget; split_ifs <;> simp

theorem routeTarget_nodeId (crop : Crop) (q : Bool) :
    (RoutingDecisionTree.new.nodes (routeTarget crop q)).nodeId =
      if crop.areaCode = "North" ∨ crop.areaCode = "South" then
        if crop.areaCode = "North" then (if q then "northPremium" else "northStandard")
        else (if q then "southPremium" else "southStandard")
      else
        if crop.areaCode = "East" then (if q then "eastPremium" else "eastStandard")
        else (if q then "westPremium" else "westStandard") := by
  unfold routeTarget; split_ifs <;> rfl

theorem getNode_routeTarget (crop : Crop) (q : Bool) :
    mapFind RoutingDecisionTree.new.nodeMap
      (RoutingDecisionTree.new.nodes (routeTarget crop q)).nodeId = some (routeTarget crop q) := by
  unfold routeTarget; split_ifs <;> rfl

theorem qualityDecision_of_fresh (crop : Crop) (freshness : ℚ)
    (hf : mapFind crop.qualityMetrics "freshness" = some freshness) :
    qualityDecision crop = .ok (decide (freshness ≥ 8.0) || !crop.certifications.isEmpty) := by
  simp [qualityDecision, mapAt, hf]

theorem qualityDecision_of_missing (crop : Crop)
    (hf : mapFind crop.qualityMetrics "freshness" = none) :
    qualityDecision crop = .error .out_of_range := by
  simp [qualityDecision, mapAt, hf]

theorem routeLoop_Inv_ok (t : RoutingDecisionTree) (ht : t.Inv) (crop : Crop) (tx fuel : Nat)
    (h : TxHeap) (q : Bool) (hq : qualityDecision crop = .ok q) :
    ∃ path h2, routeLoop t crop tx (fuel + 3) (some 0) "root" h
      = (.ok (some (routeTarget crop q), path), h2) := by
  obtain ⟨⟨a0, f0, l0, r0⟩, ⟨a1, f1, l1, r1⟩, ⟨a2, f2, l2, r2⟩, ⟨a3, f3, l3, r3⟩,
    ⟨a4, f4, l4, r4⟩, ⟨a5, f5, l5, r5⟩, ⟨a6, f6, l6, r6⟩⟩ := inv_fields ht
  have k7 := inv_leaf ht 7 (by decide) (by decide)
  have k8 := inv_leaf ht 8 (by decide) (by decide)
  have k9 := inv_leaf ht 9 (by decide) (by decide)
  have k10 := inv_leaf ht 10 (by decide) (by decide)
  have k11 := inv_leaf ht 11 (by decide) (by decide)
  have k12 := inv_leaf ht 12 (by decide) (by decide)
  have k13 := inv_leaf ht 13 (by decide) (by decide)
  have k14 := inv_leaf ht 14 (by decide) (by decide)
  by_cases hNS : crop.areaCode = "North" ∨ crop.areaCode = "South"
  · by_cases hN : crop.areaCode = "North"
    · cases q <;>
        simp [routeLoop, routeLoop_leaf, a0, f0, l0, r0, a1, f1, l1, r1, f3, l3, r3, hq, rootDecision,
          northSouthDecision, routeTarget, hN, k7.1, k7.2.1, k8.1, k8.2.1, Except.map]
    · have hS : crop.areaCode = "South" := by tauto
      cases q <;>
        simp [routeLoop, routeLoop_leaf, a0, f0, l0, r0, a1, f1, l1, r1, f4, l4, r4, hq, rootDecision,
          northSouthDecision, routeTarget, hS, k9.1, k9.2.1, k10.1, k10.2.1, Except.map]
  · have hN : crop.areaCode ≠ "North" := fun e => hNS (Or.inl e)
    have hS : crop.areaCode ≠ "South" := fun e => hNS (Or.inr e)
    by_cases hE : crop.areaCode = "East"
    · cases q <;>
        simp [routeLoop, routeLoop_leaf, a0, f0, l0, r0, a2, f2, l2, r2, f5, l5, r5, hq, rootDecision,
          eastWestDecision, routeTarget, hE, k11.1, k11.2.1, k12.1, k12.2.1, Except.map]
    · cases q <;>
        simp [routeLoop, routeLoop_leaf, a0, f0, l0, r0, a2, f2, l2, r2, f6, l6, r6, hq, rootDecision,
          eastWestDecision, routeTarget, hN, hS, hE, k13.1, k13.2.1, k14.1, k14.2.1, Except.map]

theorem routeLoop_Inv_throw (t : RoutingDecisionTree) (ht : t.Inv) (crop : Crop) (tx fuel : Nat)
    (h : TxHeap) (e : Fault) (hq : qualityDecision crop = .error e) :
    ∃ h2, routeLoop t crop tx (fuel + 3) (some 0) "root" h = (.error e, h2) := by
  obtain ⟨⟨a0, f0, l0, r0⟩, ⟨a1, f1, l1, r1⟩, ⟨a2, f2, l2, r2⟩, ⟨a3, f3, l3, r3⟩,
    ⟨a4, f4, l4, r4⟩, ⟨a5, f5, l5, r5⟩, ⟨a6, f6, l6, r6⟩⟩ := inv_fields ht
  by_cases hNS : crop.areaCode = "North" ∨ crop.areaCode = "South"
  · by_cases hN : crop.areaCode = "North"
    · simp [routeLoop, routeLoop_leaf, a0, f0, l0, r0, a1, f1, l1, r1, f3, l3, r3, hq, rootDecision,
          northSouthDecision, hN]
    · have hS : crop.areaCode = "South" := by tauto
      simp [routeLoop, routeLoop_leaf, a0, f0, l0, r0, a1, f1, l1, r1, f4, l4, r4, hq, rootDecision,
          northSouthDecision, hS]
  · have hN : crop.areaCode ≠ "North" := fun e => hNS (Or.inl e)
    have hS : crop.areaCode ≠ "South" := fun e => hNS (Or.inr e)
    by_cases hE : crop.areaCode = "East"
    · simp [routeLoop, routeLoop_leaf, a0, f0, l0, r0, a2, f2, l2, r2, f5, l5, r5, hq, rootDecision,
          eastWestDecision, hE]
    · simp [routeLoop, routeLoop_leaf, a0, f0, l0, r0, a2, f2, l2, r2, f6, l6, r6, hq, rootDecision,
          eastWestDecision, hN, hS, hE]

/-- A call whose quality gate answers `q` returns the node `routeTarget` names and
enqueues the record there. -/
theorem routeCrop_ok (t : RoutingDecisionTree) (ht : t.Inv) (crop : Crop) (tx fuel : Nat)
    (hfuel : 3 ≤ fuel) (h : TxHeap) (q : Bool) (hq : qualityDecision crop = .ok q) :
    (routeCrop fuel t h crop tx).1 = .ok (some (routeTarget crop q)) ∧
    (routeCrop fuel t h crop tx).2.1.root = t.root ∧
    (routeCrop fuel t h crop tx).2.1.nodeMap = t.nodeMap ∧
    (routeCrop fuel t h crop tx).2.1.nodes =
      Function.update t.nodes (routeTarget crop q)
        ((t.nodes (routeTarget crop q)).enqueue tx) := by
  obtain ⟨n, rfl⟩ : ∃ n, fuel = n + 3 := ⟨fuel - 3, by omega⟩
  have ht1 : (getRegionalDemand t crop.areaCode crop.type).2.Inv := by
    unfold RoutingDecisionTree.Inv
    rw [getRegionalDemand_nodes, getRegionalDemand_root, getRegionalDemand_nodeMap]
    exact ht
  have hroot : (getRegionalDemand t crop.areaCode crop.type).2.root = some 0 := by
    rw [getRegionalDemand_root, ht.1, new_root]
  obtain ⟨path, h2, hrun⟩ := routeLoop_Inv_ok _ ht1 crop tx n
    (appendAction h tx (" Regional demand: " ++
      to_string (getRegionalDemand t crop.areaCode crop.type).1 ++ "/10 (" ++
      (if (getRegionalDemand t crop.areaCode crop.type).1 ≥ 7.0 then "High" else "Low") ++ ")"))
    q hq
  simp only [routeCrop, hroot, hrun, getRegionalDemand_nodes, getRegionalDemand_root,
    getRegionalDemand_nodeMap]
  exact ⟨trivial, (ht.1.trans new_root).symm, trivial, trivial⟩

/-- A call whose quality gate throws ends with that exception and changes no node. -/
theorem routeCrop_throw (t : RoutingDecisionTree) (ht : t.Inv) (crop : Crop) (tx fuel : Nat)
    (hfuel : 3 ≤ fuel) (h : TxHeap) (e : Fault) (hq : qualityDecision crop = .error e) :
    (routeCrop fuel t h crop tx).1 = .error e ∧
    (routeCrop fuel t h crop tx).2.1.root = t.root ∧
    (routeCrop fuel t h crop tx).2.1.nodeMap = t.nodeMap ∧
    (routeCrop fuel t h crop tx).2.1.nodes = t.nodes := by
  obtain ⟨n, rfl⟩ : ∃ n, fuel = n + 3 := ⟨fuel - 3, by omega⟩
  have ht1 : (getRegionalDemand t crop.areaCode crop.type).2.Inv := by
    unfold RoutingDecisionTree.Inv
    rw [getRegionalDemand_nodes, getRegionalDemand_root, getRegionalDemand_nodeMap]
    exact ht
  have hroot : (getRegionalDemand t crop.areaCode crop.type).2.root = some 0 := by
    rw [getRegionalDemand_root, ht.1, new_root]
  obtain ⟨h2, hrun⟩ := routeLoop_Inv_throw _ ht1 crop tx n
    (appendAction h tx (" Regional demand: " ++
      to_string (getRegionalDemand t crop.areaCode crop.type).1 ++ "/10 (" ++
      (if (getRegionalDemand t crop.areaCode crop.type).1 ≥ 7.0 then "High" else "Low") ++ ")"))
    e hq
  simp only [routeCrop, hroot, hrun, getRegionalDemand_nodes, getRegionalDemand_root,
    getRegionalDemand_nodeMap]
  exact ⟨trivial, (ht.1.trans new_root).symm, trivial, trivial⟩

theorem routeCrop_cases (t : RoutingDecisionTree) (ht : t.Inv) (crop : Crop) (tx fuel : Nat)
    (hfuel : 3 ≤ fuel) (h : TxHeap) :
    (routeCrop fuel t h crop tx).2.1.Inv ∧
    ((∃ q, (routeCrop fuel t h crop tx).1 = .ok (some (routeTarget crop q)) ∧
        (routeCrop fuel t h crop tx).2.1.nodes =
          Function.update t.nodes (routeTarget crop q)
            ((t.nodes (routeTarget crop q)).enqueue tx)) ∨
     (∃ e, (routeCrop fuel t h crop tx).1 = .error e ∧
        (routeCrop fuel t h crop tx).2.1.nodes = t.nodes)) := by
  cases hq : qualityDecision crop with
  | error e =>
    obtain ⟨hres, hroot, hmap, hnodes⟩ := routeCrop_throw t ht crop tx fuel hfuel h e hq
    refine ⟨?_, Or.inr ⟨e, hres, hnodes⟩⟩
    unfold RoutingDecisionTree.Inv
    rw [hroot, hmap, hnodes]
    exact ht
  | ok q =>
    obtain ⟨hres, hroot, hmap, hnodes⟩ := routeCrop_ok t ht crop tx fuel hfuel h q hq
    refine ⟨?_, Or.inl ⟨q, hres, hnodes⟩⟩
    exact inv_update ht _ _ hroot hmap hnodes (sameShape_enqueue _ _)
      (fun _ => Or.inl (routeTarget_range crop q).1)

theorem routeCrop_result_eq (fuel : Nat) (hfuel : 3 ≤ fuel) (t t2 : RoutingDecisionTree)
    (ht : t.Inv) (ht2 : t2.Inv) (h h2 : TxHeap) (crop : Crop) (tx tx2 : Nat) :
    (routeCrop fuel t h crop tx).1 = (routeCrop fuel t2 h2 crop tx2).1 := by
  cases hq : qualityDecision crop with
  | error e =>
    rw [(routeCrop_throw t ht crop tx fuel hfuel h e hq).1,
      (routeCrop_throw t2 ht2 crop tx2 fuel hfuel h2 e hq).1]
  | ok q =>
    rw [(routeCrop_ok t ht crop tx fuel hfuel h q hq).1,
      (routeCrop_ok t2 ht2 crop tx2 fuel hfuel h2 q hq).1]

theorem dequeueFrom_Inv (t : RoutingDecisionTree) (ht : t.Inv) (nodeId : String) :
    (dequeueFrom t nodeId).2.Inv := by
  unfold dequeueFrom
  cases hg : getNode t nodeId with
  | none => exact ht
  | some p =>
    refine inv_update ht p (t.nodes p).dequeue.2 rfl rfl rfl (sameShape_dequeue _) ?_
    intro hq
    right
    simp [DecisionNode.dequeue, hq]

/-! ## Routing -/

/-- C1. For a crop whose area code is North, South, East or West and whose quality
metrics hold "freshness", `routeCrop` (with a budget of at least three loop
iterations, on a constructed tree whatever its queues) returns a node without
children that the node index lists under one of the eight leaf identifiers, and
that identifier is one of the two of the crop's own region. -/
theorem routeCrop_reaches_region_leaf (fuel : Nat) (t : RoutingDecisionTree) (h : TxHeap)
    (crop : Crop) (transaction : Nat) (freshness : ℚ)
    (hfuel : 3 ≤ fuel) (ht : t.Inv)
    (hregion : crop.areaCode = "North" ∨ crop.areaCode = "South" ∨ crop.areaCode = "East" ∨
      crop.areaCode = "West")
    (hfresh : mapFind crop.qualityMetrics "freshness" = some freshness) :
    ∃ leaf : Nat,
      (routeCrop fuel t h crop transaction).1 = .ok (some leaf) ∧
      ((routeCrop fuel t h crop transaction).2.1.nodes leaf).leftChild = none ∧
      ((routeCrop fuel t h crop transaction).2.1.nodes leaf).rightChild = none ∧
      getNode (routeCrop fuel t h crop transaction).2.1
        ((routeCrop fuel t h crop transaction).2.1.nodes leaf).nodeId = some leaf ∧
      ((routeCrop fuel t h crop transaction).2.1.nodes leaf).nodeId ∈
        ["northPremium", "northStandard", "southPremium", "southStandard",
         "eastPremium", "eastStandard", "westPremium", "westStandard"] ∧
      (crop.areaCode = "North" →
        ((routeCrop fuel t h crop transaction).2.1.nodes leaf).nodeId ∈
          ["northPremium", "northStandard"]) ∧
      (crop.areaCode = "South" →
        ((routeCrop fuel t h crop transaction).2.1.nodes leaf).nodeId ∈
          ["southPremium", "southStandard"]) ∧
      (crop.areaCode = "East" →
        ((routeCrop fuel t h crop transaction).2.1.nodes leaf).nodeId ∈
          ["eastPremium", "eastStandard"]) ∧
      (crop.areaCode = "West" →
        ((routeCrop fuel t h crop transaction).2.1.nodes leaf).nodeId ∈
          ["westPremium", "westStandard"]) := by
  have hq := qualityDecision_of_fresh crop freshness hfresh
  generalize (decide (freshness ≥ 8.0) || !crop.certifications.isEmpty) = q at hq
  obtain ⟨hres, -, hmap, hnodes⟩ := routeCrop_ok t ht crop transaction fuel hfuel h q hq
  obtain ⟨h7, h15⟩ := routeTarget_range crop q
  obtain ⟨kl, kr, kid, -⟩ := inv_leaf ht _ h7 h15
  have hid := routeTarget_nodeId crop q
  have hget := getNode_routeTarget crop q
  refine ⟨_, hres, ?_⟩
  simp only [getNode, hmap, hnodes, Function.update_same, DecisionNode.enqueue, kl, kr, kid,
    ht.2.1, hget, true_and]
  rw [hid]
  rcases hregion with hr | hr | hr | hr <;> cases q <;> simp [hr]

/-- C1 at a wheat crop from the North routed through the freshly built tree. -/
theorem routeCrop_reaches_region_leaf_witness :
    ∃ leaf : Nat,
      (routeCrop 3 RoutingDecisionTree.new (farmerHeap wheatCrop) wheatCrop 0).1
        = .ok (some leaf) ∧
      ((routeCrop 3 RoutingDecisionTree.new (farmerHeap wheatCrop) wheatCrop 0).2.1.nodes
        leaf).nodeId ∈ ["northPremium", "northStandard"] := by
  obtain ⟨leaf, hres, -, -, -, -, hN, -⟩ :=
    routeCrop_reaches_region_leaf 3 RoutingDecisionTree.new (farmerHeap wheatCrop) wheatCrop 0 9.0
      (le_refl 3) inv_new (Or.inl rfl) rfl
  exact ⟨leaf, hres, hN rfl⟩

/-- C2. For a crop of one of the four regions with a freshness score, the node
`routeCrop` returns is the region's Premium leaf exactly when the score is at
least 8.0 or the crop has a certification, and the region's Standard leaf
otherwise. -/
theorem routeCrop_quality_gate (fuel : Nat) (t : RoutingDecisionTree) (h : TxHeap)
    (crop : Crop) (transaction : Nat) (freshness : ℚ)
    (hfuel : 3 ≤ fuel) (ht : t.Inv)
    (hregion : crop.areaCode = "North" ∨ crop.areaCode = "South" ∨ crop.areaCode = "East" ∨
      crop.areaCode = "West")
    (hfresh : mapFind crop.qualityMetrics "freshness" = some freshness) :
    ∃ leaf : Nat,
      (routeCrop fuel t h crop transaction).1 = .ok (some leaf) ∧
      (crop.areaCode = "North" →
        (((routeCrop fuel t h crop transaction).2.1.nodes leaf).nodeId = "northPremium" ↔
          (freshness ≥ 8.0 ∨ crop.certifications ≠ [])) ∧
        (¬ (freshness ≥ 8.0 ∨ crop.certifications ≠ []) →
          ((routeCrop fuel t h crop transaction).2.1.nodes leaf).nodeId = "northStandard")) ∧
      (crop.areaCode = "South" →
        (((routeCrop fuel t h crop transaction).2.1.nodes leaf).nodeId = "southPremium" ↔
          (freshness ≥ 8.0 ∨ crop.certifications ≠ [])) ∧
        (¬ (freshness ≥ 8.0 ∨ crop.certifications ≠ []) →
          ((routeCrop fuel t h crop transaction).2.1.nodes leaf).nodeId = "southStandard")) ∧
      (crop.areaCode = "East" →
        (((routeCrop fuel t h crop transaction).2.1.nodes leaf).nodeId = "eastPremium" ↔
          (freshness ≥ 8.0 ∨ crop.certifications ≠ [])) ∧
        (¬ (freshness ≥ 8.0 ∨ crop.certifications ≠ []) →
          ((routeCrop fuel t h crop transaction).2.1.nodes leaf).nodeId = "eastStandard")) ∧
      (crop.areaCode = "West" →
        (((routeCrop fuel t h crop transaction).2.1.nodes leaf).nodeId = "westPremium" ↔
          (freshness ≥ 8.0 ∨ crop.certifications ≠ [])) ∧
        (¬ (freshness ≥ 8.0 ∨ crop.certifications ≠ []) →
          ((routeCrop fuel t h crop transaction).2.1.nodes leaf).nodeId = "westStandard")) := by
  have hq := qualityDecision_of_fresh crop freshness hfresh
  have hgate : ((decide (freshness ≥ 8.0) || !crop.certifications.isEmpty) = true) ↔
      (freshness ≥ 8.0 ∨ crop.certifications ≠ []) := by
    simp [List.isEmpty_iff]
  generalize (decide (freshness ≥ 8.0) || !crop.certifications.isEmpty) = q at hq hgate
  obtain ⟨hres, -, -, hnodes⟩ := routeCrop_ok t ht crop transaction fuel hfuel h q hq
  obtain ⟨h7, h15⟩ := routeTarget_range crop q
  obtain ⟨-, -, kid, -⟩ := inv_leaf ht _ h7 h15
  have hid := routeTarget_nodeId crop q
  refine ⟨_, hres, ?_⟩
  simp only [hnodes, Function.update_same, DecisionNode.enqueue, kid]
  rw [hid, ← hgate]
  rcases hregion with hr | hr | hr | hr <;> cases q <;> simp [hr]

/-- C2 at the scenario of the specification: region East, freshness 6.0 and the
certification Organic lead to `eastPremium`. -/
theorem routeCrop_quality_gate_witness :
    ∃ leaf : Nat,
      (routeCrop 3 RoutingDecisionTree.new (farmerHeap eastCrop) eastCrop 0).1 = .ok (some leaf) ∧
      ((routeCrop 3 RoutingDecisionTree.new (farmerHeap eastCrop) eastCrop 0).2.1.nodes leaf).nodeId
        = "eastPremium" := by
  obtain ⟨leaf, hres, -, -, hE, -⟩ :=
    routeCrop_quality_gate 3 RoutingDecisionTree.new (farmerHeap eastCrop) eastCrop 0 6.0
      (le_refl 3) inv_new (Or.inr (Or.inr (Or.inl rfl))) rfl
  exact ⟨leaf, hres, (hE rfl).1.mpr (Or.inr (by decide))⟩

/-- C3. For a crop whose quality metrics hold no "freshness", whatever its region,
type and certifications, `routeCrop` ends with the exception `std::out_of_range`
of `map::at` (the specification's `MissingMetric`): no node is returned and no
queue changes. -/
theorem routeCrop_missing_freshness (fuel : Nat) (t : RoutingDecisionTree) (h : TxHeap)
    (crop : Crop) (transaction : Nat) (hfuel : 3 ≤ fuel) (ht : t.Inv)
    (hfresh : mapFind crop.qualityMetrics "freshness" = none) :
    (routeCrop fuel t h crop transaction).1 = .error Fault.out_of_range ∧
    (∀ a, ((routeCrop fuel t h crop transaction).2.1.nodes a).processingQueue =
      (t.nodes a).processingQueue) := by
  obtain ⟨hres, -, -, hnodes⟩ := routeCrop_throw t ht crop transaction fuel hfuel h _
    (qualityDecision_of_missing crop hfresh)
  exact ⟨hres, fun a => by rw [hnodes]⟩

/-- C3 at a certified crop from the South that has a size score only. -/
theorem routeCrop_missing_freshness_witness :
    (routeCrop 3 RoutingDecisionTree.new (farmerHeap unratedCrop) unratedCrop 0).1
      = .error Fault.out_of_range :=
  (routeCrop_missing_freshness 3 RoutingDecisionTree.new (farmerHeap unratedCrop) unratedCrop 0
    (le_refl 3) inv_new rfl).1

/-! ## Queues -/

theorem routeAll_Inv (fuel : Nat) (hfuel : 3 ≤ fuel) (calls : List (Crop × Nat)) :
    ∀ (t : RoutingDecisionTree) (h : TxHeap), t.Inv → (routeAll fuel t h calls).2.1.Inv := by
  induction calls with
  | nil => intro t h ht; exact ht
  | cons call rest ih =>
    intro t h ht
    exact ih _ _ (routeCrop_cases t ht call.1 call.2 fuel hfuel h).1

theorem routeAll_nodeMap (fuel : Nat) (hfuel : 3 ≤ fuel) (calls : List (Crop × Nat))
    (t : RoutingDecisionTree) (h : TxHeap) (ht : t.Inv) :
    (routeAll fuel t h calls).2.1.nodeMap = t.nodeMap :=
  (routeAll_Inv fuel hfuel calls t h ht).2.1.trans ht.2.1.symm

/-- After a sequence of route calls each queue is what it was, followed by the
records of the calls that returned its node, in call order. -/
theorem routeAll_queue (fuel : Nat) (hfuel : 3 ≤ fuel) (leaf : Nat) (calls : List (Crop × Nat)) :
    ∀ (t : RoutingDecisionTree) (h : TxHeap), t.Inv →
      ((routeAll fuel t h calls).2.1.nodes leaf).processingQueue =
        (t.nodes leaf).processingQueue ++
          recordsRoutedTo leaf calls (routeAll fuel t h calls).1 := by
  induction calls with
  | nil => intro t h _; simp [routeAll, recordsRoutedTo]
  | cons call rest ih =>
    intro t h ht
    obtain ⟨hinv, hcase⟩ := routeCrop_cases t ht call.1 call.2 fuel hfuel h
    have hrec := ih _ (routeCrop fuel t h call.1 call.2).2.2 hinv
    simp only [routeAll]
    rw [hrec]
    rcases hcase with ⟨q, hres, hnodes⟩ | ⟨e, hres, hnodes⟩
    · rw [hnodes, hres]
      by_cases hl : routeTarget call.1 q = leaf
      · subst hl
        simp [recordsRoutedTo, DecisionNode.enqueue]
      · rw [Function.update_noteq (Ne.symm hl)]
        simp [recordsRoutedTo, hl]
    · rw [hnodes, hres]
      simp [recordsRoutedTo]

theorem dequeueMany_queue (nodeId : String) (p : Nat) :
    ∀ (queue : List Nat) (t : RoutingDecisionTree), getNode t nodeId = some p →
      (t.nodes p).processingQueue = queue →
      (dequeueMany t nodeId queue.length).1 = queue.map DequeueResult.record := by
  intro queue
  induction queue with
  | nil => intro t _ _; rfl
  | cons x rest ih =>
    intro t hget hqueue
    have hstep : dequeueFrom t nodeId = (.record x,
        { t with nodes := Function.update t.nodes p { t.nodes p with processingQueue := rest } }) := by
      simp [dequeueFrom, hget, DecisionNode.dequeue, hqueue]
    simp only [List.length_cons, dequeueMany, hstep, List.map_cons, List.cons.injEq, true_and]
    apply ih
    · exact hget
    · simp

/-- C9, counterexample: in the freshly built tree `dequeueFrom` on the inner node
`root`, which is none of the eight leaves, gives `Empty`, not `UnknownNode`. -/
theorem dequeueFrom_counterexample :
    (dequeueFrom RoutingDecisionTree.new "root").1 = DequeueResult.empty ∧
    "root" ∉ ["northPremium", "northStandard", "southPremium", "southStandard",
         "eastPremium", "eastStandard", "westPremium", "westStandard"] := by
  refine ⟨rfl, by decide⟩

/-- C9, amended. `dequeueFrom` gives `UnknownNode` exactly for the identifiers that
are none of the fifteen node identifiers; for the identifier of an inner node it
gives `Empty`; for a leaf identifier it never gives `UnknownNode`. -/
theorem dequeueFrom_unknownNode (t : RoutingDecisionTree) (nodeId : String) (ht : t.Inv) :
    ((dequeueFrom t nodeId).1 = DequeueResult.unknownNode ↔
      nodeId ∉ ["root", "northSouth", "eastWest", "north", "south", "east", "west",
        "northPremium", "northStandard", "southPremium", "southStandard",
        "eastPremium", "eastStandard", "westPremium", "westStandard"]) ∧
    (nodeId ∈ ["root", "northSouth", "eastWest", "north", "south", "east", "west"] →
      (dequeueFrom t nodeId).1 = DequeueResult.empty) ∧
    (nodeId ∈ ["northPremium", "northStandard", "southPremium", "southStandard",
        "eastPremium", "eastStandard", "westPremium", "westStandard"] →
      (dequeueFrom t nodeId).1 ≠ DequeueResult.unknownNode) := by
  have hnone : getNode t nodeId = none ↔
      nodeId ∉ ["root", "northSouth", "eastWest", "north", "south", "east", "west",
        "northPremium", "northStandard", "southPremium", "southStandard",
        "eastPremium", "eastStandard", "westPremium", "westStandard"] := by
    unfold getNode
    rw [ht.2.1, mapFind_eq_none_iff, new_nodeMap]
    rfl
  have hiff : (dequeueFrom t nodeId).1 = DequeueResult.unknownNode ↔ getNode t nodeId = none := by
    unfold dequeueFrom
    cases hg : getNode t nodeId with
    | none => simp
    | some p =>
      simp only [reduceCtorEq, iff_false]
      cases (t.nodes p).dequeue.1 <;> simp
  refine ⟨hiff.trans hnone, ?_, ?_⟩
  · intro hin
    have hq := ht.2.2.2
    simp only [List.mem_cons, List.mem_singleton, List.not_mem_nil, or_false] at hin
    rcases hin with rfl | rfl | rfl | rfl | rfl | rfl | rfl
    · have h0 := hq 0 (by decide) (by rw [new_nodes_0]; simp)
      simp [dequeueFrom, getNode, ht.2.1, new_nodeMap, mapFind, DecisionNode.dequeue, h0]
    · have h0 := hq 1 (by decide) (by rw [new_nodes_1]; simp)
      simp [dequeueFrom, getNode, ht.2.1, new_nodeMap, mapFind, DecisionNode.dequeue, h0]
    · have h0 := hq 2 (by decide) (by rw [new_nodes_2]; simp)
      simp [dequeueFrom, getNode, ht.2.1, new_nodeMap, mapFind, DecisionNode.dequeue, h0]
    · have h0 := hq 3 (by decide) (by rw [new_nodes_3]; simp)
      simp [dequeueFrom, getNode, ht.2.1, new_nodeMap, mapFind, DecisionNode.dequeue, h0]
    · have h0 := hq 4 (by decide) (by rw [new_nodes_4]; simp)
      simp [dequeueFrom, getNode, ht.2.1, new_nodeMap, mapFind, DecisionNode.dequeue, h0]
    · have h0 := hq 5 (by decide) (by rw [new_nodes_5]; simp)
      simp [dequeueFrom, getNode, ht.2.1, new_nodeMap, mapFind, DecisionNode.dequeue, h0]
    · have h0 := hq 6 (by decide) (by rw [new_nodes_6]; simp)
      simp [dequeueFrom, getNode, ht.2.1, new_nodeMap, mapFind, DecisionNode.dequeue, h0]
  · intro hin hu
    have := (hiff.trans hnone).mp hu
    simp only [List.mem_cons, List.mem_singleton, List.not_mem_nil, or_false] at hin this
    tauto

/-- C9 amended, at an unknown identifier, an inner node and a leaf of the freshly
built tree. -/
theorem dequeueFrom_unknownNode_witness :
    (dequeueFrom RoutingDecisionTree.new "warehouse").1 = DequeueResult.unknownNode ∧
    (dequeueFrom RoutingDecisionTree.new "eastWest").1 = DequeueResult.empty ∧
    (dequeueFrom RoutingDecisionTree.new "westStandard").1 ≠ DequeueResult.unknownNode :=
  ⟨(dequeueFrom_unknownNode RoutingDecisionTree.new "warehouse" inv_new).1.mpr
      (by decide),
    (dequeueFrom_unknownNode RoutingDecisionTree.new "eastWest" inv_new).2.1
      (by decide),
    (dequeueFrom_unknownNode RoutingDecisionTree.new "westStandard" inv_new).2.2
      (by decide)⟩

/-- C10. After any sequence of `routeCrop` calls, successive `dequeueFrom` calls on a
node return what its queue held before, followed by the records of the calls
that were routed to it, in the order of the calls; and a crop routed a second
time with another record is routed to the same node as the first time. -/
theorem queue_is_fifo (fuel : Nat) (t : RoutingDecisionTree) (h : TxHeap)
    (calls : List (Crop × Nat)) (leafId : String) (leaf : Nat)
    (hfuel : 3 ≤ fuel) (ht : t.Inv) (hleaf : getNode t leafId = some leaf) :
    (dequeueMany (routeAll fuel t h calls).2.1 leafId
        ((t.nodes leaf).processingQueue ++
          recordsRoutedTo leaf calls (routeAll fuel t h calls).1).length).1 =
      ((t.nodes leaf).processingQueue ++
        recordsRoutedTo leaf calls (routeAll fuel t h calls).1).map DequeueResult.record ∧
    (∀ (crop : Crop) (r1 r2 : Nat) (h2 : TxHeap),
      (routeCrop fuel (routeCrop fuel t h crop r1).2.1 h2 crop r2).1 =
        (routeCrop fuel t h crop r1).1) := by
  refine ⟨?_, ?_⟩
  · apply dequeueMany_queue leafId leaf
    · simp only [getNode] at hleaf ⊢
      rw [routeAll_nodeMap fuel hfuel calls t h ht]; exact hleaf
    · exact routeAll_queue fuel hfuel leaf calls t h ht
  · intro crop r1 r2 h2
    exact routeCrop_result_eq fuel hfuel _ _ (routeCrop_cases t ht crop r1 fuel hfuel h).1 ht _ _ _ _ _

/-- C10 at one crop routed twice, with records 0 and 1, through the freshly built
tree: the leaf returns record 0 and then record 1. -/
theorem queue_is_fifo_witness :
    (dequeueMany (routeAll 3 RoutingDecisionTree.new (farmerHeap eastCrop)
      [(eastCrop, 0), (eastCrop, 1)]).2.1 "eastPremium" 2).1
      = [DequeueResult.record 0, DequeueResult.record 1] := by
  have hq : qualityDecision eastCrop = .ok true := by
    rw [qualityDecision_of_fresh eastCrop 6.0 rfl]; simp [eastCrop]
  have hinv := (routeCrop_cases RoutingDecisionTree.new inv_new eastCrop 0 3
    (le_refl 3) (farmerHeap eastCrop)).1
  have r1 := (routeCrop_ok RoutingDecisionTree.new inv_new eastCrop 0 3
    (le_refl 3) (farmerHeap eastCrop) true hq).1
  have r2 := (routeCrop_ok _ hinv eastCrop 1 3 (le_refl 3)
    (routeCrop 3 RoutingDecisionTree.new (farmerHeap eastCrop) eastCrop 0).2.2 true hq).1
  have ht : routeTarget eastCrop true = 11 := by decide
  rw [ht] at r1 r2
  have hrouted : recordsRoutedTo 11 [(eastCrop, 0), (eastCrop, 1)]
      (routeAll 3 RoutingDecisionTree.new (farmerHeap eastCrop)
        [(eastCrop, 0), (eastCrop, 1)]).1 = [0, 1] := by
    simp [routeAll, r1, r2, recordsRoutedTo]
  have key := (queue_is_fifo 3 RoutingDecisionTree.new (farmerHeap eastCrop)
    [(eastCrop, 0), (eastCrop, 1)] "eastPremium" 11 (le_refl 3) inv_new rfl).1
  rw [hrouted, new_nodes_11] at key
  exact key

/-! ## Appending to the chain -/

theorem addTransaction_heap_none (c : TraceabilityChain) (h : TxHeap) (node : Nat) :
    (addTransaction c h node none).2 = h := rfl

theorem addTransaction_allTransactions (c : TraceabilityChain) (h : TxHeap) (node : Nat)
    (previous : Option Nat) :
    (addTransaction c h node previous).1.allTransactions = c.allTransactions ++ [node] := rfl

theorem addTransaction_transactionId (c : TraceabilityChain) (h : TxHeap) (node : Nat)
    (previous : Option Nat) (a : Nat) :
    ((addTransaction c h node previous).2 a).transactionId = (h a).transactionId := by
  cases previous with
  | none => rfl
  | some p =>
    simp only [addTransaction]
    by_cases h1 : a = node
    · subst h1
      rw [Function.update_same]
      by_cases h2 : a = p
      · subst h2; rw [Function.update_same]
      · rw [Function.update_noteq h2]
    · rw [Function.update_noteq h1]
      by_cases h2 : a = p
      · subst h2; rw [Function.update_same]
      · rw [Function.update_noteq h2]

theorem addTransaction_fields (c : TraceabilityChain) (h : TxHeap) (node : Nat)
    (previous : Option Nat) (a : Nat) :
    ((addTransaction c h node previous).2 a).cropDetails = (h a).cropDetails ∧
    ((addTransaction c h node previous).2 a).timestamp = (h a).timestamp := by
  cases previous with
  | none => exact ⟨rfl, rfl⟩
  | some p =>
    simp only [addTransaction]
    by_cases h1 : a = node
    · subst h1
      rw [Function.update_same]
      by_cases h2 : a = p
      · subst h2; rw [Function.update_same]; exact ⟨rfl, rfl⟩
      · rw [Function.update_noteq h2]; exact ⟨rfl, rfl⟩
    · rw [Function.update_noteq h1]
      by_cases h2 : a = p
      · subst h2; rw [Function.update_same]; exact ⟨rfl, rfl⟩
      · rw [Function.update_noteq h2]; exact ⟨rfl, rfl⟩

theorem addTransaction_next_some (c : TraceabilityChain) (h : TxHeap) (node p : Nat) :
    ((addTransaction c h node (some p)).2 p).next = some node := by
  simp only [addTransaction]
  by_cases h1 : p = node
  · subst h1; simp
  · rw [Function.update_noteq h1, Function.update_same]

theorem addTransaction_previous_some (c : TraceabilityChain) (h : TxHeap) (node p : Nat) :
    ((addTransaction c h node (some p)).2 node).previous = some p := by
  simp [addTransaction]

theorem addTransaction_next (c : TraceabilityChain) (h : TxHeap) (node : Nat)
    (previous : Option Nat) (a : Nat) :
    ((addTransaction c h node previous).2 a).next =
      if previous = some a then some node else (h a).next := by
  cases previous with
  | none => simp [addTransaction_heap_none]
  | some p =>
    simp only [addTransaction, Option.some.injEq]
    by_cases h1 : a = node
    · subst h1
      rw [Function.update_same]
      by_cases h2 : p = a
      · subst h2; simp
      · simp [h2, Function.update_noteq (Ne.symm h2)]
    · rw [Function.update_noteq h1]
      by_cases h2 : p = a
      · subst h2; simp
      · simp [h2, Function.update_noteq (Ne.symm h2)]

theorem addTransaction_previous (c : TraceabilityChain) (h : TxHeap) (node : Nat)
    (previous : Option Nat) (a : Nat) :
    ((addTransaction c h node previous).2 a).previous =
      if a = node ∧ previous ≠ none then previous else (h a).previous := by
  cases previous with
  | none => simp [addTransaction_heap_none]
  | some p =>
    simp only [addTransaction]
    by_cases h1 : a = node
    · subst h1; simp
    · rw [Function.update_noteq h1]
      by_cases h2 : a = p
      · subst h2; simp [h1]
      · simp [h1, Function.update_noteq h2]

theorem addTransaction_heap_other (c : TraceabilityChain) (h : TxHeap) (node p a : Nat)
    (h1 : a ≠ node) (h2 : a ≠ p) : (addTransaction c h node (some p)).2 a = h a := by
  simp only [addTransaction]
  rw [Function.update_noteq h1, Function.update_noteq h2]

theorem addTransaction_heap_node (c : TraceabilityChain) (h : TxHeap) (node p : Nat)
    (hne : node ≠ p) :
    (addTransaction c h node (some p)).2 node = { h node with previous := some p } := by
  simp only [addTransaction]
  rw [Function.update_same, Function.update_noteq hne]

theorem addTransaction_heap_pred (c : TraceabilityChain) (h : TxHeap) (node p : Nat)
    (hne : node ≠ p) :
    (addTransaction c h node (some p)).2 p = { h p with next := some node } := by
  simp only [addTransaction]
  rw [Function.update_noteq (Ne.symm hne), Function.update_same]

theorem addTransaction_registered (c : TraceabilityChain) (h : TxHeap) (node : Nat)
    (previous : Option Nat) :
    mapFind (addTransaction c h node previous).1.transactionMap (h node).transactionId
      = some node := by
  have := addTransaction_transactionId c h node previous node
  simp only [addTransaction] at this ⊢
  rw [this]
  exact mapFind_mapAssign_same _ _ _

theorem registered_addTransaction (c : TraceabilityChain) (h : TxHeap) (node : Nat)
    (previous : Option Nat) (p : Nat)
    (hp : registered (addTransaction c h node previous).1 p) : registered c p ∨ p = node := by
  unfold registered at hp ⊢
  simp only [addTransaction, List.mem_map] at hp
  obtain ⟨kv, hkv, rfl⟩ := hp
  rcases mem_mapAssign _ _ _ _ hkv with h1 | h1
  · exact Or.inl (List.mem_map.mpr ⟨kv, h1, rfl⟩)
  · exact Or.inr (by rw [h1])

theorem registered_addTransaction_self (c : TraceabilityChain) (h : TxHeap) (node : Nat)
    (previous : Option Nat) : registered (addTransaction c h node previous).1 node := by
  unfold registered
  simp only [addTransaction]
  exact List.mem_map.mpr ⟨_, mem_mapAssign_self _ _ _, rfl⟩

theorem registered_addTransaction_of_registered (c : TraceabilityChain) (h : TxHeap) (node : Nat)
    (previous : Option Nat) (p : Nat) (hp : registered c p)
    (hfresh : mapFind c.transactionMap (h node).transactionId = none) :
    registered (addTransaction c h node previous).1 p := by
  unfold registered at hp ⊢
  obtain ⟨kv, hkv, rfl⟩ := List.mem_map.mp hp
  have hid := addTransaction_transactionId c h node previous node
  simp only [addTransaction] at hid ⊢
  rw [hid]
  refine List.mem_map.mpr ⟨kv, mem_mapAssign_of_mem _ _ _ kv hkv ?_, rfl⟩
  intro hk
  have := (mapFind_eq_none_iff c.transactionMap (h node).transactionId).mp hfresh
  exact this (List.mem_map.mpr ⟨kv, hkv, hk⟩)

/-- C4, counterexample: appending the record at address 1 to the empty chain with the
record at address 0 as predecessor, which is not registered, adds an entry to
the identifier index and to the record list and sets the two links. -/
theorem addTransaction_counterexample :
    ¬ registered TraceabilityChain.empty 0 ∧
    (addTransaction TraceabilityChain.empty twoRecords 1 (some 0)).1.transactionMap
      = [("TRANS1003", 1)] ∧
    (addTransaction TraceabilityChain.empty twoRecords 1 (some 0)).1.allTransactions = [1] ∧
    (twoRecords 0).next = none ∧
    ((addTransaction TraceabilityChain.empty twoRecords 1 (some 0)).2 0).next = some 1 ∧
    (twoRecords 1).previous = none ∧
    ((addTransaction TraceabilityChain.empty twoRecords 1 (some 0)).2 1).previous = some 0 := by
  refine ⟨by decide, rfl, rfl, rfl, rfl, rfl, rfl⟩

/-- C4, amended. `addTransaction` with a predecessor that is not registered does not
fail and inserts all the same: the predecessor's `next` is the record, the
record's `previous` is the predecessor, the record is registered under its
identifier and is added at the end of the record list; the predecessor, when it
is another record, is still not registered. -/
theorem addTransaction_unregistered_predecessor (c : TraceabilityChain) (h : TxHeap)
    (node predecessor : Nat) (hunreg : ¬ registered c predecessor) :
    ((addTransaction c h node (some predecessor)).2 predecessor).next = some node ∧
    ((addTransaction c h node (some predecessor)).2 node).previous = some predecessor ∧
    mapFind (addTransaction c h node (some predecessor)).1.transactionMap
      (h node).transactionId = some node ∧
    (addTransaction c h node (some predecessor)).1.allTransactions =
      c.allTransactions ++ [node] ∧
    (predecessor ≠ node →
      ¬ registered (addTransaction c h node (some predecessor)).1 predecessor) :=
  ⟨addTransaction_next_some c h node predecessor,
    addTransaction_previous_some c h node predecessor,
    addTransaction_registered c h node _, rfl,
    fun hne hr => (registered_addTransaction c h node _ predecessor hr).elim hunreg hne⟩

/-- C4 amended, at the empty chain. -/
theorem addTransaction_unregistered_predecessor_witness :
    ((addTransaction TraceabilityChain.empty twoRecords 1 (some 0)).2 0).next = some 1 ∧
    (addTransaction TraceabilityChain.empty twoRecords 1 (some 0)).1.allTransactions = [1] := by
  obtain ⟨h1, -, -, h4, -⟩ :=
    addTransaction_unregistered_predecessor TraceabilityChain.empty twoRecords 1 0 (by decide)
  exact ⟨h1, h4⟩

/-- C8. For a record as its constructor builds it: after `addTransaction` with a
registered predecessor the predecessor's `next` is the record, the record's
`previous` is the predecessor and the identifier index maps the record's
identifier to it; after `addTransaction` without predecessor the index maps the
record's identifier to it and its `previous` and `next` are still null. -/
theorem addTransaction_registers_and_links (c : TraceabilityChain) (h : TxHeap)
    (node predecessor : Nat) (id handler type loc action : String) (crop : Crop) (now : Int)
    (_hreg : registered c predecessor)
    (hnew : h node = TransactionNode.new id handler type loc action crop now) :
    (((addTransaction c h node (some predecessor)).2 predecessor).next = some node ∧
     ((addTransaction c h node (some predecessor)).2 node).previous = some predecessor ∧
     mapFind (addTransaction c h node (some predecessor)).1.transactionMap id = some node) ∧
    (mapFind (addTransaction c h node none).1.transactionMap id = some node ∧
     ((addTransaction c h node none).2 node).previous = none ∧
     ((addTransaction c h node none).2 node).next = none) := by
  have hid : (h node).transactionId = id := by rw [hnew]; rfl
  refine ⟨⟨addTransaction_next_some c h node predecessor,
    addTransaction_previous_some c h node predecessor, ?_⟩, ?_, ?_, ?_⟩
  · rw [← hid]; exact addTransaction_registered c h node _
  · rw [← hid]; exact addTransaction_registered c h node _
  · rw [addTransaction_heap_none, hnew]; rfl
  · rw [addTransaction_heap_none, hnew]; rfl

/-- C8 at a trader record appended after the farmer record it follows. -/
theorem addTransaction_registers_and_links_witness :
    ((addTransaction (addTransaction TraceabilityChain.empty twoRecords 0 none).1 twoRecords 1
      (some 0)).2 0).next = some 1 ∧
    mapFind (addTransaction (addTransaction TraceabilityChain.empty twoRecords 0 none).1
      twoRecords 1 (some 0)).1.transactionMap "TRANS1003" = some 1 ∧
    ((addTransaction (addTransaction TraceabilityChain.empty twoRecords 0 none).1 twoRecords 1
      none).2 1).next = none := by
  obtain ⟨⟨h1, -, h3⟩, -, -, h6⟩ :=
    addTransaction_registers_and_links (addTransaction TraceabilityChain.empty twoRecords 0 none).1
      twoRecords 1 0 "TRANS1003" "T1" "Trader" "Market" "Route to Retailer" wheatCrop 1700000000
      (by decide) rfl
  exact ⟨h1, h3, h6⟩

/-! ## Histories -/

theorem findLatest_none (h : TxHeap) (cropId : String) (m : List (String × Nat))
    (hm : ∀ kv ∈ m, (h kv.2).cropDetails.id ≠ cropId) : findLatest h cropId m none = none := by
  induction m with
  | nil => rfl
  | cons kv m ih =>
    have h1 := hm kv (List.mem_cons_self _ _)
    simp only [findLatest, h1, if_false]
    exact ih (fun kv2 hkv2 => hm kv2 (List.mem_cons_of_mem _ hkv2))

theorem findLatest_mem (h : TxHeap) (cropId : String) (m : List (String × Nat)) :
    ∀ (current : Option Nat) (r : Nat), findLatest h cropId m current = some r →
      r ∈ m.map Prod.snd ∨ current = some r := by
  induction m with
  | nil => intro current r hr; exact Or.inr hr
  | cons kv m ih =>
    intro current r hr
    simp only [findLatest] at hr
    split_ifs at hr with h1
    · cases current with
      | none =>
        rcases ih _ _ hr with h2 | h2
        · exact Or.inl (by simp [h2])
        · simp only [Option.some.injEq] at h2; exact Or.inl (by simp [h2])
      | some c0 =>
        simp only at hr
        split_ifs at hr with h3
        · rcases ih _ _ hr with h2 | h2
          · exact Or.inl (by simp [h2])
          · simp only [Option.some.injEq] at h2; exact Or.inl (by simp [h2])
        · rcases ih _ _ hr with h2 | h2
          · exact Or.inl (by simp [h2])
          · exact Or.inr h2
    · rcases ih _ _ hr with h2 | h2
      · exact Or.inl (by simp [h2])
      · exact Or.inr h2

theorem findLatest_some_of_current (h : TxHeap) (cropId : String) (m : List (String × Nat)) :
    ∀ c0 : Nat, ∃ r, findLatest h cropId m (some c0) = some r := by
  induction m with
  | nil => intro c0; exact ⟨c0, rfl⟩
  | cons kv m ih =>
    intro c0
    simp only [findLatest]
    split_ifs
    · exact ih _
    · exact ih _
    · exact ih _

theorem findLatest_some_of_mem (h : TxHeap) (cropId : String) (m : List (String × Nat))
    (hm : ∃ kv ∈ m, (h kv.2).cropDetails.id = cropId) :
    ∃ r, findLatest h cropId m none = some r := by
  induction m with
  | nil => obtain ⟨kv, hkv, -⟩ := hm; cases hkv
  | cons kv m ih =>
    simp only [findLatest]
    split_ifs with h1
    · exact findLatest_some_of_current h cropId m _
    · obtain ⟨kv2, hkv2, hl⟩ := hm
      rcases List.mem_cons.mp hkv2 with h2 | h2
      · exact absurd (h2 ▸ hl) h1
      · exact ih ⟨kv2, h2, hl⟩

theorem findLatest_lot (h : TxHeap) (cropId : String) (m : List (String × Nat)) :
    ∀ (current : Option Nat) (r : Nat), findLatest h cropId m current = some r →
      (∀ c0, current = some c0 → (h c0).cropDetails.id = cropId) →
      (h r).cropDetails.id = cropId := by
  induction m with
  | nil => intro current r hr hc; exact hc r hr
  | cons kv m ih =>
    intro current r hr hc
    simp only [findLatest] at hr
    split_ifs at hr with h1
    · cases current with
      | none => exact ih _ _ hr (fun c0 hc0 => by cases hc0; exact h1)
      | some c0 =>
        simp only at hr
        split_ifs at hr with h3
        · exact ih _ _ hr (fun c1 hc1 => by cases hc1; exact h1)
        · exact ih _ _ hr hc
    · exact ih _ _ hr hc

/-- C7. When no registered record is of the crop asked for, `getHistory` returns the
empty history, with any budget: no loop runs. -/
theorem getHistory_unknown_crop (fuel : Nat) (c : TraceabilityChain) (h : TxHeap)
    (cropId : String)
    (hunknown : ∀ kv ∈ c.transactionMap, (h kv.2).cropDetails.id ≠ cropId) :
    getHistory fuel c h cropId = some [] := by
  simp [getHistory, findLatest_none h cropId c.transactionMap hunknown]

/-- C7 at the empty chain and at a chain that holds a record of another crop. -/
theorem getHistory_unknown_crop_witness :
    getHistory 0 TraceabilityChain.empty twoRecords "CROP1001" = some [] ∧
    getHistory 0 (addTransaction TraceabilityChain.empty twoRecords 0 none).1
      (addTransaction TraceabilityChain.empty twoRecords 0 none).2 "CROP2000" = some [] :=
  ⟨getHistory_unknown_crop 0 TraceabilityChain.empty twoRecords "CROP1001"
      (by intro kv hkv; cases hkv),
   getHistory_unknown_crop 0 _ _ "CROP2000" (by decide)⟩

/-! ## Acyclic chains -/

theorem chainInv_empty (h : TxHeap) : ChainInv TraceabilityChain.empty h := by
  refine ⟨List.nodup_nil, ?_, ?_, ?_⟩
  · intro p hp; simp [registered, TraceabilityChain.empty] at hp
  · intro p hp; simp [TraceabilityChain.empty] at hp
  · intro p hp; simp [TraceabilityChain.empty] at hp

theorem chainInv_addTransaction {c : TraceabilityChain} {h : TxHeap} (hinv : ChainInv c h)
    (node : Nat) (previous : Option Nat) (hnew : node ∉ c.allTransactions)
    (hprev : (h node).previous = none) (hnext : (h node).next = none)
    (hreg : ∀ p, previous = some p → registered c p) :
    ChainInv (addTransaction c h node previous).1
      (addTransaction c h node previous).2 := by
  obtain ⟨hnd, hregL, hP, hN⟩ := hinv
  have hidx_old : ∀ a ∈ c.allTransactions,
      (c.allTransactions ++ [node]).indexOf a = c.allTransactions.indexOf a :=
    fun a ha => List.indexOf_append_of_mem ha
  have hidx_new : (c.allTransactions ++ [node]).indexOf node = c.allTransactions.length := by
    rw [List.indexOf_append_of_not_mem hnew]; simp
  have hlt : ∀ a ∈ c.allTransactions, c.allTransactions.indexOf a < c.allTransactions.length :=
    fun a ha => List.indexOf_lt_length.mpr ha
  refine ⟨?_, ?_, ?_, ?_⟩
  · rw [addTransaction_allTransactions]
    exact List.Nodup.append hnd (List.nodup_singleton _) (by simpa using hnew)
  · intro p hp
    rw [addTransaction_allTransactions]
    rcases registered_addTransaction c h node previous p hp with h1 | h1
    · exact List.mem_append_left _ (hregL p h1)
    · simp [h1]
  · intro p hp q hq
    rw [addTransaction_allTransactions] at hp ⊢
    cases previous with
    | none =>
      rw [addTransaction_heap_none] at hq
      rcases List.mem_append.mp hp with h1 | h1
      · obtain ⟨hqL, hlt2⟩ := hP p h1 q hq
        exact ⟨List.mem_append_left _ hqL, by rw [hidx_old q hqL, hidx_old p h1]; exact hlt2⟩
      · simp only [List.mem_singleton] at h1; subst h1; rw [hprev] at hq; cases hq
    | some p0 =>
      have hp0 : p0 ∈ c.allTransactions := hregL p0 (hreg p0 rfl)
      have hne : node ≠ p0 := fun e => hnew (e ▸ hp0)
      rcases List.mem_append.mp hp with h1 | h1
      · have hpn : p ≠ node := fun e => hnew (e ▸ h1)
        have hsame : ((addTransaction c h node (some p0)).2 p).previous
            = (h p).previous := by
          by_cases hpp : p = p0
          · subst hpp; rw [addTransaction_heap_pred c h node p hne]
          · rw [addTransaction_heap_other c h node p0 p hpn hpp]
        rw [hsame] at hq
        obtain ⟨hqL, hlt2⟩ := hP p h1 q hq
        exact ⟨List.mem_append_left _ hqL, by rw [hidx_old q hqL, hidx_old p h1]; exact hlt2⟩
      · simp only [List.mem_singleton] at h1; subst h1
        rw [addTransaction_heap_node c h p p0 hne] at hq
        simp only [Option.some.injEq] at hq; subst hq
        exact ⟨List.mem_append_left _ hp0, by rw [hidx_old _ hp0, hidx_new]; exact hlt _ hp0⟩
  · intro p hp q hq
    rw [addTransaction_allTransactions] at hp ⊢
    cases previous with
    | none =>
      rw [addTransaction_heap_none] at hq
      rcases List.mem_append.mp hp with h1 | h1
      · obtain ⟨hqL, hlt2⟩ := hN p h1 q hq
        exact ⟨List.mem_append_left _ hqL, by rw [hidx_old q hqL, hidx_old p h1]; exact hlt2⟩
      · simp only [List.mem_singleton] at h1; subst h1; rw [hnext] at hq; cases hq
    | some p0 =>
      have hp0 : p0 ∈ c.allTransactions := hregL p0 (hreg p0 rfl)
      have hne : node ≠ p0 := fun e => hnew (e ▸ hp0)
      rcases List.mem_append.mp hp with h1 | h1
      · have hpn : p ≠ node := fun e => hnew (e ▸ h1)
        by_cases hpp : p = p0
        · subst hpp
          rw [addTransaction_heap_pred c h node p hne] at hq
          simp only [Option.some.injEq] at hq; subst hq
          exact ⟨by simp, by rw [hidx_old _ h1, hidx_new]; exact hlt _ h1⟩
        · rw [addTransaction_heap_other c h node p0 p hpn hpp] at hq
          obtain ⟨hqL, hlt2⟩ := hN p h1 q hq
          exact ⟨List.mem_append_left _ hqL, by rw [hidx_old q hqL, hidx_old p h1]; exact hlt2⟩
      · simp only [List.mem_singleton] at h1; subst h1
        rw [addTransaction_heap_node c h p p0 hne] at hq
        simp only [hnext] at hq; cases hq

theorem appendAll_ChainInv (calls : List (Nat × Option Nat)) :
    ∀ (c : TraceabilityChain) (h : TxHeap), ChainInv c h → NewRecords c h calls →
      PredecessorsRegistered c h calls → ChainInv (appendAll c h calls).1 (appendAll c h calls).2 := by
  induction calls with
  | nil => intro c h hinv _ _; exact hinv
  | cons call rest ih =>
    intro c h hinv hnew hreg
    obtain ⟨⟨h1, h2, h3⟩, hnew2⟩ := hnew
    obtain ⟨h4, hreg2⟩ := hreg
    exact ih _ _ (chainInv_addTransaction hinv call.1 call.2 h1 h2 h3 h4) hnew2 hreg2

theorem toOrigin_terminates {c : TraceabilityChain} {h : TxHeap} (hinv : ChainInv c h) :
    ∀ (n p fuel : Nat), p ∈ c.allTransactions → c.allTransactions.indexOf p = n → n ≤ fuel →
      ∃ o, toOrigin h fuel p = some o ∧ o ∈ c.allTransactions ∧ (h o).previous = none := by
  intro n
  induction n using Nat.strong_induction_on with
  | _ n ih =>
    intro p fuel hp hidx hfuel
    cases hprev : (h p).previous with
    | none =>
      refine ⟨p, ?_, hp, hprev⟩
      cases fuel <;> simp [toOrigin, hprev]
    | some q =>
      obtain ⟨hq, hlt⟩ := hinv.2.2.1 p hp q hprev
      cases fuel with
      | zero => omega
      | succ f =>
        obtain ⟨o, ho, hoL, hoP⟩ := ih _ (hidx ▸ hlt) q f hq rfl (by omega)
        refine ⟨o, ?_, hoL, hoP⟩
        rw [toOrigin]
        simp only [hprev]
        exact ho

theorem collectForward_terminates {c : TraceabilityChain} {h : TxHeap} (hinv : ChainInv c h) :
    ∀ (k p fuel : Nat) (acc : List Nat), p ∈ c.allTransactions →
      c.allTransactions.length - c.allTransactions.indexOf p = k → k ≤ fuel →
      ∃ hist, collectForward h fuel (some p) acc = some hist := by
  intro k
  induction k using Nat.strong_induction_on with
  | _ k ih =>
    intro p fuel acc hp hk hfuel
    have hlt := List.indexOf_lt_length.mpr hp
    cases fuel with
    | zero => omega
    | succ f =>
      rw [collectForward]
      cases hnext : (h p).next with
      | none => exact ⟨_, by cases f <;> rfl⟩
      | some q =>
        obtain ⟨hq, hlt2⟩ := hinv.2.2.2 p hp q hnext
        exact ih _ (by omega) q f _ hq rfl (by omega)

theorem walk_none (h : TxHeap) (link : TransactionNode → Option Nat) (n : Nat) :
    walk h link n none = none := by
  cases n <;> rfl

theorem walk_add (h : TxHeap) (link : TransactionNode → Option Nat) (m : Nat) :
    ∀ (n : Nat) (p : Option Nat), walk h link (n + m) p = walk h link m (walk h link n p) := by
  intro n
  induction n with
  | zero => intro p; rw [Nat.zero_add]; rfl
  | succ n ih =>
    intro p
    cases p with
    | none => rw [walk_none, walk_none, walk_none]
    | some a =>
      rw [show n + 1 + m = (n + m) + 1 by omega, walk, walk, ih]

theorem walk_previous_ends {c : TraceabilityChain} {h : TxHeap} (hinv : ChainInv c h) :
    ∀ (n p : Nat), p ∈ c.allTransactions → c.allTransactions.indexOf p = n →
      walk h TransactionNode.previous (n + 1) (some p) = none := by
  intro n
  induction n using Nat.strong_induction_on with
  | _ n ih =>
    intro p hp hidx
    rw [walk]
    cases hprev : (h p).previous with
    | none => exact walk_none _ _ _
    | some q =>
      obtain ⟨hq, hlt⟩ := hinv.2.2.1 p hp q hprev
      have hend := ih _ (hidx ▸ hlt) q hq rfl
      obtain ⟨m, hm⟩ : ∃ m, n = (c.allTransactions.indexOf q + 1) + m :=
        ⟨n - (c.allTransactions.indexOf q + 1), by omega⟩
      rw [hm, walk_add, hend, walk_none]

theorem walk_next_ends {c : TraceabilityChain} {h : TxHeap} (hinv : ChainInv c h) :
    ∀ (k p : Nat), p ∈ c.allTransactions →
      c.allTransactions.length - c.allTransactions.indexOf p = k →
      walk h TransactionNode.next k (some p) = none := by
  intro k
  induction k using Nat.strong_induction_on with
  | _ k ih =>
    intro p hp hk
    have hlt := List.indexOf_lt_length.mpr hp
    obtain ⟨k1, rfl⟩ : ∃ k1, k = k1 + 1 := ⟨k - 1, by omega⟩
    rw [walk]
    cases hnext : (h p).next with
    | none => exact walk_none _ _ _
    | some q =>
      obtain ⟨hq, hlt2⟩ := hinv.2.2.2 p hp q hnext
      have hend := ih _ (by omega) q hq rfl
      obtain ⟨m, hm⟩ : ∃ m, k1 =
          (c.allTransactions.length - c.allTransactions.indexOf q) + m :=
        ⟨k1 - (c.allTransactions.length - c.allTransactions.indexOf q), by omega⟩
      rw [hm, walk_add, hend, walk_none]

theorem getHistory_terminates {c : TraceabilityChain} {h : TxHeap} (hinv : ChainInv c h)
    (cropId : String) (fuel : Nat) (hfuel : c.allTransactions.length ≤ fuel) :
    ∃ hist, getHistory fuel c h cropId = some hist := by
  unfold getHistory
  cases hcur : findLatest h cropId c.transactionMap none with
  | none => exact ⟨[], rfl⟩
  | some cur =>
    have hmem : cur ∈ c.allTransactions := by
      rcases findLatest_mem h cropId _ _ _ hcur with h1 | h1
      · exact hinv.2.1 cur h1
      · cases h1
    obtain ⟨o, ho, hoL, -⟩ := toOrigin_terminates hinv _ cur fuel hmem rfl
      (le_trans (le_of_lt (List.indexOf_lt_length.mpr hmem)) hfuel)
    simp only [ho]
    exact collectForward_terminates hinv _ o fuel [] hoL rfl (le_trans (Nat.sub_le _ _) hfuel)

theorem toOrigin_self_loop (h : TxHeap) (a : Nat) (hloop : (h a).previous = some a) :
    ∀ fuel, toOrigin h fuel a = none := by
  intro fuel
  induction fuel with
  | zero => simp [toOrigin, hloop]
  | succ f ih => rw [toOrigin]; simp only [hloop]; exact ih

theorem walk_self_loop (h : TxHeap) (link : TransactionNode → Option Nat) (a : Nat)
    (hloop : link (h a) = some a) : ∀ n, walk h link n (some a) = some a := by
  intro n
  induction n with
  | zero => rfl
  | succ n ih => rw [walk, hloop]; exact ih

/-- C6, counterexample: a registered record appended again with itself as
predecessor, which is registered at that time, becomes its own `previous` and
`next`; no number of steps leads from it to null and `getHistory` of its crop
ends within no budget. -/
theorem append_creates_cycle :
    PredecessorsRegistered TraceabilityChain.empty twoRecords [(0, none), (0, some 0)] ∧
    registered (appendAll TraceabilityChain.empty twoRecords [(0, none), (0, some 0)]).1 0 ∧
    (∀ n, walk (appendAll TraceabilityChain.empty twoRecords [(0, none), (0, some 0)]).2
      TransactionNode.previous n (some 0) = some 0) ∧
    (∀ n, walk (appendAll TraceabilityChain.empty twoRecords [(0, none), (0, some 0)]).2
      TransactionNode.next n (some 0) = some 0) ∧
    (∀ fuel, getHistory fuel (appendAll TraceabilityChain.empty twoRecords [(0, none), (0, some 0)]).1
      (appendAll TraceabilityChain.empty twoRecords [(0, none), (0, some 0)]).2 "CROP1001" = none) := by
  refine ⟨⟨by simp, ⟨by intro p hp; cases hp; decide, trivial⟩⟩, by decide, ?_, ?_, ?_⟩
  · exact walk_self_loop _ _ 0 rfl
  · exact walk_self_loop _ _ 0 rfl
  · intro fuel
    have hcur : findLatest (appendAll TraceabilityChain.empty twoRecords [(0, none), (0, some 0)]).2
        "CROP1001" (appendAll TraceabilityChain.empty twoRecords [(0, none), (0, some 0)]).1.transactionMap
        none = some 0 := by decide
    simp only [getHistory, hcur]
    rw [toOrigin_self_loop _ 0 rfl]

/-- C6, amended. When every appended record is new (not appended before, links
null) and every predecessor is registered when used, then from every registered
record finitely many steps along `previous`, and along `next`, lead to null, and
`getHistory` returns for every crop once the budget covers the number of
appended records. -/
theorem appends_of_new_records_acyclic (h0 : TxHeap) (calls : List (Nat × Option Nat))
    (hnew : NewRecords TraceabilityChain.empty h0 calls)
    (hreg : PredecessorsRegistered TraceabilityChain.empty h0 calls) :
    (∀ p, registered (appendAll TraceabilityChain.empty h0 calls).1 p →
      (∃ n, walk (appendAll TraceabilityChain.empty h0 calls).2 TransactionNode.previous n
        (some p) = none) ∧
      (∃ n, walk (appendAll TraceabilityChain.empty h0 calls).2 TransactionNode.next n
        (some p) = none)) ∧
    (∀ cropId fuel, (appendAll TraceabilityChain.empty h0 calls).1.allTransactions.length ≤ fuel →
      ∃ hist, getHistory fuel (appendAll TraceabilityChain.empty h0 calls).1
        (appendAll TraceabilityChain.empty h0 calls).2 cropId = some hist) := by
  have hinv := appendAll_ChainInv calls _ _ (chainInv_empty h0) hnew hreg
  refine ⟨fun p hp => ⟨⟨_, walk_previous_ends hinv _ p (hinv.2.1 p hp) rfl⟩,
    ⟨_, walk_next_ends hinv _ p (hinv.2.1 p hp) rfl⟩⟩, ?_⟩
  intro cropId fuel hfuel
  exact getHistory_terminates hinv cropId fuel hfuel

/-- C6 amended, at a farmer record followed by a trader record. -/
theorem appends_of_new_records_acyclic_witness :
    ∃ hist, getHistory 2 (appendAll TraceabilityChain.empty twoRecords [(0, none), (1, some 0)]).1
      (appendAll TraceabilityChain.empty twoRecords [(0, none), (1, some 0)]).2 "CROP1001"
      = some hist :=
  (appends_of_new_records_acyclic twoRecords [(0, none), (1, some 0)]
    ⟨⟨by decide, rfl, rfl⟩, ⟨by decide, rfl, rfl⟩, trivial⟩
    ⟨by simp, ⟨by intro p hp; cases hp; decide, trivial⟩⟩).2 "CROP1001" 2 (by decide)

/-! ## Histories of orderly chains -/

theorem lotInv_empty (h : TxHeap) : LotInv TraceabilityChain.empty h := by
  refine ⟨?_, ?_, ?_, ?_⟩ <;> intro p hp <;> simp [TraceabilityChain.empty] at hp

theorem lotInv_addTransaction {c : TraceabilityChain} {h : TxHeap} (hc : ChainInv c h)
    (hinv : LotInv c h) (node : Nat) (previous : Option Nat)
    (hnew : node ∉ c.allTransactions)
    (hprev : (h node).previous = none) (hnext : (h node).next = none)
    (hfresh : mapFind c.transactionMap (h node).transactionId = none)
    (hcall : match previous with
       | none => ∀ q ∈ c.allTransactions, (h q).cropDetails.id ≠ (h node).cropDetails.id
       | some p =>
         registered c p ∧ (h p).next = none ∧
         (h p).cropDetails.id = (h node).cropDetails.id ∧
         (h p).timestamp ≤ (h node).timestamp) :
    LotInv (addTransaction c h node previous).1
      (addTransaction c h node previous).2 := by
  obtain ⟨hJ, hF, hG, hK⟩ := hinv
  have hmem : ∀ p, p ∈ (addTransaction c h node previous).1.allTransactions ↔
      p ∈ c.allTransactions ∨ p = node := by
    intro p; rw [addTransaction_allTransactions]; simp
  have hlot : ∀ a, ((addTransaction c h node previous).2 a).cropDetails.id
      = (h a).cropDetails.id := fun a => by rw [(addTransaction_fields c h node previous a).1]
  have hts : ∀ a, ((addTransaction c h node previous).2 a).timestamp
      = (h a).timestamp := fun a => (addTransaction_fields c h node previous a).2
  -- a record that has no successor after the call had none before and is not the predecessor
  have hend : ∀ a, ((addTransaction c h node previous).2 a).next = none →
      previous ≠ some a ∧ (h a).next = none := by
    intro a ha
    rw [addTransaction_next] at ha
    split_ifs at ha with h1
    exact ⟨h1, ha⟩
  -- the new record is the only end of its crop among the old records and itself
  have hnewend : ∀ q ∈ c.allTransactions, previous ≠ some q → (h q).next = none →
      (h q).cropDetails.id ≠ (h node).cropDetails.id := by
    intro q hq hne hqn hl
    cases previous with
    | none => exact hcall q hq hl
    | some p0 =>
      obtain ⟨hreg, hp0n, hp0l, -⟩ := hcall
      have hp0 : p0 ∈ c.allTransactions := hc.2.1 p0 hreg
      exact hne (by rw [hK p0 hp0 q hq hp0n hqn (hp0l.trans hl.symm)])
  refine ⟨?_, ?_, ?_, ?_⟩
  · intro p hp
    rcases (hmem p).mp hp with h1 | h1
    · exact registered_addTransaction_of_registered c h node previous p (hJ p h1) hfresh
    · rw [h1]; exact registered_addTransaction_self c h node previous
  · intro p hp q hq
    rw [hlot, hlot, hts, hts]
    rw [addTransaction_next] at hq
    split_ifs at hq with h1
    · simp only [Option.some.injEq] at hq; subst hq
      subst h1
      obtain ⟨-, -, hl, ht⟩ := hcall
      exact ⟨hl.symm, ht⟩
    · rcases (hmem p).mp hp with h2 | h2
      · exact hF p h2 q hq
      · rw [h2, hnext] at hq; cases hq
  · intro p hp q hq
    rw [hlot, hlot]
    rw [addTransaction_previous] at hq
    split_ifs at hq with h1
    · obtain ⟨h2, -⟩ := h1
      subst h2 hq
      obtain ⟨-, -, hl, -⟩ := hcall
      exact hl
    · rcases (hmem p).mp hp with h2 | h2
      · exact hG p h2 q hq
      · rw [h2, hprev] at hq; cases hq
  · intro p hp q hq hpn hqn hl
    rw [hlot, hlot] at hl
    obtain ⟨hp1, hp2⟩ := hend p hpn
    obtain ⟨hq1, hq2⟩ := hend q hqn
    rcases (hmem p).mp hp with h1 | h1 <;> rcases (hmem q).mp hq with h2 | h2
    · exact hK p h1 q h2 hp2 hq2 hl
    · subst h2; exact absurd hl (hnewend p h1 hp1 hp2)
    · subst h1; exact absurd hl.symm (hnewend q h2 hq1 hq2)
    · rw [h1, h2]

theorem appendAll_orderly (calls : List (Nat × Option Nat)) :
    ∀ (c : TraceabilityChain) (h : TxHeap), ChainInv c h → LotInv c h →
      OrderlyAppends c h calls →
      ChainInv (appendAll c h calls).1 (appendAll c h calls).2 ∧
      LotInv (appendAll c h calls).1 (appendAll c h calls).2 := by
  induction calls with
  | nil => intro c h hc hl _; exact ⟨hc, hl⟩
  | cons call rest ih =>
    intro c h hc hl hcalls
    obtain ⟨⟨h1, h2, h3, h4, h5⟩, hrest⟩ := hcalls
    refine ih _ _ (chainInv_addTransaction hc call.1 call.2 h1 h2 h3 ?_)
      (lotInv_addTransaction hc hl call.1 call.2 h1 h2 h3 h4 h5) hrest
    intro p hp
    rw [hp] at h5
    exact h5.1

theorem toOrigin_lot {c : TraceabilityChain} {h : TxHeap} (hc : ChainInv c h)
    (hl : LotInv c h) :
    ∀ (fuel p o : Nat), p ∈ c.allTransactions → toOrigin h fuel p = some o →
      (h o).cropDetails.id = (h p).cropDetails.id := by
  intro fuel
  induction fuel with
  | zero =>
    intro p o hp ho
    rw [toOrigin] at ho
    cases hprev : (h p).previous with
    | none => simp only [hprev, Option.some.injEq] at ho; rw [ho]
    | some q => simp [hprev] at ho
  | succ f ih =>
    intro p o hp ho
    rw [toOrigin] at ho
    cases hprev : (h p).previous with
    | none => simp only [hprev, Option.some.injEq] at ho; rw [ho]
    | some q =>
      simp only [hprev] at ho
      exact (ih q o (hc.2.2.1 p hp q hprev).1 ho).trans (hl.2.2.1 p hp q hprev)

/-- What the second loop of `getHistory` collects from a record of an orderly
chain. -/
theorem collectForward_spec {c : TraceabilityChain} {h : TxHeap} (hc : ChainInv c h)
    (hl : LotInv c h) :
    ∀ (fuel p : Nat) (acc r : List Nat), p ∈ c.allTransactions →
      collectForward h fuel (some p) acc = some r →
      ∃ path e, r = acc ++ p :: path ∧ (p :: path).getLast? = some e ∧
        (h e).next = none ∧ e ∈ c.allTransactions ∧
        (h e).cropDetails.id = (h p).cropDetails.id ∧
        (p :: path).Chain' (fun a b => (h a).timestamp ≤ (h b).timestamp) := by
  intro fuel
  induction fuel with
  | zero => intro p acc r _ hr; simp [collectForward] at hr
  | succ f ih =>
    intro p acc r hp hr
    rw [collectForward] at hr
    cases hnext : (h p).next with
    | none =>
      rw [hnext] at hr
      have : r = acc ++ [p] := by cases f <;> simpa [collectForward] using hr.symm
      exact ⟨[], p, this, rfl, hnext, hp, rfl, List.chain'_singleton _⟩
    | some q =>
      rw [hnext] at hr
      obtain ⟨hq, -⟩ := hc.2.2.2 p hp q hnext
      obtain ⟨hlq, htq⟩ := hl.2.1 p hp q hnext
      obtain ⟨path, e, hr2, he, hen, heL, hel, hch⟩ := ih q _ r hq hr
      refine ⟨q :: path, e, by simp [hr2], ?_, hen, heL, hel.trans hlq, ?_⟩
      · rw [List.getLast?_cons_cons]; exact he
      · exact List.Chain'.cons htq hch

/-- In a duplicate-free list an element with a greater index than `m` stands after
`m`. -/
theorem indexOf_lt_of_split (l1 l2 : List Nat) (m q : Nat)
    (hnd : (l1 ++ m :: l2).Nodup) (hq : q ∈ l1 ++ m :: l2)
    (hlt : (l1 ++ m :: l2).indexOf m < (l1 ++ m :: l2).indexOf q) : q ∈ l2 := by
  have hm : m ∉ l1 := by
    intro hm
    have := List.nodup_append.mp hnd
    exact this.2.2 hm (List.mem_cons_self _ _) 
  have hidx : (l1 ++ m :: l2).indexOf m = l1.length := by
    rw [List.indexOf_append_of_not_mem hm]; simp
  rcases List.mem_append.mp hq with h1 | h1
  · have := List.indexOf_lt_length.mpr h1
    rw [List.indexOf_append_of_mem h1] at hlt
    omega
  · rcases List.mem_cons.mp h1 with h2 | h2
    · subst h2; omega
    · exact h2

/-- The last element that satisfies a predicate some element satisfies. -/
theorem exists_last_of_lot (P : Nat → Prop) [DecidablePred P] :
    ∀ l : List Nat, (∃ x ∈ l, P x) →
      ∃ l1 m l2, l = l1 ++ m :: l2 ∧ P m ∧ ∀ x ∈ l2, ¬ P x := by
  intro l
  induction l with
  | nil => rintro ⟨x, hx, -⟩; cases hx
  | cons a t ih =>
    intro hex
    by_cases ht : ∃ x ∈ t, P x
    · obtain ⟨l1, m, l2, hl, hm, hl2⟩ := ih ht
      exact ⟨a :: l1, m, l2, by rw [hl]; rfl, hm, hl2⟩
    · obtain ⟨x, hx, hPx⟩ := hex
      rcases List.mem_cons.mp hx with h1 | h1
      · subst h1
        exact ⟨[], x, t, rfl, hPx, fun y hy hPy => ht ⟨y, hy, hPy⟩⟩
      · exact absurd ⟨x, h1, hPx⟩ ht

/-- With every condition asked for, `AppendsUnder` is `OrderlyAppends`. -/
theorem appendsUnder_all (calls : List (Nat × Option Nat)) :
    ∀ (c : TraceabilityChain) (h : TxHeap),
      AppendsUnder ⟨true, true, true, true, true⟩ c h calls ↔ OrderlyAppends c h calls := by
  induction calls with
  | nil => intro c h; exact Iff.rfl
  | cons call rest ih =>
    intro c h
    obtain ⟨node, previous⟩ := call
    cases previous with
    | none => simp [AppendsUnder, OrderlyAppends, ih]
    | some p => simp [AppendsUnder, OrderlyAppends, ih]

/-- Under any rules every predecessor is registered when it is used. -/
theorem appendsUnder_registered (rules : AppendRules) (calls : List (Nat × Option Nat)) :
    ∀ (c : TraceabilityChain) (h : TxHeap),
      AppendsUnder rules c h calls → PredecessorsRegistered c h calls := by
  induction calls with
  | nil => intro c h _; trivial
  | cons call rest ih =>
    intro c h hcalls
    obtain ⟨node, previous⟩ := call
    obtain ⟨⟨-, -, -, -, hm⟩, hrest⟩ := hcalls
    refine ⟨?_, ih _ _ hrest⟩
    intro p hp
    simp only at hp
    subst hp
    exact hm.1

/-- C5, counterexample: seven chains, in each of which every predecessor is registered
when it is used.
1. A farmer record and the trader record that follows it, built in the same second,
   appended in an orderly way: the history holds both and the timestamp does not
   increase from the first to the second.
2. A record appended a second time, with itself as predecessor: `getHistory` of its
   crop returns within no budget.
3. Two records with the same transaction identifier and different crops: the
   history of the first record's crop is empty.
4. Two unlinked records of one crop, the first stamped later: the history is the
   first record alone, and the record of the crop appended last is the second.
5. A record with two successors, one of which has a successor: the history of the
   crop does not end at the record appended last.
6. A record whose successor carries another crop: the history of the record's crop
   ends at the successor, and the record of the crop appended last is the record.
7. A record whose successor is stamped earlier: the history holds both and the
   timestamp decreases.
Chains 3 to 7 meet every condition of `OrderlyAppends` except the one they show to
be needed. -/
theorem getHistory_valid_chain_counterexample :
    (OrderlyAppends TraceabilityChain.empty twoRecords [(0, none), (1, some 0)] ∧
      getHistory 2 (appendAll TraceabilityChain.empty twoRecords [(0, none), (1, some 0)]).1
        (appendAll TraceabilityChain.empty twoRecords [(0, none), (1, some 0)]).2 "CROP1001"
        = some [0, 1] ∧
      ¬ ((appendAll TraceabilityChain.empty twoRecords [(0, none), (1, some 0)]).2 0).timestamp <
        ((appendAll TraceabilityChain.empty twoRecords [(0, none), (1, some 0)]).2 1).timestamp) ∧
    (PredecessorsRegistered TraceabilityChain.empty twoRecords [(0, none), (0, some 0)] ∧
      0 ∈ (appendAll TraceabilityChain.empty twoRecords
        [(0, none), (0, some 0)]).1.allTransactions ∧
      ((appendAll TraceabilityChain.empty twoRecords [(0, none), (0, some 0)]).2 0).cropDetails.id
        = "CROP1001" ∧
      ∀ fuel, getHistory fuel
        (appendAll TraceabilityChain.empty twoRecords [(0, none), (0, some 0)]).1
        (appendAll TraceabilityChain.empty twoRecords [(0, none), (0, some 0)]).2 "CROP1001"
        = none) ∧
    (AppendsUnder ⟨false, true, true, true, true⟩ TraceabilityChain.empty
        (recordsOf [("T1", "LOT1", 100), ("T1", "LOT2", 100)]) [(0, none), (1, none)] ∧
      0 ∈ (appendAll TraceabilityChain.empty
        (recordsOf [("T1", "LOT1", 100), ("T1", "LOT2", 100)])
        [(0, none), (1, none)]).1.allTransactions ∧
      ((appendAll TraceabilityChain.empty (recordsOf [("T1", "LOT1", 100), ("T1", "LOT2", 100)])
        [(0, none), (1, none)]).2 0).cropDetails.id = "LOT1" ∧
      getHistory 2
        (appendAll TraceabilityChain.empty (recordsOf [("T1", "LOT1", 100), ("T1", "LOT2", 100)])
          [(0, none), (1, none)]).1
        (appendAll TraceabilityChain.empty (recordsOf [("T1", "LOT1", 100), ("T1", "LOT2", 100)])
          [(0, none), (1, none)]).2 "LOT1" = some []) ∧
    (AppendsUnder ⟨true, false, true, true, true⟩ TraceabilityChain.empty
        (recordsOf [("T1", "LOT1", 200), ("T2", "LOT1", 100)]) [(0, none), (1, none)] ∧
      getHistory 2
        (appendAll TraceabilityChain.empty (recordsOf [("T1", "LOT1", 200), ("T2", "LOT1", 100)])
          [(0, none), (1, none)]).1
        (appendAll TraceabilityChain.empty (recordsOf [("T1", "LOT1", 200), ("T2", "LOT1", 100)])
          [(0, none), (1, none)]).2 "LOT1" = some [0] ∧
      ((appendAll TraceabilityChain.empty (recordsOf [("T1", "LOT1", 200), ("T2", "LOT1", 100)])
          [(0, none), (1, none)]).1.allTransactions.filter
        (fun p => decide (((appendAll TraceabilityChain.empty
          (recordsOf [("T1", "LOT1", 200), ("T2", "LOT1", 100)])
          [(0, none), (1, none)]).2 p).cropDetails.id = "LOT1"))).getLast? = some 1) ∧
    (AppendsUnder ⟨true, true, false, true, true⟩ TraceabilityChain.empty
        (recordsOf [("T1", "LOT1", 1), ("T2", "LOT1", 2), ("T3", "LOT1", 3), ("T4", "LOT1", 4)])
        [(0, none), (1, some 0), (2, some 0), (3, some 1)] ∧
      getHistory 4
        (appendAll TraceabilityChain.empty
          (recordsOf [("T1", "LOT1", 1), ("T2", "LOT1", 2), ("T3", "LOT1", 3), ("T4", "LOT1", 4)])
          [(0, none), (1, some 0), (2, some 0), (3, some 1)]).1
        (appendAll TraceabilityChain.empty
          (recordsOf [("T1", "LOT1", 1), ("T2", "LOT1", 2), ("T3", "LOT1", 3), ("T4", "LOT1", 4)])
          [(0, none), (1, some 0), (2, some 0), (3, some 1)]).2 "LOT1" = some [0, 2] ∧
      ((appendAll TraceabilityChain.empty
          (recordsOf [("T1", "LOT1", 1), ("T2", "LOT1", 2), ("T3", "LOT1", 3), ("T4", "LOT1", 4)])
          [(0, none), (1, some 0), (2, some 0), (3, some 1)]).1.allTransactions.filter
        (fun p => decide (((appendAll TraceabilityChain.empty
          (recordsOf [("T1", "LOT1", 1), ("T2", "LOT1", 2), ("T3", "LOT1", 3), ("T4", "LOT1", 4)])
          [(0, none), (1, some 0), (2, some 0), (3, some 1)]).2 p).cropDetails.id
            = "LOT1"))).getLast? = some 3) ∧
    (AppendsUnder ⟨true, true, true, false, true⟩ TraceabilityChain.empty
        (recordsOf [("T1", "LOT1", 100), ("T2", "LOT2", 100)]) [(0, none), (1, some 0)] ∧
      getHistory 2
        (appendAll TraceabilityChain.empty (recordsOf [("T1", "LOT1", 100), ("T2", "LOT2", 100)])
          [(0, none), (1, some 0)]).1
        (appendAll TraceabilityChain.empty (recordsOf [("T1", "LOT1", 100), ("T2", "LOT2", 100)])
          [(0, none), (1, some 0)]).2 "LOT1" = some [0, 1] ∧
      ((appendAll TraceabilityChain.empty (recordsOf [("T1", "LOT1", 100), ("T2", "LOT2", 100)])
          [(0, none), (1, some 0)]).1.allTransactions.filter
        (fun p => decide (((appendAll TraceabilityChain.empty
          (recordsOf [("T1", "LOT1", 100), ("T2", "LOT2", 100)])
          [(0, none), (1, some 0)]).2 p).cropDetails.id = "LOT1"))).getLast? = some 0) ∧
    (AppendsUnder ⟨true, true, true, true, false⟩ TraceabilityChain.empty
        (recordsOf [("T1", "LOT1", 200), ("T2", "LOT1", 100)]) [(0, none), (1, some 0)] ∧
      getHistory 2
        (appendAll TraceabilityChain.empty (recordsOf [("T1", "LOT1", 200), ("T2", "LOT1", 100)])
          [(0, none), (1, some 0)]).1
        (appendAll TraceabilityChain.empty (recordsOf [("T1", "LOT1", 200), ("T2", "LOT1", 100)])
          [(0, none), (1, some 0)]).2 "LOT1" = some [0, 1] ∧
      ¬ ((appendAll TraceabilityChain.empty (recordsOf [("T1", "LOT1", 200), ("T2", "LOT1", 100)])
          [(0, none), (1, some 0)]).2 0).timestamp ≤
        ((appendAll TraceabilityChain.empty (recordsOf [("T1", "LOT1", 200), ("T2", "LOT1", 100)])
          [(0, none), (1, some 0)]).2 1).timestamp) := by
  refine ⟨⟨?_, by decide, by decide⟩, ⟨?_, by decide, by decide, ?_⟩, ⟨?_, by decide, by decide, by decide⟩,
    ⟨?_, by decide, by decide⟩, ⟨?_, by decide, by decide⟩, ⟨?_, by decide, by decide⟩,
    ⟨?_, by decide, by decide⟩⟩
  · exact ⟨⟨by decide, rfl, rfl, rfl, fun q hq => by cases hq⟩,
      ⟨by decide, rfl, rfl, rfl, ⟨by decide, rfl, rfl, le_refl _⟩⟩, trivial⟩
  · exact ⟨by simp, ⟨by intro p hp; cases hp; decide, trivial⟩⟩
  · intro fuel
    have hcur : findLatest (appendAll TraceabilityChain.empty twoRecords [(0, none), (0, some 0)]).2
        "CROP1001" (appendAll TraceabilityChain.empty twoRecords [(0, none), (0, some 0)]).1.transactionMap
        none = some 0 := by decide
    simp only [getHistory, hcur]
    rw [toOrigin_self_loop _ 0 rfl]
  · exact ⟨⟨by decide, rfl, rfl, fun _ => rfl, fun _ q hq => by cases hq⟩,
      ⟨by decide, rfl, rfl, fun hflag => absurd hflag (by decide), fun _ => by decide⟩, trivial⟩
  · exact ⟨⟨by decide, rfl, rfl, fun _ => rfl, fun _ q hq => by cases hq⟩,
      ⟨by decide, rfl, rfl, fun _ => rfl, fun hflag => absurd hflag (by decide)⟩, trivial⟩
  · exact ⟨⟨by decide, rfl, rfl, fun _ => rfl, fun _ q hq => by cases hq⟩,
      ⟨by decide, rfl, rfl, fun _ => rfl,
        ⟨by decide, fun _ => rfl, fun _ => rfl, fun _ => by decide⟩⟩,
      ⟨by decide, rfl, rfl, fun _ => rfl,
        ⟨by decide, fun hflag => absurd hflag (by decide), fun _ => rfl, fun _ => by decide⟩⟩,
      ⟨by decide, rfl, rfl, fun _ => rfl,
        ⟨by decide, fun _ => rfl, fun _ => rfl, fun _ => by decide⟩⟩, trivial⟩
  · exact ⟨⟨by decide, rfl, rfl, fun _ => rfl, fun _ q hq => by cases hq⟩,
      ⟨by decide, rfl, rfl, fun _ => rfl,
        ⟨by decide, fun _ => rfl, fun hflag => absurd hflag (by decide), fun _ => by decide⟩⟩,
      trivial⟩
  · exact ⟨⟨by decide, rfl, rfl, fun _ => rfl, fun _ q hq => by cases hq⟩,
      ⟨by decide, rfl, rfl, fun _ => rfl,
        ⟨by decide, fun _ => rfl, fun _ => rfl, fun hflag => absurd hflag (by decide)⟩⟩,
      trivial⟩

/-- C5, amended. After orderly appends (`OrderlyAppends`) and for a crop with an
appended record, `getHistory` returns a history whose first record has no
predecessor, whose last record is the record of that crop appended last, and
whose timestamps do not decrease from a record to the next. -/
theorem getHistory_of_orderly_appends (h0 : TxHeap) (calls : List (Nat × Option Nat))
    (c : TraceabilityChain) (h : TxHeap) (cropId : String) (fuel : Nat)
    (hrun : appendAll TraceabilityChain.empty h0 calls = (c, h))
    (horderly : OrderlyAppends TraceabilityChain.empty h0 calls)
    (hlot : ∃ p ∈ c.allTransactions, (h p).cropDetails.id = cropId)
    (hfuel : c.allTransactions.length ≤ fuel) :
    ∃ hist, getHistory fuel c h cropId = some hist ∧
      (∃ first, hist.head? = some first ∧ (h first).previous = none) ∧
      (∃ last, hist.getLast? = some last ∧
        (c.allTransactions.filter (fun p => decide ((h p).cropDetails.id = cropId))).getLast?
          = some last) ∧
      hist.Chain' (fun a b => (h a).timestamp ≤ (h b).timestamp) := by
  obtain ⟨hc, hl⟩ := appendAll_orderly calls _ _ (chainInv_empty h0) (lotInv_empty h0) horderly
  rw [hrun] at hc hl
  simp only at hc hl
  obtain ⟨p, hp, hpl⟩ := hlot
  -- the record the first loop finds
  obtain ⟨cur, hcur⟩ : ∃ r, findLatest h cropId c.transactionMap none = some r := by
    apply findLatest_some_of_mem
    obtain ⟨kv, hkv, hkp⟩ := List.mem_map.mp (hl.1 p hp)
    exact ⟨kv, hkv, by rw [hkp]; exact hpl⟩
  have hcurL : cur ∈ c.allTransactions := by
    rcases findLatest_mem h cropId _ _ _ hcur with h1 | h1
    · exact hc.2.1 cur h1
    · cases h1
  have hcurl : (h cur).cropDetails.id = cropId :=
    findLatest_lot h cropId _ _ _ hcur (fun c0 hc0 => by cases hc0)
  -- its origin
  obtain ⟨o, ho, hoL, hoP⟩ := toOrigin_terminates hc _ cur fuel hcurL rfl
    (le_trans (le_of_lt (List.indexOf_lt_length.mpr hcurL)) hfuel)
  have hol : (h o).cropDetails.id = cropId := (toOrigin_lot hc hl fuel cur o hcurL ho).trans hcurl
  -- the records collected from the origin
  obtain ⟨hist, hhist⟩ := collectForward_terminates hc _ o fuel [] hoL rfl
    (le_trans (Nat.sub_le _ _) hfuel)
  obtain ⟨path, e, hpath, he, hen, heL, hel, hch⟩ := collectForward_spec hc hl fuel o [] hist hoL hhist
  rw [List.nil_append] at hpath
  -- the record of the crop appended last
  obtain ⟨l1, m, l2, hsplit, hml, hl2⟩ :=
    exists_last_of_lot (fun x => (h x).cropDetails.id = cropId) c.allTransactions ⟨p, hp, hpl⟩
  have hmL : m ∈ c.allTransactions := by rw [hsplit]; simp
  have hmn : (h m).next = none := by
    cases hnm : (h m).next with
    | none => rfl
    | some q =>
      obtain ⟨hq, hlt⟩ := hc.2.2.2 m hmL q hnm
      have hq2 : q ∈ l2 := by
        have hnd := hc.1
        rw [hsplit] at hnd hq hlt
        exact indexOf_lt_of_split l1 l2 m q hnd hq hlt
      exact absurd ((hl.2.1 m hmL q hnm).1.trans hml) (hl2 q hq2)
  have hem : e = m := hl.2.2.2 e heL m hmL hen hmn ((hel.trans hol).trans hml.symm)
  refine ⟨hist, ?_, ⟨o, by rw [hpath]; rfl, hoP⟩, ⟨m, by rw [hpath, he, hem], ?_⟩,
    by rw [hpath]; exact hch⟩
  · simp only [getHistory, hcur, ho]
    exact hhist
  · have hnil : l2.filter (fun p => decide ((h p).cropDetails.id = cropId)) = [] := by
      rw [List.filter_eq_nil_iff]
      intro x hx
      simpa using hl2 x hx
    rw [hsplit, List.filter_append, List.filter_cons_of_pos (by simpa using hml), hnil]
    simp

/-- C5 amended, at a farmer record followed by a trader record: the history ends at
the trader record. -/
theorem getHistory_of_orderly_appends_witness :
    ∃ hist, getHistory 2 (appendAll TraceabilityChain.empty twoRecords [(0, none), (1, some 0)]).1
        (appendAll TraceabilityChain.empty twoRecords [(0, none), (1, some 0)]).2 "CROP1001"
        = some hist ∧ hist.getLast? = some 1 := by
  obtain ⟨hist, h1, -, ⟨last, h3, h4⟩, -⟩ :=
    getHistory_of_orderly_appends twoRecords [(0, none), (1, some 0)] _ _ "CROP1001" 2 rfl
      ⟨⟨by decide, rfl, rfl, rfl, fun q hq => by cases hq⟩,
        ⟨by decide, rfl, rfl, rfl, ⟨by decide, rfl, rfl, le_refl _⟩⟩, trivial⟩
      ⟨0, by decide, by decide⟩ (by decide)
  refine ⟨hist, h1, ?_⟩
  rw [h3, ← h4]
  decide

/-! ## One routing call, then the queue -/

/-- The call on a node with a non-empty queue returns the front and removes it. -/
theorem dequeueFrom_record (t : RoutingDecisionTree) (nodeId : String) (p x : Nat)
    (rest : List Nat) (hget : getNode t nodeId = some p)
    (hqueue : (t.nodes p).processingQueue = x :: rest) :
    dequeueFrom t nodeId = (.record x,
      { t with nodes := Function.update t.nodes p { t.nodes p with processingQueue := rest } }) := by
  simp [dequeueFrom, hget, DecisionNode.dequeue, hqueue]

/-- The call on a node with an empty queue changes nothing. -/
theorem dequeueFrom_empty (t : RoutingDecisionTree) (nodeId : String) (p : Nat)
    (hget : getNode t nodeId = some p) (hqueue : (t.nodes p).processingQueue = []) :
    dequeueFrom t nodeId = (.empty, t) := by
  simp [dequeueFrom, hget, DecisionNode.dequeue, hqueue]

/-- A call that returns a node has passed the quality gate. -/
theorem routeCrop_success (t : RoutingDecisionTree) (ht : t.Inv) (crop : Crop) (tx fuel : Nat)
    (hfuel : 3 ≤ fuel) (h : TxHeap) (leaf : Nat)
    (hroute : (routeCrop fuel t h crop tx).1 = .ok (some leaf)) :
    ∃ q, qualityDecision crop = .ok q ∧ leaf = routeTarget crop q := by
  cases hq : qualityDecision crop with
  | error e =>
    rw [(routeCrop_throw t ht crop tx fuel hfuel h e hq).1] at hroute
    cases hroute
  | ok q =>
    rw [(routeCrop_ok t ht crop tx fuel hfuel h q hq).1] at hroute
    simp only [Except.ok.injEq, Option.some.injEq] at hroute
    exact ⟨q, rfl, hroute.symm⟩

/-- C11. In the freshly built tree `dequeueFrom` gives `Empty` on each of the eight
leaves; and when the only `routeCrop` call, with record `transaction`, returned the
leaf `leaf`, the first `dequeueFrom` on that leaf gives `transaction` and the second
gives `Empty`. -/
theorem dequeueFrom_after_one_route (fuel : Nat) (h : TxHeap) (crop : Crop)
    (transaction leaf : Nat) (hfuel : 3 ≤ fuel)
    (hroute : (routeCrop fuel RoutingDecisionTree.new h crop transaction).1 = .ok (some leaf)) :
    (∀ leafId ∈ ["northPremium", "northStandard", "southPremium", "southStandard",
        "eastPremium", "eastStandard", "westPremium", "westStandard"],
      (dequeueFrom RoutingDecisionTree.new leafId).1 = DequeueResult.empty) ∧
    (dequeueFrom (routeCrop fuel RoutingDecisionTree.new h crop transaction).2.1
      ((routeCrop fuel RoutingDecisionTree.new h crop transaction).2.1.nodes leaf).nodeId).1
      = DequeueResult.record transaction ∧
    (dequeueFrom
      (dequeueFrom (routeCrop fuel RoutingDecisionTree.new h crop transaction).2.1
        ((routeCrop fuel RoutingDecisionTree.new h crop transaction).2.1.nodes leaf).nodeId).2
      ((routeCrop fuel RoutingDecisionTree.new h crop transaction).2.1.nodes leaf).nodeId).1
      = DequeueResult.empty := by
  obtain ⟨q, hq, rfl⟩ := routeCrop_success _ inv_new crop transaction fuel hfuel h leaf hroute
  obtain ⟨-, -, hmap, hnodes⟩ := routeCrop_ok _ inv_new crop transaction fuel hfuel h q hq
  obtain ⟨h7, h15⟩ := routeTarget_range crop q
  have hqueue0 : (RoutingDecisionTree.new.nodes (routeTarget crop q)).processingQueue = [] := by
    generalize routeTarget crop q = a at h7 h15
    interval_cases a <;> rfl
  have hid : ((routeCrop fuel RoutingDecisionTree.new h crop transaction).2.1.nodes
      (routeTarget crop q)).nodeId = (RoutingDecisionTree.new.nodes (routeTarget crop q)).nodeId := by
    rw [hnodes, Function.update_same]; rfl
  have hget : getNode (routeCrop fuel RoutingDecisionTree.new h crop transaction).2.1
      (RoutingDecisionTree.new.nodes (routeTarget crop q)).nodeId = some (routeTarget crop q) := by
    unfold getNode; rw [hmap]; exact getNode_routeTarget crop q
  have hqueue : ((routeCrop fuel RoutingDecisionTree.new h crop transaction).2.1.nodes
      (routeTarget crop q)).processingQueue = [transaction] := by
    rw [hnodes, Function.update_same]; simp [DecisionNode.enqueue, hqueue0]
  refine ⟨?_, ?_, ?_⟩
  · intro leafId hin
    simp only [List.mem_cons, List.mem_singleton, List.not_mem_nil, or_false] at hin
    rcases hin with rfl | rfl | rfl | rfl | rfl | rfl | rfl | rfl <;> rfl
  · rw [hid, dequeueFrom_record _ _ _ _ _ hget hqueue]
  · rw [hid, dequeueFrom_record _ _ _ _ _ hget hqueue]
    apply congrArg Prod.fst (dequeueFrom_empty _ _ (routeTarget crop q) _ _)
    · exact hget
    · simp

/-- C11 at `wheatCrop` routed once with the record at address 0: the first
`dequeueFrom` on `northPremium` gives that record. -/
theorem dequeueFrom_after_one_route_witness :
    (dequeueFrom (routeCrop 3 RoutingDecisionTree.new (farmerHeap wheatCrop) wheatCrop 0).2.1
      "northPremium").1 = DequeueResult.record 0 := by
  have hq : qualityDecision wheatCrop = .ok true := by
    rw [qualityDecision_of_fresh wheatCrop 9.0 rfl]; simp [wheatCrop]; norm_num
  have hres := (routeCrop_ok _ inv_new wheatCrop 0 3 (le_refl 3) (farmerHeap wheatCrop) true hq).1
  have ht : routeTarget wheatCrop true = 7 := by decide
  rw [ht] at hres
  have key := (dequeueFrom_after_one_route 3 (farmerHeap wheatCrop) wheatCrop 0 7 (le_refl 3)
    hres).2.1
  have hid : ((routeCrop 3 RoutingDecisionTree.new (farmerHeap wheatCrop) wheatCrop 0).2.1.nodes
      7).nodeId = "northPremium" := by
    rw [(routeCrop_ok _ inv_new wheatCrop 0 3 (le_refl 3) (farmerHeap wheatCrop) true hq).2.2.2, ht,
      Function.update_same]
    rfl
  rw [hid] at key
  exact key

/-! ## The whole effect of a routing call -/

theorem routeLoop_Inv_ok_full (t : RoutingDecisionTree) (ht : t.Inv) (crop : Crop) (tx fuel : Nat)
    (h : TxHeap) (q : Bool) (hq : qualityDecision crop = .ok q) :
    routeLoop t crop tx (fuel + 3) (some 0) "root" h =
      (.ok (some (routeTarget crop q),
          "root" ++ (" -> " ++ pairNodeId crop) ++ (" -> " ++ regionNodeId crop) ++
            (" -> " ++ (RoutingDecisionTree.new.nodes (routeTarget crop q)).nodeId)),
        appendAction
          (appendAction
            (appendAction h tx (" | " ++ "root" ++ " decision: " ++
              side (decide (crop.areaCode = "North" ∨ crop.areaCode = "South"))))
            tx (" | " ++ pairNodeId crop ++ " decision: " ++ side (pairDecision crop)))
          tx (" | " ++ regionNodeId crop ++ " decision: " ++ side q)) := by
  obtain ⟨⟨a0, f0, l0, r0⟩, ⟨a1, f1, l1, r1⟩, ⟨a2, f2, l2, r2⟩, ⟨a3, f3, l3, r3⟩,
    ⟨a4, f4, l4, r4⟩, ⟨a5, f5, l5, r5⟩, ⟨a6, f6, l6, r6⟩⟩ := inv_fields ht
  have k7 := inv_leaf ht 7 (by decide) (by decide)
  have k8 := inv_leaf ht 8 (by decide) (by decide)
  have k9 := inv_leaf ht 9 (by decide) (by decide)
  have k10 := inv_leaf ht 10 (by decide) (by decide)
  have k11 := inv_leaf ht 11 (by decide) (by decide)
  have k12 := inv_leaf ht 12 (by decide) (by decide)
  have k13 := inv_leaf ht 13 (by decide) (by decide)
  have k14 := inv_leaf ht 14 (by decide) (by decide)
  by_cases hNS : crop.areaCode = "North" ∨ crop.areaCode = "South"
  · by_cases hN : crop.areaCode = "North"
    · cases q <;>
        simp [routeLoop, routeLoop_leaf, a0, f0, l0, r0, a1, f1, l1, r1, a3, f3, l3, r3, hq,
          rootDecision, northSouthDecision, routeTarget, hN, k7.1, k7.2.1, k7.2.2.1, k8.1,
          k8.2.1, k8.2.2.1, pairNodeId, regionNodeId, pairDecision, side]
    · have hS : crop.areaCode = "South" := by tauto
      cases q <;>
        simp [routeLoop, routeLoop_leaf, a0, f0, l0, r0, a1, f1, l1, r1, a4, f4, l4, r4, hq,
          rootDecision, northSouthDecision, routeTarget, hS, k9.1, k9.2.1, k9.2.2.1, k10.1,
          k10.2.1, k10.2.2.1, pairNodeId, regionNodeId, pairDecision, side]
  · have hN : crop.areaCode ≠ "North" := fun e => hNS (Or.inl e)
    have hS : crop.areaCode ≠ "South" := fun e => hNS (Or.inr e)
    by_cases hE : crop.areaCode = "East"
    · cases q <;>
        simp [routeLoop, routeLoop_leaf, a0, f0, l0, r0, a2, f2, l2, r2, a5, f5, l5, r5, hq,
          rootDecision, eastWestDecision, routeTarget, hE, k11.1, k11.2.1, k11.2.2.1, k12.1,
          k12.2.1, k12.2.2.1, pairNodeId, regionNodeId, pairDecision, side]
    · cases q <;>
        simp [routeLoop, routeLoop_leaf, a0, f0, l0, r0, a2, f2, l2, r2, a6, f6, l6, r6, hq,
          rootDecision, eastWestDecision, routeTarget, hN, hS, hE, k13.1, k13.2.1, k13.2.2.1,
          k14.1, k14.2.1, k14.2.2.1, pairNodeId, regionNodeId, pairDecision, side]

theorem routeLoop_Inv_throw_full (t : RoutingDecisionTree) (ht : t.Inv) (crop : Crop)
    (tx fuel : Nat) (h : TxHeap) (e : Fault) (hq : qualityDecision crop = .error e) :
    routeLoop t crop tx (fuel + 3) (some 0) "root" h =
      (.error e,
        appendAction
          (appendAction h tx (" | " ++ "root" ++ " decision: " ++
            side (decide (crop.areaCode = "North" ∨ crop.areaCode = "South"))))
          tx (" | " ++ pairNodeId crop ++ " decision: " ++ side (pairDecision crop))) := by
  obtain ⟨⟨a0, f0, l0, r0⟩, ⟨a1, f1, l1, r1⟩, ⟨a2, f2, l2, r2⟩, ⟨a3, f3, l3, r3⟩,
    ⟨a4, f4, l4, r4⟩, ⟨a5, f5, l5, r5⟩, ⟨a6, f6, l6, r6⟩⟩ := inv_fields ht
  by_cases hNS : crop.areaCode = "North" ∨ crop.areaCode = "South"
  · by_cases hN : crop.areaCode = "North"
    · simp [routeLoop, a0, f0, l0, r0, a1, f1, l1, r1, f3, l3, r3, hq, rootDecision,
          northSouthDecision, hN, pairNodeId, pairDecision, side]
    · have hS : crop.areaCode = "South" := by tauto
      simp [routeLoop, a0, f0, l0, r0, a1, f1, l1, r1, f4, l4, r4, hq, rootDecision,
          northSouthDecision, hS, pairNodeId, pairDecision, side]
  · have hN : crop.areaCode ≠ "North" := fun e => hNS (Or.inl e)
    have hS : crop.areaCode ≠ "South" := fun e => hNS (Or.inr e)
    by_cases hE : crop.areaCode = "East"
    · simp [routeLoop, a0, f0, l0, r0, a2, f2, l2, r2, f5, l5, r5, hq, rootDecision,
          eastWestDecision, hE, pairNodeId, pairDecision, side]
    · simp [routeLoop, a0, f0, l0, r0, a2, f2, l2, r2, f6, l6, r6, hq, rootDecision,
          eastWestDecision, hN, hS, hE, pairNodeId, pairDecision, side]

theorem mapAssign_of_mapFind {β : Type} (m : List (String × β)) (k : String) (v : β)
    (hf : mapFind m k = some v) : mapAssign m k v = m := by
  induction m with
  | nil => simp [mapFind] at hf
  | cons kv m ih =>
    obtain ⟨k1, v1⟩ := kv
    by_cases hk : k1 = k
    · simp only [mapFind, hk, if_true, Option.some.injEq] at hf
      simp [mapAssign, hk, hf]
    · simp only [mapFind, hk, if_false] at hf
      simp [mapAssign, hk, ih hf]

theorem mapIndex_of_mapFind {β : Type} (dflt : β) (m : List (String × β)) (k : String) (v : β)
    (hf : mapFind m k = some v) : mapIndex dflt m k = (v, m) := by
  simp [mapIndex, hf]

/-- The lookup leaves the tree as it was. -/
theorem getRegionalDemand_pure (t : RoutingDecisionTree) (region cropType : String) :
    (getRegionalDemand t region cropType).2 = t := by
  unfold getRegionalDemand
  cases h1 : mapFind t.regionalDemand region with
  | none => simp
  | some inner =>
    simp only [Option.isSome_some, if_true, mapIndex_of_mapFind _ _ _ _ h1]
    cases h2 : mapFind inner cropType with
    | none => simp
    | some v =>
      simp only [Option.isSome_some, if_true, mapIndex_of_mapFind _ _ _ _ h2,
        mapAssign_of_mapFind _ _ _ h1]

/-- The value of the lookup, with 5.0 for an absent pair. -/
theorem getRegionalDemand_value (t : RoutingDecisionTree) (region cropType : String) :
    (getRegionalDemand t region cropType).1 =
      ((mapFind t.regionalDemand region).bind (fun inner => mapFind inner cropType)).getD 5.0 := by
  unfold getRegionalDemand
  cases h1 : mapFind t.regionalDemand region with
  | none => simp
  | some inner =>
    simp only [Option.isSome_some, if_true, mapIndex_of_mapFind _ _ _ _ h1]
    cases h2 : mapFind inner cropType with
    | none => simp [h2]
    | some v =>
      simp [mapIndex_of_mapFind _ _ _ _ h2, h2]

/-- The whole effect of a call whose quality gate answers `q`. -/
theorem routeCrop_ok_full (t : RoutingDecisionTree) (ht : t.Inv) (crop : Crop) (tx fuel : Nat)
    (hfuel : 3 ≤ fuel) (h : TxHeap) (q : Bool) (hq : qualityDecision crop = .ok q) :
    routeCrop fuel t h crop tx =
      (.ok (some (routeTarget crop q)),
       { t with nodes := Function.update t.nodes (routeTarget crop q)
                  ((t.nodes (routeTarget crop q)).enqueue tx) },
       Function.update h tx
         { h tx with
           actionTaken := (h tx).actionTaken ++
             demandText (getRegionalDemand t crop.areaCode crop.type).1 ++
             (" | root decision: " ++
               side (decide (crop.areaCode = "North" ∨ crop.areaCode = "South"))) ++
             (" | " ++ pairNodeId crop ++ " decision: " ++ side (pairDecision crop)) ++
             (" | " ++ regionNodeId crop ++ " decision: " ++ side q) ++
             (" | Final path: " ++ ("root" ++ (" -> " ++ pairNodeId crop) ++
               (" -> " ++ regionNodeId crop) ++
               (" -> " ++ (RoutingDecisionTree.new.nodes (routeTarget crop q)).nodeId)))
           nextDestination := "Node: " ++
             (RoutingDecisionTree.new.nodes (routeTarget crop q)).nodeId ++ " (" ++
             (RoutingDecisionTree.new.nodes (routeTarget crop q)).description ++ ")" }) := by
  obtain ⟨n, rfl⟩ : ∃ n, fuel = n + 3 := ⟨fuel - 3, by omega⟩
  have hroot : t.root = some 0 := ht.1.trans new_root
  obtain ⟨h7, h15⟩ := routeTarget_range crop q
  obtain ⟨-, -, kid, kdesc⟩ := inv_leaf ht _ h7 h15
  simp only [routeCrop, getRegionalDemand_pure, hroot, routeLoop_Inv_ok_full t ht crop tx n _ q hq]
  refine Prod.ext rfl (Prod.ext rfl ?_)
  simp only [appendAction, Function.update_same, Function.update_idem, DecisionNode.enqueue,
    kid, kdesc, demandText]
  congr 1

/-- The whole effect of a call whose quality gate throws. -/
theorem routeCrop_throw_full (t : RoutingDecisionTree) (ht : t.Inv) (crop : Crop) (tx fuel : Nat)
    (hfuel : 3 ≤ fuel) (h : TxHeap) (e : Fault) (hq : qualityDecision crop = .error e) :
    routeCrop fuel t h crop tx =
      (.error e, t,
       Function.update h tx
         { h tx with
           actionTaken := (h tx).actionTaken ++
             demandText (getRegionalDemand t crop.areaCode crop.type).1 ++
             (" | root decision: " ++
               side (decide (crop.areaCode = "North" ∨ crop.areaCode = "South"))) ++
             (" | " ++ pairNodeId crop ++ " decision: " ++ side (pairDecision crop)) }) := by
  obtain ⟨n, rfl⟩ : ∃ n, fuel = n + 3 := ⟨fuel - 3, by omega⟩
  have hroot : t.root = some 0 := ht.1.trans new_root
  simp only [routeCrop, getRegionalDemand_pure, hroot, routeLoop_Inv_throw_full t ht crop tx n _ e hq]
  refine Prod.ext rfl (Prod.ext rfl ?_)
  simp only [appendAction, Function.update_same, Function.update_idem, demandText]
  congr 1

/-- C20. A `routeCrop` call that returns the leaf `leaf` puts `transaction` at the
back of that leaf's queue and leaves every other node as it was; the leaf keeps its
children, identifier and description; root, node map and demand table are unchanged;
and the record's `nextDestination` is "Node: <leaf id> (<leaf description>)". -/
theorem routeCrop_frame (fuel : Nat) (t : RoutingDecisionTree) (h : TxHeap) (crop : Crop)
    (transaction leaf : Nat) (hfuel : 3 ≤ fuel) (ht : t.Inv)
    (hroute : (routeCrop fuel t h crop transaction).1 = .ok (some leaf)) :
    ((routeCrop fuel t h crop transaction).2.1.nodes leaf).processingQueue =
      (t.nodes leaf).processingQueue ++ [transaction] ∧
    (∀ a, a ≠ leaf → (routeCrop fuel t h crop transaction).2.1.nodes a = t.nodes a) ∧
    SameShape ((routeCrop fuel t h crop transaction).2.1.nodes leaf) (t.nodes leaf) ∧
    (routeCrop fuel t h crop transaction).2.1.root = t.root ∧
    (routeCrop fuel t h crop transaction).2.1.nodeMap = t.nodeMap ∧
    (routeCrop fuel t h crop transaction).2.1.regionalDemand = t.regionalDemand ∧
    ((routeCrop fuel t h crop transaction).2.2 transaction).nextDestination =
      "Node: " ++ (t.nodes leaf).nodeId ++ " (" ++ (t.nodes leaf).description ++ ")" := by
  obtain ⟨q, hq, rfl⟩ := routeCrop_success t ht crop transaction fuel hfuel h leaf hroute
  obtain ⟨h7, h15⟩ := routeTarget_range crop q
  obtain ⟨-, -, kid, kdesc⟩ := inv_leaf ht _ h7 h15
  rw [routeCrop_ok_full t ht crop transaction fuel hfuel h q hq]
  refine ⟨?_, ?_, ?_, rfl, rfl, rfl, ?_⟩
  · simp [DecisionNode.enqueue]
  · intro a ha
    simp [Function.update_noteq ha]
  · simp only [Function.update_same]
    exact sameShape_enqueue _ _
  · simp only [Function.update_same, kid, kdesc]

/-- C20 at `wheatCrop` routed through the freshly built tree: the queue of
`northPremium` holds the record and the record names that leaf as destination. -/
theorem routeCrop_frame_witness :
    ((routeCrop 3 RoutingDecisionTree.new (farmerHeap wheatCrop) wheatCrop 0).2.1.nodes
      7).processingQueue = [0] ∧
    ((routeCrop 3 RoutingDecisionTree.new (farmerHeap wheatCrop) wheatCrop 0).2.2
      0).nextDestination = "Node: northPremium (North Premium)" := by
  have hq : qualityDecision wheatCrop = .ok true := by
    rw [qualityDecision_of_fresh wheatCrop 9.0 rfl]; simp [wheatCrop]; norm_num
  have hres := (routeCrop_ok _ inv_new wheatCrop 0 3 (le_refl 3) (farmerHeap wheatCrop) true hq).1
  have ht : routeTarget wheatCrop true = 7 := by decide
  rw [ht] at hres
  obtain ⟨h1, -, -, -, -, -, h7⟩ := routeCrop_frame 3 RoutingDecisionTree.new
    (farmerHeap wheatCrop) wheatCrop 0 7 (le_refl 3) inv_new hres
  rw [new_nodes_7] at h1 h7
  exact ⟨h1, h7⟩

/-- C16. Two crops with the same area code, the same freshness entry and
certification lists that are both empty or both non-empty get the same result from
`routeCrop`, whatever their type, quantity, identifiers and other metrics, and
whatever the queues, heaps and records of the two calls. -/
theorem routeCrop_ignores_category (fuel : Nat) (t1 t2 : RoutingDecisionTree) (h1 h2 : TxHeap)
    (crop1 crop2 : Crop) (transaction1 transaction2 : Nat) (hfuel : 3 ≤ fuel)
    (ht1 : t1.Inv) (ht2 : t2.Inv)
    (hregion : crop1.areaCode = crop2.areaCode)
    (hfresh : mapFind crop1.qualityMetrics "freshness" =
      mapFind crop2.qualityMetrics "freshness")
    (hcert : crop1.certifications.isEmpty = crop2.certifications.isEmpty) :
    (routeCrop fuel t1 h1 crop1 transaction1).1 = (routeCrop fuel t2 h2 crop2 transaction2).1 := by
  have hqd : qualityDecision crop1 = qualityDecision crop2 := by
    simp only [qualityDecision, mapAt, hfresh, hcert]
  have htarget : ∀ q, routeTarget crop1 q = routeTarget crop2 q := by
    intro q; simp only [routeTarget, hregion]
  cases hq : qualityDecision crop2 with
  | error e =>
    rw [(routeCrop_throw t1 ht1 crop1 transaction1 fuel hfuel h1 e (hqd.trans hq)).1,
      (routeCrop_throw t2 ht2 crop2 transaction2 fuel hfuel h2 e hq).1]
  | ok q =>
    rw [(routeCrop_ok t1 ht1 crop1 transaction1 fuel hfuel h1 q (hqd.trans hq)).1,
      (routeCrop_ok t2 ht2 crop2 transaction2 fuel hfuel h2 q hq).1, htarget]

/-- C16 at a wheat crop and a tomato crop from the North with freshness 9.0 and no
certifications. -/
theorem routeCrop_ignores_category_witness :
    (routeCrop 3 RoutingDecisionTree.new (farmerHeap wheatCrop) wheatCrop 0).1 =
      (routeCrop 3 RoutingDecisionTree.new (farmerHeap tomatoCrop) tomatoCrop 1).1 :=
  routeCrop_ignores_category 3 RoutingDecisionTree.new RoutingDecisionTree.new
    (farmerHeap wheatCrop) (farmerHeap tomatoCrop) wheatCrop tomatoCrop 0 1 (le_refl 3)
    inv_new inv_new rfl rfl rfl

/-! ## Regional demand and annotations -/

/-- The demand table the constructor builds. -/
theorem new_regionalDemand : RoutingDecisionTree.new.regionalDemand =
    [("North", [("Wheat", 8.5), ("Rice", 7.0), ("Corn", 6.0), ("Tomato", 5.0), ("Apple", 9.0)]),
     ("South", [("Wheat", 5.0), ("Rice", 9.0), ("Corn", 6.5), ("Tomato", 8.0), ("Apple", 4.0)]),
     ("East", [("Wheat", 6.0), ("Rice", 8.5), ("Corn", 5.0), ("Tomato", 7.5), ("Apple", 6.5)]),
     ("West", [("Wheat", 7.0), ("Rice", 6.0), ("Corn", 8.0), ("Tomato", 9.0), ("Apple", 7.5)])] :=
  rfl

/-- C14. `getRegionalDemand` leaves the tree, and so the demand table, as it was;
it returns the value stored for the pair (region, crop type) when there is one and
5.0 when the region is absent or the crop type is absent from the region's table:
8.5 for (North, Wheat), 5.0 for (North, Mango) and for (Central, Wheat). -/
theorem getRegionalDemand_lookup (t : RoutingDecisionTree) (region cropType : String) :
    (getRegionalDemand t region cropType).2 = t ∧
    (∀ inner v, mapFind t.regionalDemand region = some inner → mapFind inner cropType = some v →
      (getRegionalDemand t region cropType).1 = v) ∧
    (mapFind t.regionalDemand region = none → (getRegionalDemand t region cropType).1 = 5.0) ∧
    (∀ inner, mapFind t.regionalDemand region = some inner → mapFind inner cropType = none →
      (getRegionalDemand t region cropType).1 = 5.0) ∧
    (getRegionalDemand RoutingDecisionTree.new "North" "Wheat").1 = 8.5 ∧
    (getRegionalDemand RoutingDecisionTree.new "North" "Mango").1 = 5.0 ∧
    (getRegionalDemand RoutingDecisionTree.new "Central" "Wheat").1 = 5.0 ∧
    (getRegionalDemand RoutingDecisionTree.new "Central" "Wheat").2.regionalDemand =
      RoutingDecisionTree.new.regionalDemand := by
  refine ⟨getRegionalDemand_pure t region cropType, ?_, ?_, ?_, ?_, ?_, ?_, ?_⟩
  · intro inner v h1 h2
    rw [getRegionalDemand_value, h1]; simp [h2]
  · intro h1
    rw [getRegionalDemand_value, h1]; simp
  · intro inner h1 h2
    rw [getRegionalDemand_value, h1]; simp [h2]
  · rw [getRegionalDemand_value, new_regionalDemand]; simp [mapFind]
  · rw [getRegionalDemand_value, new_regionalDemand]; simp [mapFind]
  · rw [getRegionalDemand_value, new_regionalDemand]; simp [mapFind]
  · rw [getRegionalDemand_pure]

/-- C15. The text `routeCrop` appends first to the record's `actionTaken` carries
the level "High" when `getRegionalDemand` of the crop's area code and type is at
least 7.0 and "Low" otherwise; with the constructor's demand table the level is
"High" for (North, Wheat) at 8.5 and for (North, Rice) and (West, Wheat) at exactly
7.0, and "Low" for every pair that is absent from the table. -/
theorem routeCrop_demand_level (fuel : Nat) (t : RoutingDecisionTree) (h : TxHeap) (crop : Crop)
    (transaction : Nat) (hfuel : 3 ≤ fuel) (ht : t.Inv)
    (hdemand : t.regionalDemand = RoutingDecisionTree.new.regionalDemand) :
    (∃ rest, ((routeCrop fuel t h crop transaction).2.2 transaction).actionTaken =
      (h transaction).actionTaken ++
        (" Regional demand: " ++ to_string (getRegionalDemand t crop.areaCode crop.type).1 ++
          "/10 (" ++
          (if (getRegionalDemand t crop.areaCode crop.type).1 ≥ 7.0 then "High" else "Low") ++
          ")") ++ rest) ∧
    (crop.areaCode = "North" → crop.type = "Wheat" →
      (getRegionalDemand t crop.areaCode crop.type).1 = 8.5 ∧
      (if (getRegionalDemand t crop.areaCode crop.type).1 ≥ 7.0 then "High" else "Low")
        = "High") ∧
    (crop.areaCode = "North" → crop.type = "Rice" →
      (getRegionalDemand t crop.areaCode crop.type).1 = 7.0 ∧
      (if (getRegionalDemand t crop.areaCode crop.type).1 ≥ 7.0 then "High" else "Low")
        = "High") ∧
    (crop.areaCode = "West" → crop.type = "Wheat" →
      (getRegionalDemand t crop.areaCode crop.type).1 = 7.0 ∧
      (if (getRegionalDemand t crop.areaCode crop.type).1 ≥ 7.0 then "High" else "Low")
        = "High") ∧
    ((mapFind RoutingDecisionTree.new.regionalDemand crop.areaCode).bind
        (fun inner => mapFind inner crop.type) = none →
      (getRegionalDemand t crop.areaCode crop.type).1 = 5.0 ∧
      (if (getRegionalDemand t crop.areaCode crop.type).1 ≥ 7.0 then "High" else "Low")
        = "Low") := by
  refine ⟨?_, ?_, ?_, ?_, ?_⟩
  · cases hq : qualityDecision crop with
    | error e =>
      rw [routeCrop_throw_full t ht crop transaction fuel hfuel h e hq]
      simp only [Function.update_same, demandText, String.append_assoc]
      exact ⟨_, rfl⟩
    | ok q =>
      rw [routeCrop_ok_full t ht crop transaction fuel hfuel h q hq]
      simp only [Function.update_same, demandText, String.append_assoc]
      exact ⟨_, rfl⟩
  · intro h1 h2
    have hv : (getRegionalDemand t crop.areaCode crop.type).1 = 8.5 := by
      rw [getRegionalDemand_value, hdemand, new_regionalDemand, h1, h2]; simp [mapFind]
    rw [hv]; exact ⟨rfl, by norm_num⟩
  · intro h1 h2
    have hv : (getRegionalDemand t crop.areaCode crop.type).1 = 7.0 := by
      rw [getRegionalDemand_value, hdemand, new_regionalDemand, h1, h2]; simp [mapFind]
    rw [hv]; exact ⟨rfl, by norm_num⟩
  · intro h1 h2
    have hv : (getRegionalDemand t crop.areaCode crop.type).1 = 7.0 := by
      rw [getRegionalDemand_value, hdemand, new_regionalDemand, h1, h2]; simp [mapFind]
    rw [hv]; exact ⟨rfl, by norm_num⟩
  · intro h1
    have hv : (getRegionalDemand t crop.areaCode crop.type).1 = 5.0 := by
      rw [getRegionalDemand_value, hdemand, h1]; simp
    rw [hv]; exact ⟨rfl, by norm_num⟩

/-- The text `to_string` gives for the demand of wheat in the North. -/
theorem to_string_wheat_demand : to_string 8.5 = "8.500000" := by
  with_unfolding_all decide

/-- C15 at `wheatCrop`: the annotation starts with the demand 8.5 and the level
"High". -/
theorem routeCrop_demand_level_witness :
    ∃ rest, ((routeCrop 3 RoutingDecisionTree.new (farmerHeap wheatCrop) wheatCrop 0).2.2
      0).actionTaken =
      "Initial harvest entry Regional demand: 8.500000/10 (High)" ++ rest := by
  obtain ⟨⟨rest, hrest⟩, hwheat, -, -, -⟩ :=
    routeCrop_demand_level 3 RoutingDecisionTree.new (farmerHeap wheatCrop) wheatCrop 0
      (le_refl 3) inv_new rfl
  obtain ⟨hv, hlevel⟩ := hwheat rfl rfl
  refine ⟨rest, ?_⟩
  rw [hrest, hlevel, hv, to_string_wheat_demand]
  rfl

/-- C19. For a crop from North, South, East or West with a "freshness" entry,
`routeCrop` appends to the record's `actionTaken`, after the demand text, one
" | <nodeId> decision: left|right" for the root, for the region-pair node and for
the region node, in that order and with "left" exactly when the node's decision
function answers true, and then " | Final path: " with the four node identifiers
joined by " -> ". -/
theorem routeCrop_annotations (fuel : Nat) (t : RoutingDecisionTree) (h : TxHeap) (crop : Crop)
    (transaction : Nat) (freshness : ℚ) (hfuel : 3 ≤ fuel) (ht : t.Inv)
    (hregion : crop.areaCode = "North" ∨ crop.areaCode = "South" ∨ crop.areaCode = "East" ∨
      crop.areaCode = "West")
    (hfresh : mapFind crop.qualityMetrics "freshness" = some freshness) :
    ∃ (atRoot atPair atRegion : Bool) (pairNode regionNode leafNode : String),
      rootDecision crop = .ok atRoot ∧
      (if atRoot then northSouthDecision crop else eastWestDecision crop) = .ok atPair ∧
      qualityDecision crop = .ok atRegion ∧
      pairNode = (if atRoot then "northSouth" else "eastWest") ∧
      regionNode = (if atRoot then (if atPair then "north" else "south")
        else (if atPair then "east" else "west")) ∧
      leafNode = regionNode ++ (if atRegion then "Premium" else "Standard") ∧
      ((routeCrop fuel t h crop transaction).2.2 transaction).actionTaken =
        (h transaction).actionTaken ++
          demandText (getRegionalDemand t crop.areaCode crop.type).1 ++
          (" | " ++ "root" ++ " decision: " ++ side atRoot) ++
          (" | " ++ pairNode ++ " decision: " ++ side atPair) ++
          (" | " ++ regionNode ++ " decision: " ++ side atRegion) ++
          (" | Final path: " ++
            ("root" ++ " -> " ++ pairNode ++ " -> " ++ regionNode ++ " -> " ++ leafNode)) := by
  have hq := qualityDecision_of_fresh crop freshness hfresh
  generalize (decide (freshness ≥ 8.0) || !crop.certifications.isEmpty) = q at hq
  rw [routeCrop_ok_full t ht crop transaction fuel hfuel h q hq]
  simp only [Function.update_same]
  rcases hregion with hr | hr | hr | hr <;> cases q <;>
    simp [hr, hq, rootDecision, northSouthDecision, eastWestDecision, pairNodeId, pairDecision,
      regionNodeId, routeTarget, side, new_nodes_7, new_nodes_8, new_nodes_9, new_nodes_10,
      new_nodes_11, new_nodes_12, new_nodes_13, new_nodes_14, String.append_assoc]

/-- C19 at `wheatCrop` (North, freshness 9.0, no certifications): the decisions are
left, left, left and the path is root -> northSouth -> north -> northPremium. -/
theorem routeCrop_annotations_witness :
    ((routeCrop 3 RoutingDecisionTree.new (farmerHeap wheatCrop) wheatCrop 0).2.2
      0).actionTaken =
      "Initial harvest entry Regional demand: 8.500000/10 (High) | root decision: left" ++
      " | northSouth decision: left | north decision: left" ++
      " | Final path: root -> northSouth -> north -> northPremium" := by
  obtain ⟨atRoot, atPair, atRegion, pairNode, regionNode, leafNode, h1, h2, h3, h4, h5, h6, h7⟩ :=
    routeCrop_annotations 3 RoutingDecisionTree.new (farmerHeap wheatCrop) wheatCrop 0 9.0
      (le_refl 3) inv_new (Or.inl rfl) rfl
  have hq : qualityDecision wheatCrop = .ok true := by
    rw [qualityDecision_of_fresh wheatCrop 9.0 rfl]; simp [wheatCrop]; norm_num
  have e1 : atRoot = true := by
    have : rootDecision wheatCrop = .ok true := rfl
    rw [this] at h1; simpa using h1.symm
  subst e1
  have e2 : atPair = true := by
    have : northSouthDecision wheatCrop = .ok true := rfl
    simp only [if_true, this] at h2; simpa using h2.symm
  subst e2
  have e3 : atRegion = true := by
    rw [hq] at h3; simpa using h3.symm
  subst e3
  simp only [if_true] at h4 h5 h6
  subst h4 h5
  subst h6
  have hv : (getRegionalDemand RoutingDecisionTree.new wheatCrop.areaCode wheatCrop.type).1
      = 8.5 := by
    rw [getRegionalDemand_value, new_regionalDemand]; simp [mapFind, wheatCrop]
  rw [h7, hv]
  have hlevel : (if (8.5 : ℚ) ≥ 7.0 then "High" else "Low") = "High" := by norm_num
  simp only [demandText, hlevel, to_string_wheat_demand]
  rfl

/-! ## The latest record of each crop -/

theorem mapAssign_keys_of_mem {β : Type} (m : List (String × β)) (k : String) (v : β)
    (hk : k ∈ m.map Prod.fst) : (mapAssign m k v).map Prod.fst = m.map Prod.fst := by
  induction m with
  | nil => simp at hk
  | cons kv m ih =>
    obtain ⟨k1, v1⟩ := kv
    by_cases h1 : k1 = k
    · simp [mapAssign, h1]
    · have : k ∈ m.map Prod.fst := by
        simp only [List.map_cons, List.mem_cons] at hk
        rcases hk with h2 | h2
        · exact absurd h2.symm h1
        · exact h2
      simp [mapAssign, h1, ih this]

theorem mapAssign_keys_of_not_mem {β : Type} (m : List (String × β)) (k : String) (v : β)
    (hk : k ∉ m.map Prod.fst) : (mapAssign m k v).map Prod.fst = m.map Prod.fst ++ [k] := by
  induction m with
  | nil => simp [mapAssign]
  | cons kv m ih =>
    obtain ⟨k1, v1⟩ := kv
    simp only [List.map_cons, List.mem_cons, not_or] at hk
    have h1 : k1 ≠ k := fun e => hk.1 e.symm
    simp [mapAssign, h1, ih hk.2]

/-- With distinct keys, an entry of the assigned map is the new entry or an old
entry under another key. -/
theorem mem_mapAssign_of_nodup {β : Type} (m : List (String × β)) (k : String) (v : β)
    (hnd : (m.map Prod.fst).Nodup) (kv : String × β) (hkv : kv ∈ mapAssign m k v) :
    kv = (k, v) ∨ (kv ∈ m ∧ kv.1 ≠ k) := by
  induction m with
  | nil => simp [mapAssign] at hkv; exact Or.inl hkv
  | cons kv1 m ih =>
    obtain ⟨k1, v1⟩ := kv1
    simp only [List.map_cons, List.nodup_cons] at hnd
    by_cases h1 : k1 = k
    · simp only [mapAssign, h1, if_true, List.mem_cons] at hkv
      rcases hkv with h2 | h2
      · exact Or.inl h2
      · right
        refine ⟨List.mem_cons_of_mem _ h2, ?_⟩
        intro e
        exact hnd.1 (h1 ▸ e ▸ List.mem_map_of_mem Prod.fst h2)
    · simp only [mapAssign, h1, if_false, List.mem_cons] at hkv
      rcases hkv with h2 | h2
      · right; exact ⟨h2 ▸ List.mem_cons_self _ _, by rw [h2]; exact h1⟩
      · rcases ih hnd.2 h2 with h3 | h3
        · exact Or.inl h3
        · exact Or.inr ⟨List.mem_cons_of_mem _ h3.1, h3.2⟩

theorem mem_of_mapFind {β : Type} (m : List (String × β)) (k : String) (v : β)
    (hf : mapFind m k = some v) : (k, v) ∈ m := by
  induction m with
  | nil => simp [mapFind] at hf
  | cons kv m ih =>
    obtain ⟨k1, v1⟩ := kv
    by_cases h1 : k1 = k
    · simp only [mapFind, h1, if_true, Option.some.injEq] at hf
      simp [h1, hf]
    · simp only [mapFind, h1, if_false] at hf
      exact List.mem_cons_of_mem _ (ih hf)

theorem mapFind_of_mem_nodup {β : Type} (m : List (String × β)) (k : String) (v : β)
    (hnd : (m.map Prod.fst).Nodup) (hkv : (k, v) ∈ m) : mapFind m k = some v := by
  induction m with
  | nil => cases hkv
  | cons kv m ih =>
    obtain ⟨k1, v1⟩ := kv
    simp only [List.map_cons, List.nodup_cons] at hnd
    rcases List.mem_cons.mp hkv with h2 | h2
    · simp only [Prod.mk.injEq] at h2
      simp [mapFind, h2.1, h2.2]
    · have h1 : k1 ≠ k := fun e => hnd.1 (e ▸ List.mem_map_of_mem Prod.fst h2)
      simp only [mapFind, h1, if_false]
      exact ih hnd.2 h2

theorem latestOf_nil (h : TxHeap) : LatestOf h [] [] := by
  refine ⟨List.nodup_nil, ?_, ?_⟩
  · intro k; simp
  · intro kv hkv; cases hkv

/-- One round of the loop: the transaction replaces the entry of its crop, or is
entered as the first of its crop. -/
theorem latestOf_assign (h : TxHeap) (seen : List Nat) (latest : List (String × Nat))
    (p : Nat) (hinv : LatestOf h seen latest)
    (hmax : ∀ q, mapFind latest (h p).cropDetails.id = some q →
      (h q).timestamp ≤ (h p).timestamp) :
    LatestOf h (seen ++ [p]) (mapAssign latest (h p).cropDetails.id p) := by
  obtain ⟨hnd, hkeys, hval⟩ := hinv
  refine ⟨?_, ?_, ?_⟩
  · by_cases hk : (h p).cropDetails.id ∈ latest.map Prod.fst
    · rw [mapAssign_keys_of_mem _ _ _ hk]; exact hnd
    · rw [mapAssign_keys_of_not_mem _ _ _ hk]
      exact List.Nodup.append hnd (List.nodup_singleton _) (by simpa using hk)
  · intro k
    have hk2 : k ∈ (mapAssign latest (h p).cropDetails.id p).map Prod.fst ↔
        k ∈ latest.map Prod.fst ∨ k = (h p).cropDetails.id := by
      by_cases hk : (h p).cropDetails.id ∈ latest.map Prod.fst
      · rw [mapAssign_keys_of_mem _ _ _ hk]
        constructor
        · exact Or.inl
        · rintro (h1 | h1)
          · exact h1
          · rw [h1]; exact hk
      · rw [mapAssign_keys_of_not_mem _ _ _ hk]; simp
    rw [hk2, hkeys k]
    constructor
    · rintro (⟨q, hq, hl⟩ | h1)
      · exact ⟨q, List.mem_append_left _ hq, hl⟩
      · exact ⟨p, by simp, h1.symm⟩
    · rintro ⟨q, hq, hl⟩
      rcases List.mem_append.mp hq with h1 | h1
      · exact Or.inl ⟨q, h1, hl⟩
      · simp only [List.mem_singleton] at h1; subst h1; exact Or.inr hl.symm
  · intro kv hkv
    rcases mem_mapAssign_of_nodup _ _ _ hnd kv hkv with h1 | ⟨h1, h2⟩
    · subst h1
      refine ⟨by simp, rfl, ?_⟩
      intro q hq hl
      rcases List.mem_append.mp hq with h3 | h3
      · obtain ⟨kv0, hkv0, hk0⟩ := List.mem_map.mp ((hkeys _).mpr ⟨q, h3, hl⟩)
        obtain ⟨k0, p0⟩ := kv0
        simp only at hk0
        subst hk0
        have hfind := mapFind_of_mem_nodup _ _ _ hnd hkv0
        exact le_trans ((hval _ hkv0).2.2 q h3 hl) (hmax p0 hfind)
      · simp only [List.mem_singleton] at h3; subst h3; exact le_refl _
    · obtain ⟨h3, h4, h5⟩ := hval kv h1
      refine ⟨List.mem_append_left _ h3, h4, ?_⟩
      intro q hq hl
      rcases List.mem_append.mp hq with h6 | h6
      · exact h5 q h6 hl
      · simp only [List.mem_singleton] at h6; subst h6; exact absurd hl.symm h2

/-- One round of the loop that leaves the map alone: the transaction is not
later than the entry of its crop. -/
theorem latestOf_keep (h : TxHeap) (seen : List Nat) (latest : List (String × Nat))
    (p p0 : Nat) (hinv : LatestOf h seen latest)
    (hfind : mapFind latest (h p).cropDetails.id = some p0)
    (hle : (h p).timestamp ≤ (h p0).timestamp) :
    LatestOf h (seen ++ [p]) latest := by
  obtain ⟨hnd, hkeys, hval⟩ := hinv
  have hmem := mem_of_mapFind _ _ _ hfind
  refine ⟨hnd, ?_, ?_⟩
  · intro k
    rw [hkeys k]
    constructor
    · rintro ⟨q, hq, hl⟩; exact ⟨q, List.mem_append_left _ hq, hl⟩
    · rintro ⟨q, hq, hl⟩
      rcases List.mem_append.mp hq with h1 | h1
      · exact ⟨q, h1, hl⟩
      · simp only [List.mem_singleton] at h1; subst h1
        exact ⟨p0, (hval _ hmem).1, (hval _ hmem).2.1.trans hl⟩
  · intro kv hkv
    obtain ⟨h3, h4, h5⟩ := hval kv hkv
    refine ⟨List.mem_append_left _ h3, h4, ?_⟩
    intro q hq hl
    rcases List.mem_append.mp hq with h6 | h6
    · exact h5 q h6 hl
    · simp only [List.mem_singleton] at h6; subst h6
      have hkey : kv.1 = (h q).cropDetails.id := hl.symm
      have : kv = ((h q).cropDetails.id, p0) := by
        have h7 := mapFind_of_mem_nodup latest kv.1 kv.2 hnd hkv
        rw [hkey, hfind] at h7
        simp only [Option.some.injEq] at h7
        exact Prod.ext hkey h7.symm
      rw [this]; exact hle

/-- The loop of `listAllCrops` keeps `LatestOf`. -/
theorem latestCropTransactions_spec (h : TxHeap) (rest : List Nat) :
    ∀ (seen : List Nat) (latest : List (String × Nat)), LatestOf h seen latest →
      LatestOf h (seen ++ rest) (latestCropTransactions h rest latest) := by
  induction rest with
  | nil => intro seen latest hinv; simpa [latestCropTransactions] using hinv
  | cons p rest ih =>
    intro seen latest hinv
    have hassoc : seen ++ p :: rest = (seen ++ [p]) ++ rest := by simp
    rw [hassoc]
    simp only [latestCropTransactions]
    cases hfind : mapFind latest (h p).cropDetails.id with
    | none =>
      exact ih _ _ (latestOf_assign h seen latest p hinv (fun q hq => by rw [hfind] at hq; cases hq))
    | some p0 =>
      simp only
      split_ifs with hgt
      · refine ih _ _ (latestOf_assign h seen latest p hinv ?_)
        intro q hq
        rw [hfind] at hq
        simp only [Option.some.injEq] at hq
        subst hq
        exact le_of_lt hgt
      · exact ih _ _ (latestOf_keep h seen latest p p0 hinv hfind (not_lt.mp hgt))

/-- C13. `listAllCrops` keeps one record for each crop identifier that occurs among
the appended records and none for any other identifier; the record kept for an
identifier is an appended record of that crop, and no appended record of that crop
has a strictly greater timestamp. -/
theorem listAllCrops_latest (c : TraceabilityChain) (h : TxHeap) :
    ((listAllCrops c h).map Prod.fst).Nodup ∧
    (∀ cropId, cropId ∈ (listAllCrops c h).map Prod.fst ↔
      ∃ p ∈ c.allTransactions, (h p).cropDetails.id = cropId) ∧
    (∀ entry ∈ listAllCrops c h,
      entry.2 ∈ c.allTransactions ∧ (h entry.2).cropDetails.id = entry.1 ∧
      ∀ q ∈ c.allTransactions, (h q).cropDetails.id = entry.1 →
        ¬ (h q).timestamp > (h entry.2).timestamp) := by
  have hspec := latestCropTransactions_spec h c.allTransactions [] [] (latestOf_nil h)
  rw [List.nil_append] at hspec
  obtain ⟨h1, h2, h3⟩ := hspec
  refine ⟨h1, h2, ?_⟩
  intro entry hentry
  obtain ⟨h4, h5, h6⟩ := h3 entry hentry
  exact ⟨h4, h5, fun q hq hl => not_lt.mpr (h6 q hq hl)⟩

/-! ## Queue sizes -/

/-- The conversion to `int` keeps a length below 2147483648. -/
theorem toInt_of_lt (n : Nat) (hn : n < 2147483648) : toInt n = (n : Int) := by
  unfold toInt
  have : (n + 2147483648) % 4294967296 = n + 2147483648 := Nat.mod_eq_of_lt (by omega)
  rw [this]
  push_cast
  ring

theorem inv_leaf_fields {t : RoutingDecisionTree} (ht : t.Inv) :
    ((t.nodes 7).leftChild = none ∧ (t.nodes 7).rightChild = none ∧
      (t.nodes 7).description = "North Premium") ∧
    ((t.nodes 8).leftChild = none ∧ (t.nodes 8).rightChild = none ∧
      (t.nodes 8).description = "North Standard") ∧
    ((t.nodes 9).leftChild = none ∧ (t.nodes 9).rightChild = none ∧
      (t.nodes 9).description = "South Premium") ∧
    ((t.nodes 10).leftChild = none ∧ (t.nodes 10).rightChild = none ∧
      (t.nodes 10).description = "South Standard") ∧
    ((t.nodes 11).leftChild = none ∧ (t.nodes 11).rightChild = none ∧
      (t.nodes 11).description = "East Premium") ∧
    ((t.nodes 12).leftChild = none ∧ (t.nodes 12).rightChild = none ∧
      (t.nodes 12).description = "East Standard") ∧
    ((t.nodes 13).leftChild = none ∧ (t.nodes 13).rightChild = none ∧
      (t.nodes 13).description = "West Premium") ∧
    ((t.nodes 14).leftChild = none ∧ (t.nodes 14).rightChild = none ∧
      (t.nodes 14).description = "West Standard") := by
  have k7 := inv_leaf ht 7 (by decide) (by decide)
  have k8 := inv_leaf ht 8 (by decide) (by decide)
  have k9 := inv_leaf ht 9 (by decide) (by decide)
  have k10 := inv_leaf ht 10 (by decide) (by decide)
  have k11 := inv_leaf ht 11 (by decide) (by decide)
  have k12 := inv_leaf ht 12 (by decide) (by decide)
  have k13 := inv_leaf ht 13 (by decide) (by decide)
  have k14 := inv_leaf ht 14 (by decide) (by decide)
  exact ⟨⟨k7.1, k7.2.1, k7.2.2.2⟩, ⟨k8.1, k8.2.1, k8.2.2.2⟩, ⟨k9.1, k9.2.1, k9.2.2.2⟩,
    ⟨k10.1, k10.2.1, k10.2.2.2⟩, ⟨k11.1, k11.2.1, k11.2.2.2⟩, ⟨k12.1, k12.2.1, k12.2.2.2⟩,
    ⟨k13.1, k13.2.1, k13.2.2.2⟩, ⟨k14.1, k14.2.1, k14.2.2.2⟩⟩

/-- The entries `getAllQueueSizes` returns for a constructed tree. -/
theorem getAllQueueSizes_Inv (t : RoutingDecisionTree) (ht : t.Inv) :
    getAllQueueSizes t =
      [("northPremium (North Premium)", toInt (t.nodes 7).processingQueue.length),
       ("northStandard (North Standard)", toInt (t.nodes 8).processingQueue.length),
       ("southPremium (South Premium)", toInt (t.nodes 9).processingQueue.length),
       ("southStandard (South Standard)", toInt (t.nodes 10).processingQueue.length),
       ("eastPremium (East Premium)", toInt (t.nodes 11).processingQueue.length),
       ("eastStandard (East Standard)", toInt (t.nodes 12).processingQueue.length),
       ("westPremium (West Premium)", toInt (t.nodes 13).processingQueue.length),
       ("westStandard (West Standard)", toInt (t.nodes 14).processingQueue.length)] := by
  obtain ⟨⟨a0, f0, l0, r0⟩, ⟨a1, f1, l1, r1⟩, ⟨a2, f2, l2, r2⟩, ⟨a3, f3, l3, r3⟩,
    ⟨a4, f4, l4, r4⟩, ⟨a5, f5, l5, r5⟩, ⟨a6, f6, l6, r6⟩⟩ := inv_fields ht
  obtain ⟨⟨c7, d7, e7⟩, ⟨c8, d8, e8⟩, ⟨c9, d9, e9⟩, ⟨c10, d10, e10⟩, ⟨c11, d11, e11⟩,
    ⟨c12, d12, e12⟩, ⟨c13, d13, e13⟩, ⟨c14, d14, e14⟩⟩ := inv_leaf_fields ht
  unfold getAllQueueSizes
  rw [ht.2.1, new_nodeMap]
  simp [getAllQueueSizesLoop, DecisionNode.queueSize, l0, l1, l2, l3, l4, l5, l6,
    c7, d7, e7, c8, d8, e8, c9, d9, e9, c10, d10, e10, c11, d11, e11, c12, d12, e12,
    c13, d13, e13, c14, d14, e14]

theorem getNodesWithItemsLoop_eq (t : RoutingDecisionTree) (m : List (String × Nat)) :
    ∀ acc, getNodesWithItemsLoop t m acc =
      acc ++ (m.filter (fun pair => decide ((t.nodes pair.2).leftChild = none ∧
          (t.nodes pair.2).rightChild = none ∧ (t.nodes pair.2).queueSize > 0))).map
        (fun pair => (pair.1 ++ " (" ++ (t.nodes pair.2).description ++ ")", pair.2)) := by
  induction m with
  | nil => intro acc; simp [getNodesWithItemsLoop]
  | cons pair m ih =>
    intro acc
    simp only [getNodesWithItemsLoop]
    split_ifs with hc
    · rw [ih, List.filter_cons_of_pos (by simpa using hc)]
      simp
    · rw [ih, List.filter_cons_of_neg (by simpa using hc)]

theorem getNode_lt_of_Inv {t : RoutingDecisionTree} (ht : t.Inv) (nodeId : String) (p : Nat)
    (hget : getNode t nodeId = some p) : p < 15 ∧ (t.nodes p).nodeId = nodeId := by
  have hmem := mem_of_mapFind _ _ _ hget
  rw [ht.2.1, new_nodeMap] at hmem
  simp only [List.mem_cons, Prod.mk.injEq, List.mem_singleton, List.not_mem_nil, or_false] at hmem
  rcases hmem with h | h | h | h | h | h | h | h | h | h | h | h | h | h | h <;>
    obtain ⟨hid, hp⟩ := h <;> subst hid <;> subst hp <;>
  exact ⟨by decide, by rw [(ht.2.2.1 _ (by decide)).1]; rfl⟩

theorem getNode_of_Inv {t : RoutingDecisionTree} (ht : t.Inv) (a : Nat) (ha : a < 15) :
    getNode t (t.nodes a).nodeId = some a := by
  unfold getNode
  rw [ht.2.1, (ht.2.2.1 a ha).1]
  interval_cases a <;> rfl

theorem inner_of_lt_seven (a : Nat) (h7 : a < 7) :
    ¬ ((RoutingDecisionTree.new.nodes a).leftChild = none ∧
      (RoutingDecisionTree.new.nodes a).rightChild = none) := by
  interval_cases a <;> (intro hc; cases hc.1)

/-- The entries `getNodesWithItems` returns for a constructed tree. -/
theorem getNodesWithItems_Inv (t : RoutingDecisionTree) (ht : t.Inv) :
    ((getNodesWithItems t).map Prod.snd).Nodup ∧
    ∀ entry, entry ∈ getNodesWithItems t ↔
      ∃ a, 7 ≤ a ∧ a < 15 ∧ 0 < toInt (t.nodes a).processingQueue.length ∧
        entry = ((t.nodes a).nodeId ++ " (" ++ (t.nodes a).description ++ ")", a) := by
  unfold getNodesWithItems
  rw [getNodesWithItemsLoop_eq, List.nil_append]
  constructor
  · rw [List.map_map]
    have hsub : ((t.nodeMap.filter (fun pair => decide ((t.nodes pair.2).leftChild = none ∧
          (t.nodes pair.2).rightChild = none ∧ (t.nodes pair.2).queueSize > 0))).map
        (Prod.snd ∘ fun pair => (pair.1 ++ " (" ++ (t.nodes pair.2).description ++ ")", pair.2))).Sublist
        (t.nodeMap.map Prod.snd) := by
      exact List.Sublist.map _ (List.filter_sublist _)
    refine List.Nodup.sublist hsub ?_
    rw [ht.2.1, new_nodeMap]
    decide
  · intro entry
    simp only [List.mem_map, List.mem_filter, decide_eq_true_eq, DecisionNode.queueSize]
    constructor
    · rintro ⟨pair, ⟨hmem, hl, hr, hsize⟩, rfl⟩
      obtain ⟨k, p⟩ := pair
      have hget : getNode t k = some p := by
        unfold getNode
        refine mapFind_of_mem_nodup _ _ _ ?_ hmem
        rw [ht.2.1, new_nodeMap]; decide
      obtain ⟨h15, hid⟩ := getNode_lt_of_Inv ht k p hget
      have h7 : 7 ≤ p := by
        by_contra hlt
        have hin := inner_of_lt_seven p (by omega)
        have hs := ht.2.2.1 p h15
        exact hin ⟨hs.2.2.2.2.1 ▸ hl, hs.2.2.2.2.2 ▸ hr⟩
      exact ⟨p, h7, h15, hsize, by simp only [hid]⟩
    · rintro ⟨a, h7, h15, hsize, rfl⟩
      obtain ⟨kl, kr, -, -⟩ := inv_leaf ht a h7 h15
      refine ⟨((t.nodes a).nodeId, a), ⟨?_, kl, kr, hsize⟩, rfl⟩
      exact mem_of_mapFind _ _ _ (getNode_of_Inv ht a h15)

/-! ## Tallies over call sequences -/

theorem pending_update (t t2 : RoutingDecisionTree) (a : Nat) (n : DecisionNode)
    (h7 : 7 ≤ a) (h15 : a < 15) (hnodes : t2.nodes = Function.update t.nodes a n) :
    pending t2 + (t.nodes a).processingQueue.length =
      pending t + n.processingQueue.length := by
  unfold pending
  rw [hnodes]
  interval_cases a <;> simp [Function.update] <;> omega

theorem pending_congr (t t2 : RoutingDecisionTree) (hnodes : t2.nodes = t.nodes) :
    pending t2 = pending t := by
  unfold pending; rw [hnodes]

/-- Every call sequence keeps the tree constructed, and the records in the leaf
queues plus the records dequeued are the records there at the start plus the
records routed. -/
theorem runCalls_tally (fuel : Nat) (hfuel : 3 ≤ fuel) (calls : List TreeCall) :
    ∀ (t : RoutingDecisionTree) (h : TxHeap), t.Inv →
      (runCalls fuel t h calls).1.Inv ∧
      pending (runCalls fuel t h calls).1 + (runCalls fuel t h calls).2.2.2 =
        pending t + (runCalls fuel t h calls).2.2.1 := by
  induction calls with
  | nil => intro t h ht; exact ⟨ht, rfl⟩
  | cons call rest ih =>
    intro t h ht
    cases call with
    | route crop tx =>
      obtain ⟨hinv, hcase⟩ := routeCrop_cases t ht crop tx fuel hfuel h
      obtain ⟨ih1, ih2⟩ := ih _ (routeCrop fuel t h crop tx).2.2 hinv
      refine ⟨ih1, ?_⟩
      simp only [runCalls]
      rcases hcase with ⟨q, hres, hnodes⟩ | ⟨e, hres, hnodes⟩
      · obtain ⟨h7, h15⟩ := routeTarget_range crop q
        have hp := pending_update t _ _ _ h7 h15 hnodes
        simp only [DecisionNode.enqueue, List.length_append, List.length_singleton] at hp
        rw [hres]
        simp only
        omega
      · have hp := pending_congr t _ hnodes
        rw [hres]
        simp only
        omega
    | dequeue nodeId =>
      have hinv := dequeueFrom_Inv t ht nodeId
      obtain ⟨ih1, ih2⟩ := ih _ h hinv
      refine ⟨ih1, ?_⟩
      simp only [runCalls]
      cases hget : getNode t nodeId with
      | none =>
        have hd : dequeueFrom t nodeId = (.unknownNode, t) := by simp [dequeueFrom, hget]
        rw [hd] at ih2 ⊢
        simp only at ih2 ⊢
        omega
      | some p =>
        cases hqueue : (t.nodes p).processingQueue with
        | nil =>
          rw [dequeueFrom_empty t nodeId p hget hqueue] at ih2 ⊢
          simp only at ih2 ⊢
          omega
        | cons x xs =>
          obtain ⟨h15, -⟩ := getNode_lt_of_Inv ht nodeId p hget
          have h7 : 7 ≤ p := by
            by_contra hlt
            have := ht.2.2.2 p h15 (inner_of_lt_seven p (by omega))
            rw [hqueue] at this; cases this
          rw [dequeueFrom_record t nodeId p x xs hget hqueue] at ih2 ⊢
          have hp := pending_update t
            { t with nodes := Function.update t.nodes p { t.nodes p with processingQueue := xs } }
            p { t.nodes p with processingQueue := xs } h7 h15 rfl
          rw [hqueue] at hp
          simp only [List.length_cons] at hp
          simp only at ih2 ⊢
          omega

theorem queue_le_pending (t : RoutingDecisionTree) (a : Nat) (h7 : 7 ≤ a) (h15 : a < 15) :
    (t.nodes a).processingQueue.length ≤ pending t := by
  unfold pending
  interval_cases a <;> omega

theorem runCalls_routed_le (fuel : Nat) (calls : List TreeCall) :
    ∀ (t : RoutingDecisionTree) (h : TxHeap), (runCalls fuel t h calls).2.2.1 ≤ calls.length := by
  induction calls with
  | nil => intro t h; exact le_refl _
  | cons call rest ih =>
    intro t h
    cases call with
    | route crop tx =>
      simp only [runCalls, List.length_cons]
      have := ih (routeCrop fuel t h crop tx).2.1 (routeCrop fuel t h crop tx).2.2
      split <;> omega
    | dequeue nodeId =>
      simp only [runCalls, List.length_cons]
      have := ih (dequeueFrom t nodeId).2 h
      omega

theorem pending_new : pending RoutingDecisionTree.new = 0 := rfl

/-- With fewer than 2147483648 records in each leaf queue the reported numbers add
up to the number of records in the leaf queues. -/
theorem sum_getAllQueueSizes (t : RoutingDecisionTree) (ht : t.Inv)
    (hsmall : ∀ a, 7 ≤ a → a < 15 → (t.nodes a).processingQueue.length < 2147483648) :
    ((getAllQueueSizes t).map Prod.snd).sum = (pending t : Int) := by
  rw [getAllQueueSizes_Inv t ht]
  simp only [List.map_cons, List.map_nil, List.sum_cons, List.sum_nil,
    toInt_of_lt _ (hsmall 7 (by decide) (by decide)),
    toInt_of_lt _ (hsmall 8 (by decide) (by decide)),
    toInt_of_lt _ (hsmall 9 (by decide) (by decide)),
    toInt_of_lt _ (hsmall 10 (by decide) (by decide)),
    toInt_of_lt _ (hsmall 11 (by decide) (by decide)),
    toInt_of_lt _ (hsmall 12 (by decide) (by decide)),
    toInt_of_lt _ (hsmall 13 (by decide) (by decide)),
    toInt_of_lt _ (hsmall 14 (by decide) (by decide)), pending]
  push_cast
  ring

/-- After any sequence of `routeCrop` and `dequeueFrom` calls on the freshly built
tree that leaves fewer than 2147483648 records in each leaf queue, the numbers
`getAllQueueSizes` reports add up to the number of `routeCrop` calls that returned a
node minus the number of `dequeueFrom` calls that returned a record. -/
theorem queue_sizes_sum (fuel : Nat) (h : TxHeap) (calls : List TreeCall) (hfuel : 3 ≤ fuel)
    (hsmall : ∀ a, 7 ≤ a → a < 15 →
      ((runCalls fuel RoutingDecisionTree.new h calls).1.nodes a).processingQueue.length
        < 2147483648) :
    ((getAllQueueSizes (runCalls fuel RoutingDecisionTree.new h calls).1).map Prod.snd).sum =
      ((runCalls fuel RoutingDecisionTree.new h calls).2.2.1 : Int) -
        ((runCalls fuel RoutingDecisionTree.new h calls).2.2.2 : Int) := by
  obtain ⟨hinv, htally⟩ := runCalls_tally fuel hfuel calls RoutingDecisionTree.new h inv_new
  rw [sum_getAllQueueSizes _ hinv hsmall]
  rw [pending_new] at htally
  omega

/-- The sum of the reported numbers after two routed crops and one dequeue. -/
theorem queue_sizes_sum_witness :
    ((getAllQueueSizes (runCalls 3 RoutingDecisionTree.new (farmerHeap wheatCrop)
      [TreeCall.route wheatCrop 0, TreeCall.route eastCrop 1,
        TreeCall.dequeue "northPremium"]).1).map Prod.snd).sum =
      ((runCalls 3 RoutingDecisionTree.new (farmerHeap wheatCrop)
        [TreeCall.route wheatCrop 0, TreeCall.route eastCrop 1,
          TreeCall.dequeue "northPremium"]).2.2.1 : Int) -
      ((runCalls 3 RoutingDecisionTree.new (farmerHeap wheatCrop)
        [TreeCall.route wheatCrop 0, TreeCall.route eastCrop 1,
          TreeCall.dequeue "northPremium"]).2.2.2 : Int) := by
  apply queue_sizes_sum 3 _ _ (le_refl 3)
  intro a h7 h15
  have h1 := queue_le_pending (runCalls 3 RoutingDecisionTree.new (farmerHeap wheatCrop)
      [TreeCall.route wheatCrop 0, TreeCall.route eastCrop 1,
        TreeCall.dequeue "northPremium"]).1 a h7 h15
  have h2 := (runCalls_tally 3 (le_refl 3) [TreeCall.route wheatCrop 0, TreeCall.route eastCrop 1,
        TreeCall.dequeue "northPremium"] RoutingDecisionTree.new (farmerHeap wheatCrop) inv_new).2
  have h3 := runCalls_routed_le 3 [TreeCall.route wheatCrop 0, TreeCall.route eastCrop 1,
        TreeCall.dequeue "northPremium"] RoutingDecisionTree.new (farmerHeap wheatCrop)
  rw [pending_new] at h2
  simp only [List.length_cons, List.length_nil] at h3
  omega

/-- The state after `n` calls that route one crop with one record. -/
theorem runCalls_replicate (fuel : Nat) (hfuel : 3 ≤ fuel) (crop : Crop) (tx : Nat) (q : Bool)
    (hq : qualityDecision crop = .ok q) :
    ∀ (n : Nat) (t : RoutingDecisionTree) (h : TxHeap), t.Inv →
      (runCalls fuel t h (List.replicate n (TreeCall.route crop tx))).1.Inv ∧
      (∀ a, ((runCalls fuel t h (List.replicate n (TreeCall.route crop tx))).1.nodes
          a).processingQueue =
        (t.nodes a).processingQueue ++
          (if a = routeTarget crop q then List.replicate n tx else [])) ∧
      (runCalls fuel t h (List.replicate n (TreeCall.route crop tx))).2.2.1 = n ∧
      (runCalls fuel t h (List.replicate n (TreeCall.route crop tx))).2.2.2 = 0 := by
  intro n
  induction n with
  | zero =>
    intro t h ht
    refine ⟨ht, ?_, rfl, rfl⟩
    intro a
    simp [runCalls]
  | succ n ih =>
    intro t h ht
    obtain ⟨hres, -, -, hnodes⟩ := routeCrop_ok t ht crop tx fuel hfuel h q hq
    have hinv := (routeCrop_cases t ht crop tx fuel hfuel h).1
    obtain ⟨ih1, ih2, ih3, ih4⟩ := ih _ (routeCrop fuel t h crop tx).2.2 hinv
    rw [List.replicate_succ]
    simp only [runCalls]
    refine ⟨ih1, ?_, ?_, ih4⟩
    · intro a
      rw [ih2 a, hnodes]
      by_cases ha : a = routeTarget crop q
      · subst ha
        simp [DecisionNode.enqueue, List.replicate_succ]
      · simp [ha, Function.update_noteq ha]
    · rw [ih3, hres]

theorem qualityDecision_wheatCrop : qualityDecision wheatCrop = .ok true := by
  rw [qualityDecision_of_fresh wheatCrop 9.0 rfl]; simp [wheatCrop]; norm_num

/-- The tree after `n` calls that route `wheatCrop` with the record at address 0
through the freshly built tree: `n` records wait at `northPremium`. -/
theorem runCalls_wheat (n : Nat) :
    (runCalls 3 RoutingDecisionTree.new (farmerHeap wheatCrop)
      (List.replicate n (TreeCall.route wheatCrop 0))).1.Inv ∧
    ((runCalls 3 RoutingDecisionTree.new (farmerHeap wheatCrop)
      (List.replicate n (TreeCall.route wheatCrop 0))).1.nodes 7).processingQueue.length = n ∧
    (∀ a, 8 ≤ a → a < 15 → ((runCalls 3 RoutingDecisionTree.new (farmerHeap wheatCrop)
      (List.replicate n (TreeCall.route wheatCrop 0))).1.nodes a).processingQueue.length = 0) ∧
    (runCalls 3 RoutingDecisionTree.new (farmerHeap wheatCrop)
      (List.replicate n (TreeCall.route wheatCrop 0))).2.2.1 = n ∧
    (runCalls 3 RoutingDecisionTree.new (farmerHeap wheatCrop)
      (List.replicate n (TreeCall.route wheatCrop 0))).2.2.2 = 0 := by
  obtain ⟨h1, h2, h3, h4⟩ := runCalls_replicate 3 (le_refl 3) wheatCrop 0 true
    qualityDecision_wheatCrop n RoutingDecisionTree.new (farmerHeap wheatCrop) inv_new
  have ht : routeTarget wheatCrop true = 7 := by decide
  rw [ht] at h2
  refine ⟨h1, ?_, ?_, h3, h4⟩
  · rw [h2 7, new_nodes_7]; simp
  · intro a h8 h15
    rw [h2 a]
    have hne : a ≠ 7 := by omega
    simp only [hne, if_false, List.append_nil]
    interval_cases a <;> rfl

theorem toInt_pos_iff (n : Nat) (hn : n < 2147483648) : 0 < toInt n ↔ 0 < n := by
  rw [toInt_of_lt n hn]; omega

theorem toInt_zero : toInt 0 = 0 := by decide

/-- The conversion to `int` of the length 2147483648. -/
theorem toInt_wrap : toInt 2147483648 = -2147483648 := by decide

/-- The entries of `getAllQueueSizes` for a constructed tree, whatever the queues
hold: 8 entries with distinct labels, exactly one for each of the eight leaves,
labelled "<leaf id> (<leaf description>)" and carrying what `queueSize` returns for
the leaf, and none for an inner node; and `queueSize` returns the length of a queue
of fewer than 2147483648 records. -/
theorem getAllQueueSizes_entries (t : RoutingDecisionTree) (ht : t.Inv) :
    (getAllQueueSizes t).length = 8 ∧
    ((getAllQueueSizes t).map Prod.fst).Nodup ∧
    (∀ entry, entry ∈ getAllQueueSizes t ↔
      ∃ a, 7 ≤ a ∧ a < 15 ∧ (t.nodes a).leftChild = none ∧ (t.nodes a).rightChild = none ∧
        entry = ((t.nodes a).nodeId ++ " (" ++ (t.nodes a).description ++ ")",
          (t.nodes a).queueSize)) ∧
    (∀ a, (t.nodes a).processingQueue.length < 2147483648 →
      (t.nodes a).queueSize = ((t.nodes a).processingQueue.length : Int)) := by
  rw [getAllQueueSizes_Inv t ht]
  refine ⟨rfl, by simp only [List.map_cons, List.map_nil]; decide, ?_,
    fun a ha => toInt_of_lt _ ha⟩
  intro entry
  constructor
  · intro hmem
    simp only [List.mem_cons, List.mem_singleton, List.not_mem_nil, or_false] at hmem
    have hleaf : ∀ a, 7 ≤ a → a < 15 →
        entry = ((RoutingDecisionTree.new.nodes a).nodeId ++ " (" ++
          (RoutingDecisionTree.new.nodes a).description ++ ")",
          toInt (t.nodes a).processingQueue.length) →
        ∃ a, 7 ≤ a ∧ a < 15 ∧ (t.nodes a).leftChild = none ∧ (t.nodes a).rightChild = none ∧
          entry = ((t.nodes a).nodeId ++ " (" ++ (t.nodes a).description ++ ")",
            (t.nodes a).queueSize) := by
      intro a h7 h15 he
      have k := inv_leaf ht a h7 h15
      exact ⟨a, h7, h15, k.1, k.2.1, by rw [he, k.2.2.1, k.2.2.2]; rfl⟩
    rcases hmem with h | h | h | h | h | h | h | h
    · exact hleaf 7 (by decide) (by decide) h
    · exact hleaf 8 (by decide) (by decide) h
    · exact hleaf 9 (by decide) (by decide) h
    · exact hleaf 10 (by decide) (by decide) h
    · exact hleaf 11 (by decide) (by decide) h
    · exact hleaf 12 (by decide) (by decide) h
    · exact hleaf 13 (by decide) (by decide) h
    · exact hleaf 14 (by decide) (by decide) h
  · rintro ⟨a, h7, h15, -, -, rfl⟩
    have k := inv_leaf ht a h7 h15
    rw [k.2.2.1, k.2.2.2]
    unfold DecisionNode.queueSize
    interval_cases a
    · rw [new_nodes_7]; simp
    · rw [new_nodes_8]; simp
    · rw [new_nodes_9]; simp
    · rw [new_nodes_10]; simp
    · rw [new_nodes_11]; simp
    · rw [new_nodes_12]; simp
    · rw [new_nodes_13]; simp
    · rw [new_nodes_14]; simp

theorem wheat_small (n : Nat) (hn : n < 2147483648) :
    ∀ a, 7 ≤ a → a < 15 → ((runCalls 3 RoutingDecisionTree.new (farmerHeap wheatCrop)
      (List.replicate n (TreeCall.route wheatCrop 0))).1.nodes a).processingQueue.length
        < 2147483648 := by
  intro a h7 h15
  obtain ⟨-, k7, krest, -, -⟩ := runCalls_wheat n
  rcases Nat.eq_or_lt_of_le h7 with h | h
  · rw [← h, k7]; exact hn
  · rw [krest a h h15]; decide

/-- The entry of `northPremium` after one routed wheat crop carries the number 1. -/
theorem getAllQueueSizes_entries_witness :
    ("northPremium (North Premium)", (1 : Int)) ∈
      getAllQueueSizes (runCalls 3 RoutingDecisionTree.new (farmerHeap wheatCrop)
        (List.replicate 1 (TreeCall.route wheatCrop 0))).1 := by
  obtain ⟨hinv, k7, -, -, -⟩ := runCalls_wheat 1
  obtain ⟨-, -, hmem, hsize⟩ := getAllQueueSizes_entries _ hinv
  have k := inv_leaf hinv 7 (by decide) (by decide)
  refine (hmem _).2 ⟨7, by decide, by decide, k.1, k.2.1, ?_⟩
  rw [hsize 7 (by rw [k7]; decide), k7, k.2.2.1, k.2.2.2]
  rfl

theorem getAllQueueSizes_wheat (n : Nat) :
    getAllQueueSizes (runCalls 3 RoutingDecisionTree.new (farmerHeap wheatCrop)
      (List.replicate n (TreeCall.route wheatCrop 0))).1 =
      [("northPremium (North Premium)", toInt n),
       ("northStandard (North Standard)", 0),
       ("southPremium (South Premium)", 0),
       ("southStandard (South Standard)", 0),
       ("eastPremium (East Premium)", 0),
       ("eastStandard (East Standard)", 0),
       ("westPremium (West Premium)", 0),
       ("westStandard (West Standard)", 0)] := by
  obtain ⟨hinv, k7, krest, -, -⟩ := runCalls_wheat n
  rw [getAllQueueSizes_Inv _ hinv, k7, krest 8 (by decide) (by decide),
    krest 9 (by decide) (by decide), krest 10 (by decide) (by decide),
    krest 11 (by decide) (by decide), krest 12 (by decide) (by decide),
    krest 13 (by decide) (by decide), krest 14 (by decide) (by decide), toInt_zero]

/-- C17, at the state the conversion to `int` fails in: after 2147483648 `routeCrop`
calls on the freshly built tree that return `northPremium`, the queue of that leaf
holds 2147483648 records and the entry `getAllQueueSizes` returns for it carries
-2147483648; no entry carries the leaf's label with the length of its queue. -/
theorem getAllQueueSizes_overflow :
    ((runCalls 3 RoutingDecisionTree.new (farmerHeap wheatCrop)
      (List.replicate 2147483648 (TreeCall.route wheatCrop 0))).1.nodes
        7).processingQueue.length = 2147483648 ∧
    ("northPremium (North Premium)", (-2147483648 : Int)) ∈
      getAllQueueSizes (runCalls 3 RoutingDecisionTree.new (farmerHeap wheatCrop)
        (List.replicate 2147483648 (TreeCall.route wheatCrop 0))).1 ∧
    ("northPremium (North Premium)", (2147483648 : Int)) ∉
      getAllQueueSizes (runCalls 3 RoutingDecisionTree.new (farmerHeap wheatCrop)
        (List.replicate 2147483648 (TreeCall.route wheatCrop 0))).1 := by
  refine ⟨(runCalls_wheat 2147483648).2.1, ?_, ?_⟩
  · rw [getAllQueueSizes_wheat 2147483648, toInt_wrap]
    exact List.mem_cons_self _ _
  · rw [getAllQueueSizes_wheat 2147483648, toInt_wrap]
    decide

/-- The entries of `getNodesWithItems` for a constructed tree. Whatever the queues
hold, no node is returned twice and every entry is a leaf with a non-empty queue,
labelled "<leaf id> (<leaf description>)": no inner node and no leaf with an empty
queue is returned. A leaf whose queue holds at least one and fewer than 2147483648
records is returned. For the freshly built tree nothing is returned. -/
theorem getNodesWithItems_pending (t : RoutingDecisionTree) (ht : t.Inv) :
    ((getNodesWithItems t).map Prod.snd).Nodup ∧
    (∀ entry ∈ getNodesWithItems t,
      ∃ a, 7 ≤ a ∧ a < 15 ∧ (t.nodes a).leftChild = none ∧ (t.nodes a).rightChild = none ∧
        0 < (t.nodes a).processingQueue.length ∧
        entry = ((t.nodes a).nodeId ++ " (" ++ (t.nodes a).description ++ ")", a)) ∧
    (∀ a, 7 ≤ a → a < 15 → 0 < (t.nodes a).processingQueue.length →
      (t.nodes a).processingQueue.length < 2147483648 →
      ((t.nodes a).nodeId ++ " (" ++ (t.nodes a).description ++ ")", a) ∈
        getNodesWithItems t) ∧
    getNodesWithItems RoutingDecisionTree.new = [] := by
  obtain ⟨h1, h2⟩ := getNodesWithItems_Inv t ht
  refine ⟨h1, ?_, ?_, ?_⟩
  · intro entry hmem
    obtain ⟨a, h7, h15, hpos, he⟩ := (h2 entry).1 hmem
    have k := inv_leaf ht a h7 h15
    refine ⟨a, h7, h15, k.1, k.2.1, Nat.pos_of_ne_zero ?_, he⟩
    intro hz
    rw [hz, toInt_zero] at hpos
    exact absurd hpos (by decide)
  · intro a h7 h15 hpos hlt
    exact (h2 _).2 ⟨a, h7, h15, (toInt_pos_iff _ hlt).2 hpos, rfl⟩
  · rw [List.eq_nil_iff_forall_not_mem]
    intro entry hmem
    obtain ⟨a, h7, h15, hpos, -⟩ := ((getNodesWithItems_Inv _ inv_new).2 entry).1 hmem
    have hz : (RoutingDecisionTree.new.nodes a).processingQueue.length = 0 := by
      interval_cases a <;> rfl
    rw [hz, toInt_zero] at hpos
    exact absurd hpos (by decide)

/-- After one routed wheat crop `getNodesWithItems` returns `northPremium`. -/
theorem getNodesWithItems_pending_witness :
    ("northPremium (North Premium)", 7) ∈
      getNodesWithItems (runCalls 3 RoutingDecisionTree.new (farmerHeap wheatCrop)
        (List.replicate 1 (TreeCall.route wheatCrop 0))).1 := by
  obtain ⟨hinv, k7, -, -, -⟩ := runCalls_wheat 1
  have k := inv_leaf hinv 7 (by decide) (by decide)
  have key := (getNodesWithItems_pending _ hinv).2.2.1 7 (by decide) (by decide)
    (by rw [k7]; decide) (by rw [k7]; decide)
  rw [k.2.2.1, k.2.2.2] at key
  exact key

theorem getNodesWithItems_wheat (n : Nat) (hn : toInt n ≤ 0) :
    getNodesWithItems (runCalls 3 RoutingDecisionTree.new (farmerHeap wheatCrop)
      (List.replicate n (TreeCall.route wheatCrop 0))).1 = [] := by
  obtain ⟨hinv, k7, krest, -, -⟩ := runCalls_wheat n
  rw [List.eq_nil_iff_forall_not_mem]
  intro entry hmem
  obtain ⟨a, h7, h15, hpos, -⟩ := ((getNodesWithItems_Inv _ hinv).2 entry).1 hmem
  rcases Nat.eq_or_lt_of_le h7 with h | h
  · rw [← h, k7] at hpos; omega
  · rw [krest a h h15, toInt_zero] at hpos
    exact absurd hpos (by decide)

/-- C18, at the state the conversion to `int` fails in: after 2147483648 `routeCrop`
calls on the freshly built tree that return `northPremium`, that node is a leaf
with 2147483648 records in its queue, and `getNodesWithItems` returns nothing. -/
theorem getNodesWithItems_overflow :
    ((runCalls 3 RoutingDecisionTree.new (farmerHeap wheatCrop)
      (List.replicate 2147483648 (TreeCall.route wheatCrop 0))).1.nodes
        7).processingQueue.length = 2147483648 ∧
    ((runCalls 3 RoutingDecisionTree.new (farmerHeap wheatCrop)
      (List.replicate 2147483648 (TreeCall.route wheatCrop 0))).1.nodes 7).leftChild = none ∧
    ((runCalls 3 RoutingDecisionTree.new (farmerHeap wheatCrop)
      (List.replicate 2147483648 (TreeCall.route wheatCrop 0))).1.nodes 7).rightChild = none ∧
    getNodesWithItems (runCalls 3 RoutingDecisionTree.new (farmerHeap wheatCrop)
      (List.replicate 2147483648 (TreeCall.route wheatCrop 0))).1 = [] := by
  refine ⟨(runCalls_wheat 2147483648).2.1,
    (inv_leaf (runCalls_wheat 2147483648).1 7 (by decide) (by decide)).1,
    (inv_leaf (runCalls_wheat 2147483648).1 7 (by decide) (by decide)).2.1, ?_⟩
  apply getNodesWithItems_wheat 2147483648
  rw [toInt_wrap]
  decide

/-- C12, at the state the conversion to `int` fails in: after 2147483648 `routeCrop`
calls on the freshly built tree that return `northPremium`, and no `dequeueFrom`
call, the numbers `getAllQueueSizes` reports add up to -2147483648, while the calls
that returned a node minus the calls that returned a record are 2147483648. -/
theorem queue_sizes_sum_overflow :
    ((getAllQueueSizes (runCalls 3 RoutingDecisionTree.new (farmerHeap wheatCrop)
      (List.replicate 2147483648 (TreeCall.route wheatCrop 0))).1).map Prod.snd).sum =
        -2147483648 ∧
    (runCalls 3 RoutingDecisionTree.new (farmerHeap wheatCrop)
      (List.replicate 2147483648 (TreeCall.route wheatCrop 0))).2.2.1 = 2147483648 ∧
    (runCalls 3 RoutingDecisionTree.new (farmerHeap wheatCrop)
      (List.replicate 2147483648 (TreeCall.route wheatCrop 0))).2.2.2 = 0 := by
  refine ⟨?_, (runCalls_wheat 2147483648).2.2.2.1, (runCalls_wheat 2147483648).2.2.2.2⟩
  rw [getAllQueueSizes_wheat 2147483648, toInt_wrap]
  rfl

/-! ## The shape of the constructed tree -/

theorem new_level_0 : RoutingDecisionTree.new.level 0 = [0] := rfl

theorem new_level_1 : RoutingDecisionTree.new.level 1 = [1, 2] := rfl

theorem new_level_2 : RoutingDecisionTree.new.level 2 = [3, 4, 5, 6] := rfl

theorem new_level_3 : RoutingDecisionTree.new.level 3 = [7, 8, 9, 10, 11, 12, 13, 14] := rfl

theorem new_level_4 : RoutingDecisionTree.new.level 4 = [] := rfl

/-- C22. The tree the constructor builds is a perfect binary tree with 15 nodes. The
node index has 15 entries with pairwise distinct identifiers and pairwise distinct
nodes, and each entry leads to the node that carries its identifier. Below the root
stand `northSouth` and `eastWest`, below them `north`, `south`, `east` and `west`,
below them the eight leaves, and below the leaves nothing; these fifteen nodes are
pairwise distinct and are the nodes of the index. The seven nodes above the leaves
have two children and a decision function, the eight leaves have no child and no
decision function, and a node of the index has a null child exactly if both its
children are null. -/
theorem new_is_perfect_tree :
    RoutingDecisionTree.new.nodeMap.length = 15 ∧
    (RoutingDecisionTree.new.nodeMap.map Prod.fst).Nodup ∧
    (RoutingDecisionTree.new.nodeMap.map Prod.snd).Nodup ∧
    (∀ entry ∈ RoutingDecisionTree.new.nodeMap,
      (RoutingDecisionTree.new.nodes entry.2).nodeId = entry.1 ∧
      getNode RoutingDecisionTree.new entry.1 = some entry.2) ∧
    RoutingDecisionTree.new.levelIds 0 = ["root"] ∧
    RoutingDecisionTree.new.levelIds 1 = ["northSouth", "eastWest"] ∧
    RoutingDecisionTree.new.levelIds 2 = ["north", "south", "east", "west"] ∧
    RoutingDecisionTree.new.levelIds 3 =
      ["northPremium", "northStandard", "southPremium", "southStandard", "eastPremium",
       "eastStandard", "westPremium", "westStandard"] ∧
    RoutingDecisionTree.new.level 4 = [] ∧
    (RoutingDecisionTree.new.level 0 ++ RoutingDecisionTree.new.level 1 ++
      RoutingDecisionTree.new.level 2 ++ RoutingDecisionTree.new.level 3).Nodup ∧
    (∀ a ∈ RoutingDecisionTree.new.nodeMap.map Prod.snd,
      a ∈ RoutingDecisionTree.new.level 0 ++ RoutingDecisionTree.new.level 1 ++
        RoutingDecisionTree.new.level 2 ++ RoutingDecisionTree.new.level 3) ∧
    (∀ a ∈ RoutingDecisionTree.new.level 0 ++ RoutingDecisionTree.new.level 1 ++
        RoutingDecisionTree.new.level 2 ++ RoutingDecisionTree.new.level 3,
      a ∈ RoutingDecisionTree.new.nodeMap.map Prod.snd) ∧
    (∀ a ∈ RoutingDecisionTree.new.level 0 ++ RoutingDecisionTree.new.level 1 ++
        RoutingDecisionTree.new.level 2,
      (RoutingDecisionTree.new.nodes a).leftChild.isSome = true ∧
      (RoutingDecisionTree.new.nodes a).rightChild.isSome = true ∧
      (RoutingDecisionTree.new.nodes a).decisionFunction.isSome = true) ∧
    (∀ a ∈ RoutingDecisionTree.new.level 3,
      (RoutingDecisionTree.new.nodes a).leftChild = none ∧
      (RoutingDecisionTree.new.nodes a).rightChild = none ∧
      (RoutingDecisionTree.new.nodes a).decisionFunction.isSome = false) ∧
    (∀ a ∈ RoutingDecisionTree.new.nodeMap.map Prod.snd,
      ((RoutingDecisionTree.new.nodes a).leftChild = none ∨
        (RoutingDecisionTree.new.nodes a).rightChild = none) ↔
      ((RoutingDecisionTree.new.nodes a).leftChild = none ∧
        (RoutingDecisionTree.new.nodes a).rightChild = none)) := by
  refine ⟨rfl, by decide, by decide, by decide, rfl, rfl, rfl, rfl, rfl, by decide, by decide,
    by decide, by decide, by decide, by decide⟩

/-! ## Other area codes and missing freshness -/

/-- C24. For a crop with a "freshness" entry whose area code is none of North, South,
East and West, `routeCrop` returns a node: the decision functions of `root` and of
`eastWest` answer false, and the node returned is `westPremium` when the quality
gate answers true and `westStandard` when it answers false. The record is put at
the back of that node's queue and the annotations name the decisions right, right
and the path root -> eastWest -> west. -/
theorem routeCrop_other_region (fuel : Nat) (t : RoutingDecisionTree) (h : TxHeap) (crop : Crop)
    (transaction : Nat) (freshness : ℚ) (hfuel : 3 ≤ fuel) (ht : t.Inv)
    (hregion : crop.areaCode ≠ "North" ∧ crop.areaCode ≠ "South" ∧ crop.areaCode ≠ "East" ∧
      crop.areaCode ≠ "West")
    (hfresh : mapFind crop.qualityMetrics "freshness" = some freshness) :
    rootDecision crop = .ok false ∧ eastWestDecision crop = .ok false ∧
    qualityDecision crop = .ok (decide (freshness ≥ 8.0) || !crop.certifications.isEmpty) ∧
    ∃ leaf,
      (routeCrop fuel t h crop transaction).1 = .ok (some leaf) ∧
      (t.nodes leaf).nodeId =
        (if (decide (freshness ≥ 8.0) || !crop.certifications.isEmpty) = true
          then "westPremium" else "westStandard") ∧
      getNode t (if (decide (freshness ≥ 8.0) || !crop.certifications.isEmpty) = true
          then "westPremium" else "westStandard") = some leaf ∧
      ((routeCrop fuel t h crop transaction).2.1.nodes leaf).processingQueue =
        (t.nodes leaf).processingQueue ++ [transaction] ∧
      ((routeCrop fuel t h crop transaction).2.2 transaction).actionTaken =
        (h transaction).actionTaken ++
          demandText (getRegionalDemand t crop.areaCode crop.type).1 ++
          " | root decision: right" ++ " | eastWest decision: right" ++
          (" | west decision: " ++
            side (decide (freshness ≥ 8.0) || !crop.certifications.isEmpty)) ++
          (" | Final path: root -> eastWest -> west -> " ++ (t.nodes leaf).nodeId) := by
  obtain ⟨hn, hs, he, hw⟩ := hregion
  have hq := qualityDecision_of_fresh crop freshness hfresh
  generalize (decide (freshness ≥ 8.0) || !crop.certifications.isEmpty) = q at hq ⊢
  refine ⟨by simp [rootDecision, hn, hs], by simp [eastWestDecision, he], hq, ?_⟩
  have htarget : routeTarget crop q = if q then 13 else 14 := by
    simp [routeTarget, hn, hs, he]
  have k13 := inv_leaf ht 13 (by decide) (by decide)
  have k14 := inv_leaf ht 14 (by decide) (by decide)
  refine ⟨routeTarget crop q, ?_, ?_, ?_, ?_, ?_⟩
  · rw [routeCrop_ok_full t ht crop transaction fuel hfuel h q hq]
  · rw [htarget]; cases q
    · simp only [Bool.false_eq_true, if_false]; rw [k14.2.2.1]; rfl
    · simp only [if_true]; rw [k13.2.2.1]; rfl
  · unfold getNode; rw [ht.2.1, htarget]; cases q <;> rfl
  · rw [routeCrop_ok_full t ht crop transaction fuel hfuel h q hq]
    simp [DecisionNode.enqueue]
  · rw [routeCrop_ok_full t ht crop transaction fuel hfuel h q hq]
    simp only [Function.update_same]
    rw [htarget]
    cases q
    · simp [hn, hs, he, pairNodeId, pairDecision, regionNodeId, side, new_nodes_14, k14.2.2.1,
        String.append_assoc]
    · simp [hn, hs, he, pairNodeId, pairDecision, regionNodeId, side, new_nodes_13, k13.2.2.1,
        String.append_assoc]

/-- The text `to_string` gives for the default demand. -/
theorem to_string_default_demand : to_string 5.0 = "5.000000" := by
  with_unfolding_all decide

/-- C24 at a crop with area code "north" and freshness 6.5: it is put into the queue
of `westStandard`. -/
theorem routeCrop_other_region_witness :
    (routeCrop 3 RoutingDecisionTree.new (farmerHeap lowercaseCrop) lowercaseCrop 0).1 =
      .ok (some 14) ∧
    ((routeCrop 3 RoutingDecisionTree.new (farmerHeap lowercaseCrop) lowercaseCrop 0).2.1.nodes
      14).processingQueue = [0] ∧
    ((routeCrop 3 RoutingDecisionTree.new (farmerHeap lowercaseCrop) lowercaseCrop 0).2.2
      0).actionTaken =
      "Initial harvest entry Regional demand: 5.000000/10 (Low) | root decision: right" ++
      " | eastWest decision: right | west decision: right" ++
      " | Final path: root -> eastWest -> west -> westStandard" := by
  obtain ⟨-, -, -, leaf, h1, h2, h3, h4, h5⟩ :=
    routeCrop_other_region 3 RoutingDecisionTree.new (farmerHeap lowercaseCrop) lowercaseCrop 0
      6.5 (le_refl 3) inv_new (by decide) rfl
  have hq : (decide ((6.5 : ℚ) ≥ 8.0) || !lowercaseCrop.certifications.isEmpty) = false := by
    simp [lowercaseCrop]; norm_num
  rw [hq] at h2 h3 h5
  simp only [Bool.false_eq_true, if_false] at h2 h3
  have hleaf : leaf = 14 := by
    have : getNode RoutingDecisionTree.new "westStandard" = some 14 := rfl
    rw [this] at h3
    simpa using h3.symm
  subst hleaf
  have hv : (getRegionalDemand RoutingDecisionTree.new lowercaseCrop.areaCode
      lowercaseCrop.type).1 = 5.0 := by
    rw [getRegionalDemand_value, new_regionalDemand]; simp [mapFind, lowercaseCrop]
  refine ⟨h1, ?_, ?_⟩
  · rw [h4, new_nodes_14]; rfl
  · rw [h5, hv, h2]
    have hlevel : (if (5.0 : ℚ) ≥ 7.0 then "High" else "Low") = "Low" := by norm_num
    simp only [demandText, hlevel, to_string_default_demand, side]
    rfl

/-- C25. A `routeCrop` call for a crop without "freshness" entry ends with
`std::out_of_range` and leaves every queue and the record's `nextDestination` as
they were, but the record's `actionTaken` has been extended: by the demand text and
by the decision annotations of `root` and of the region-pair node, and by nothing
else (no annotation of the quality gate, no final path). -/
theorem routeCrop_failure_not_atomic (fuel : Nat) (t : RoutingDecisionTree) (h : TxHeap)
    (crop : Crop) (transaction : Nat) (hfuel : 3 ≤ fuel) (ht : t.Inv)
    (hmissing : mapFind crop.qualityMetrics "freshness" = none) :
    (routeCrop fuel t h crop transaction).1 = .error Fault.out_of_range ∧
    (∀ a, ((routeCrop fuel t h crop transaction).2.1.nodes a).processingQueue =
      (t.nodes a).processingQueue) ∧
    ((routeCrop fuel t h crop transaction).2.2 transaction).nextDestination =
      (h transaction).nextDestination ∧
    ∃ (atRoot atPair : Bool) (pairNode : String),
      rootDecision crop = .ok atRoot ∧
      (if atRoot then northSouthDecision crop else eastWestDecision crop) = .ok atPair ∧
      pairNode = (if atRoot then "northSouth" else "eastWest") ∧
      ((routeCrop fuel t h crop transaction).2.2 transaction).actionTaken =
        (h transaction).actionTaken ++
          demandText (getRegionalDemand t crop.areaCode crop.type).1 ++
          (" | " ++ "root" ++ " decision: " ++ side atRoot) ++
          (" | " ++ pairNode ++ " decision: " ++ side atPair) := by
  have hq := qualityDecision_of_missing crop hmissing
  rw [routeCrop_throw_full t ht crop transaction fuel hfuel h _ hq]
  refine ⟨rfl, fun a => rfl, by simp, ?_⟩
  simp only [Function.update_same]
  by_cases h1 : crop.areaCode = "North"
  · simp [h1, rootDecision, northSouthDecision, pairNodeId, pairDecision, side,
      String.append_assoc]
  · by_cases h2 : crop.areaCode = "South"
    · simp [h2, rootDecision, northSouthDecision, pairNodeId, pairDecision, side,
        String.append_assoc]
    · by_cases h3 : crop.areaCode = "East"
      · simp [h3, rootDecision, eastWestDecision, pairNodeId, pairDecision, side,
          String.append_assoc]
      · simp [h1, h2, h3, rootDecision, eastWestDecision, pairNodeId, pairDecision, side,
          String.append_assoc]

/-- The text `to_string` gives for the demand of corn in the South. -/
theorem to_string_corn_demand : to_string 6.5 = "6.500000" := by
  with_unfolding_all decide

/-- C25 at a crop from the South that has a size score only. -/
theorem routeCrop_failure_not_atomic_witness :
    (routeCrop 3 RoutingDecisionTree.new (farmerHeap unratedCrop) unratedCrop 0).1 =
      .error Fault.out_of_range ∧
    ((routeCrop 3 RoutingDecisionTree.new (farmerHeap unratedCrop) unratedCrop 0).2.2
      0).nextDestination = "" ∧
    ((routeCrop 3 RoutingDecisionTree.new (farmerHeap unratedCrop) unratedCrop 0).2.2
      0).actionTaken =
      "Initial harvest entry Regional demand: 6.500000/10 (Low) | root decision: left" ++
      " | northSouth decision: right" := by
  obtain ⟨h1, -, h3, atRoot, atPair, pairNode, h4, h5, h6, h7⟩ :=
    routeCrop_failure_not_atomic 3 RoutingDecisionTree.new (farmerHeap unratedCrop) unratedCrop 0
      (le_refl 3) inv_new rfl
  have e1 : atRoot = true := by
    have : rootDecision unratedCrop = .ok true := rfl
    rw [this] at h4; simpa using h4.symm
  subst e1
  have e2 : atPair = false := by
    have : northSouthDecision unratedCrop = .ok false := rfl
    simp only [if_true, this] at h5; simpa using h5.symm
  subst e2
  simp only [if_true] at h6
  subst h6
  have hv : (getRegionalDemand RoutingDecisionTree.new unratedCrop.areaCode
      unratedCrop.type).1 = 6.5 := by
    rw [getRegionalDemand_value, new_regionalDemand]; simp [mapFind, unratedCrop]
  refine ⟨h1, h3, ?_⟩
  rw [h7, hv]
  have hlevel : (if (6.5 : ℚ) ≥ 7.0 then "High" else "Low") = "Low" := by norm_num
  simp only [demandText, hlevel, to_string_corn_demand, side]
  rfl

/-! ## Histories of linked chains -/

theorem linkInv_empty (h : TxHeap) : LinkInv TraceabilityChain.empty h := by
  constructor <;> intro p hp <;> simp [TraceabilityChain.empty] at hp

/-- An append of a linked chain keeps the links in agreement. -/
theorem linkInv_addTransaction {c : TraceabilityChain} {h : TxHeap} (hc : ChainInv c h)
    (hinv : LinkInv c h) (node : Nat) (previous : Option Nat)
    (hnew : node ∉ c.allTransactions)
    (hprev : (h node).previous = none) (hnext : (h node).next = none)
    (hreg : ∀ p, previous = some p → registered c p ∧ (h p).next = none) :
    LinkInv (addTransaction c h node previous).1 (addTransaction c h node previous).2 := by
  obtain ⟨hP, hN⟩ := hinv
  have hmem : ∀ p, p ∈ (addTransaction c h node previous).1.allTransactions ↔
      p ∈ c.allTransactions ∨ p = node := by
    intro p; rw [addTransaction_allTransactions]; simp
  constructor
  · intro p hp q hq
    rw [addTransaction_previous] at hq
    rw [addTransaction_next]
    split_ifs at hq with h1
    · rw [if_pos hq, h1.1]
    · rcases (hmem p).mp hp with h2 | h2
      · have hqn := hP p h2 q hq
        split_ifs with h3
        · rw [(hreg q h3).2] at hqn; cases hqn
        · exact hqn
      · rw [h2, hprev] at hq; cases hq
  · intro p hp q hq
    rw [addTransaction_next] at hq
    rw [addTransaction_previous]
    split_ifs at hq with h1
    · simp only [Option.some.injEq] at hq
      subst hq
      rw [if_pos ⟨rfl, by rw [h1]; simp⟩, h1]
    · rcases (hmem p).mp hp with h2 | h2
      · have hqp := hN p h2 q hq
        have hqL := (hc.2.2.2 p h2 q hq).1
        have hqn : q ≠ node := fun e => hnew (e ▸ hqL)
        rw [if_neg (fun hh => hqn hh.1)]
        exact hqp
      · rw [h2, hnext] at hq; cases hq

theorem appendAll_linked (calls : List (Nat × Option Nat)) :
    ∀ (c : TraceabilityChain) (h : TxHeap), ChainInv c h → LinkInv c h →
      LinkedAppends c h calls →
      ChainInv (appendAll c h calls).1 (appendAll c h calls).2 ∧
      LinkInv (appendAll c h calls).1 (appendAll c h calls).2 := by
  induction calls with
  | nil => intro c h hc hl _; exact ⟨hc, hl⟩
  | cons call rest ih =>
    intro c h hc hl hcalls
    obtain ⟨⟨h1, h2, h3, h4⟩, hrest⟩ := hcalls
    exact ih _ _ (chainInv_addTransaction hc call.1 call.2 h1 h2 h3 (fun p hp => (h4 p hp).1))
      (linkInv_addTransaction hc hl call.1 call.2 h1 h2 h3 h4) hrest

/-- The first loop of `getHistory` ends at a record without predecessor from which
the `next` links lead to the record it started at. -/
theorem toOrigin_reaches {c : TraceabilityChain} {h : TxHeap} (hc : ChainInv c h)
    (hl : LinkInv c h) :
    ∀ (fuel p o : Nat), p ∈ c.allTransactions → toOrigin h fuel p = some o →
      o ∈ c.allTransactions ∧ (h o).previous = none ∧
      ∃ n, walk h TransactionNode.next n (some o) = some p := by
  intro fuel
  induction fuel with
  | zero =>
    intro p o hp ho
    rw [toOrigin] at ho
    cases hprev : (h p).previous with
    | none =>
      simp only [hprev, Option.some.injEq] at ho
      subst ho
      exact ⟨hp, hprev, 0, rfl⟩
    | some q => simp [hprev] at ho
  | succ f ih =>
    intro p o hp ho
    rw [toOrigin] at ho
    cases hprev : (h p).previous with
    | none =>
      simp only [hprev, Option.some.injEq] at ho
      subst ho
      exact ⟨hp, hprev, 0, rfl⟩
    | some q =>
      simp only [hprev] at ho
      obtain ⟨hoL, hoP, n, hn⟩ := ih q o (hc.2.2.1 p hp q hprev).1 ho
      refine ⟨hoL, hoP, n + 1, ?_⟩
      rw [walk_add, hn]
      show walk h TransactionNode.next 0 ((h q).next) = some p
      rw [hl.1 p hp q hprev]
      rfl

/-- The second loop of `getHistory` collects, from a record of a chain, the records
the `next` links lead to, up to the record without successor. -/
theorem collectForward_linked {c : TraceabilityChain} {h : TxHeap} (hc : ChainInv c h) :
    ∀ (fuel p : Nat) (acc r : List Nat), p ∈ c.allTransactions →
      collectForward h fuel (some p) acc = some r →
      ∃ path e, r = acc ++ p :: path ∧ (p :: path).getLast? = some e ∧
        (h e).next = none ∧ (∀ x ∈ p :: path, x ∈ c.allTransactions) ∧
        (p :: path).Chain' (fun a b => (h a).next = some b) ∧
        (∀ n x, walk h TransactionNode.next n (some p) = some x → x ∈ p :: path) := by
  intro fuel
  induction fuel with
  | zero => intro p acc r _ hr; simp [collectForward] at hr
  | succ f ih =>
    intro p acc r hp hr
    rw [collectForward] at hr
    cases hnext : (h p).next with
    | none =>
      rw [hnext] at hr
      have : r = acc ++ [p] := by cases f <;> simpa [collectForward] using hr.symm
      refine ⟨[], p, this, rfl, hnext, ?_, List.chain'_singleton _, ?_⟩
      · intro x hx; simp only [List.mem_singleton] at hx; rw [hx]; exact hp
      · intro n x hx
        cases n with
        | zero =>
          simp only [walk, Option.some.injEq] at hx
          rw [← hx]; simp
        | succ n =>
          rw [walk, hnext, walk_none] at hx
          cases hx
    | some q =>
      rw [hnext] at hr
      obtain ⟨hq, -⟩ := hc.2.2.2 p hp q hnext
      obtain ⟨path, e, hr2, he, hen, hall, hch, hwalk⟩ := ih q _ r hq hr
      refine ⟨q :: path, e, by simp [hr2], ?_, hen, ?_, List.Chain'.cons hnext hch, ?_⟩
      · rw [List.getLast?_cons_cons]; exact he
      · intro x hx
        rcases List.mem_cons.mp hx with h1 | h1
        · rw [h1]; exact hp
        · exact hall x h1
      · intro n x hx
        cases n with
        | zero =>
          simp only [walk, Option.some.injEq] at hx
          rw [← hx]; simp
        | succ n =>
          rw [walk, hnext] at hx
          exact List.mem_cons_of_mem _ (hwalk n x hx)

/-- The record the first loop of `getHistory` finds has the greatest timestamp
among the records of the crop in the index. -/
theorem findLatest_max (h : TxHeap) (cropId : String) (m : List (String × Nat)) :
    ∀ (current : Option Nat) (r : Nat), findLatest h cropId m current = some r →
      (∀ c0, current = some c0 → (h c0).timestamp ≤ (h r).timestamp) ∧
      (∀ kv ∈ m, (h kv.2).cropDetails.id = cropId → (h kv.2).timestamp ≤ (h r).timestamp) := by
  induction m with
  | nil =>
    intro current r hr
    refine ⟨?_, fun kv hkv => by cases hkv⟩
    intro c0 hc0
    simp only [findLatest] at hr
    rw [hr] at hc0
    simp only [Option.some.injEq] at hc0
    rw [hc0]
  | cons kv m ih =>
    intro current r hr
    simp only [findLatest] at hr
    split_ifs at hr with h1
    · cases current with
      | none =>
        obtain ⟨i1, i2⟩ := ih _ _ hr
        refine ⟨fun c0 hc0 => (by cases hc0), ?_⟩
        intro kv2 hkv2 hlot
        rcases List.mem_cons.mp hkv2 with h2 | h2
        · rw [h2]; exact i1 _ rfl
        · exact i2 kv2 h2 hlot
      | some c0 =>
        simp only at hr
        split_ifs at hr with h3
        · obtain ⟨i1, i2⟩ := ih _ _ hr
          refine ⟨?_, ?_⟩
          · intro c1 hc1
            simp only [Option.some.injEq] at hc1
            subst hc1
            exact le_trans (le_of_lt h3) (i1 _ rfl)
          · intro kv2 hkv2 hlot
            rcases List.mem_cons.mp hkv2 with h2 | h2
            · rw [h2]; exact i1 _ rfl
            · exact i2 kv2 h2 hlot
        · obtain ⟨i1, i2⟩ := ih _ _ hr
          refine ⟨i1, ?_⟩
          intro kv2 hkv2 hlot
          rcases List.mem_cons.mp hkv2 with h2 | h2
          · rw [h2]; exact le_trans (not_lt.mp h3) (i1 _ rfl)
          · exact i2 kv2 h2 hlot
    · obtain ⟨i1, i2⟩ := ih _ _ hr
      refine ⟨i1, ?_⟩
      intro kv2 hkv2 hlot
      rcases List.mem_cons.mp hkv2 with h2 | h2
      · rw [h2] at hlot; exact absurd hlot h1
      · exact i2 kv2 h2 hlot

/-- In a list linked by `next` that ends at a record without successor, the
successor of a member is a member. -/
theorem next_mem_of_chain (h : TxHeap) :
    ∀ (l : List Nat) (e : Nat), l.Chain' (fun a b => (h a).next = some b) →
      l.getLast? = some e → (h e).next = none →
      ∀ a ∈ l, ∀ b, (h a).next = some b → b ∈ l := by
  intro l
  induction l with
  | nil => intro e _ _ _ a ha; cases ha
  | cons x t ih =>
    intro e hch he hen a ha b hb
    cases t with
    | nil =>
      simp only [List.mem_singleton] at ha
      simp only [List.getLast?_singleton, Option.some.injEq] at he
      rw [ha, he, hen] at hb
      cases hb
    | cons y t =>
      rw [List.chain'_cons] at hch
      rw [List.getLast?_cons_cons] at he
      rcases List.mem_cons.mp ha with h1 | h1
      · rw [h1, hch.1] at hb
        simp only [Option.some.injEq] at hb
        rw [← hb]; simp
      · exact List.mem_cons_of_mem _ (ih e hch.2 he hen a h1 b hb)

/-- In a list linked by `next` every member but the first is the successor of a
member. -/
theorem previous_mem_of_chain (h : TxHeap) :
    ∀ (l : List Nat), l.Chain' (fun a b => (h a).next = some b) →
      ∀ a ∈ l.tail, ∃ x ∈ l, (h x).next = some a := by
  intro l
  induction l with
  | nil => intro _ a ha; cases ha
  | cons x t ih =>
    intro hch a ha
    cases t with
    | nil => cases ha
    | cons y t =>
      rw [List.chain'_cons] at hch
      simp only [List.tail_cons] at ha
      rcases List.mem_cons.mp ha with h1 | h1
      · exact ⟨x, by simp, by rw [h1]; exact hch.1⟩
      · obtain ⟨z, hz, hzn⟩ := ih hch.2 a (by simpa using h1)
        exact ⟨z, List.mem_cons_of_mem _ hz, hzn⟩

/-- The records appended so far, in call order. -/
theorem appendAll_allTransactions (calls : List (Nat × Option Nat)) :
    ∀ (c : TraceabilityChain) (h : TxHeap),
      (appendAll c h calls).1.allTransactions = c.allTransactions ++ calls.map Prod.fst := by
  induction calls with
  | nil => intro c h; simp [appendAll]
  | cons call rest ih =>
    intro c h
    simp only [appendAll]
    rw [ih, addTransaction_allTransactions]
    simp

/-- Appending changes no transaction identifier. -/
theorem appendAll_transactionId (calls : List (Nat × Option Nat)) :
    ∀ (c : TraceabilityChain) (h : TxHeap) (a : Nat),
      ((appendAll c h calls).2 a).transactionId = (h a).transactionId := by
  induction calls with
  | nil => intro c h a; rfl
  | cons call rest ih =>
    intro c h a
    simp only [appendAll]
    rw [ih, addTransaction_transactionId]

/-- When the appended records carry pairwise distinct transaction identifiers, each
of them is registered. -/
theorem appendAll_registered (calls : List (Nat × Option Nat)) :
    ∀ (c : TraceabilityChain) (h : TxHeap),
      (∀ p ∈ c.allTransactions, registered c p) →
      (∀ k ∈ c.transactionMap.map Prod.fst, ∃ p ∈ c.allTransactions, (h p).transactionId = k) →
      ((appendAll c h calls).1.allTransactions.map
        (fun p => ((appendAll c h calls).2 p).transactionId)).Nodup →
      ∀ p ∈ (appendAll c h calls).1.allTransactions, registered (appendAll c h calls).1 p := by
  induction calls with
  | nil => intro c h hreg _ _; exact hreg
  | cons call rest ih =>
    intro c h hreg hkeys hnd
    have hnd2 := hnd
    simp only [appendAll] at hnd2 ⊢
    have hids : (fun p => ((appendAll (addTransaction c h call.1 call.2).1
        (addTransaction c h call.1 call.2).2 rest).2 p).transactionId) =
        fun p => (h p).transactionId := by
      funext p
      rw [appendAll_transactionId, addTransaction_transactionId]
    have hfresh : mapFind c.transactionMap (h call.1).transactionId = none := by
      rw [mapFind_eq_none_iff]
      intro hk
      obtain ⟨p, hp, hpid⟩ := hkeys _ hk
      rw [hids, appendAll_allTransactions, addTransaction_allTransactions, List.append_assoc,
        List.map_append] at hnd2
      have hdis := (List.nodup_append.mp hnd2).2.2
      exact hdis (List.mem_map.mpr ⟨p, hp, hpid⟩) (by simp)
    refine ih _ _ ?_ ?_ hnd2
    · intro p hp
      rw [addTransaction_allTransactions] at hp
      rcases List.mem_append.mp hp with h1 | h1
      · exact registered_addTransaction_of_registered c h call.1 call.2 p (hreg p h1) hfresh
      · simp only [List.mem_singleton] at h1
        rw [h1]; exact registered_addTransaction_self c h call.1 call.2
    · intro k hk
      obtain ⟨kv, hkv, rfl⟩ := List.mem_map.mp hk
      have hmap : (addTransaction c h call.1 call.2).1.transactionMap =
          mapAssign c.transactionMap
            ((addTransaction c h call.1 call.2).2 call.1).transactionId call.1 := rfl
      rw [hmap, addTransaction_transactionId] at hkv
      rcases mem_mapAssign _ _ _ _ hkv with h1 | h1
      · obtain ⟨p, hp, hpid⟩ := hkeys kv.1 (List.mem_map.mpr ⟨kv, h1, rfl⟩)
        refine ⟨p, ?_, ?_⟩
        · rw [addTransaction_allTransactions]; exact List.mem_append_left _ hp
        · rw [addTransaction_transactionId]; exact hpid
      · refine ⟨call.1, ?_, ?_⟩
        · rw [addTransaction_allTransactions]; simp
        · rw [h1, addTransaction_transactionId]

/-- C23. After appends in which each record is new and appended once and every
predecessor is registered and without successor when it is used (`LinkedAppends`),
and with a budget that covers the appended records, `getHistory` of a crop that a
registered record carries returns a history such that: it contains a registered
record of the crop with the greatest timestamp among them; its first record has no
predecessor, each later record is the `next` of the record before it, and its last
record has no successor; with a record it contains the record's successor and
predecessor, whatever their crop and timestamp; and it is `[p]` when `p` is the only
registered record of the crop and has null links. Moreover every appended record is
registered when the appended records carry pairwise distinct transaction
identifiers. -/
theorem getHistory_linked_chain (h0 : TxHeap) (calls : List (Nat × Option Nat))
    (c : TraceabilityChain) (h : TxHeap) (fuel : Nat)
    (hrun : appendAll TraceabilityChain.empty h0 calls = (c, h))
    (hlinked : LinkedAppends TraceabilityChain.empty h0 calls)
    (hfuel : c.allTransactions.length ≤ fuel) :
    (∀ cropId, (∃ p, registered c p ∧ (h p).cropDetails.id = cropId) →
      ∃ hist latest, getHistory fuel c h cropId = some hist ∧
        latest ∈ hist ∧ registered c latest ∧ (h latest).cropDetails.id = cropId ∧
        (∀ q, registered c q → (h q).cropDetails.id = cropId →
          (h q).timestamp ≤ (h latest).timestamp) ∧
        (∃ first, hist.head? = some first ∧ (h first).previous = none) ∧
        hist.Chain' (fun a b => (h a).next = some b) ∧
        (∃ last, hist.getLast? = some last ∧ (h last).next = none) ∧
        (∀ a ∈ hist, ∀ b, (h a).next = some b ∨ (h a).previous = some b → b ∈ hist) ∧
        (∀ p, registered c p → (h p).cropDetails.id = cropId →
          (∀ q, registered c q → (h q).cropDetails.id = cropId → q = p) →
          (h p).previous = none → (h p).next = none → hist = [p])) ∧
    ((c.allTransactions.map (fun p => (h p).transactionId)).Nodup →
      ∀ p ∈ c.allTransactions, registered c p) := by
  obtain ⟨hc, hl⟩ := appendAll_linked calls _ _ (chainInv_empty h0) (linkInv_empty h0) hlinked
  have hreg := appendAll_registered calls TraceabilityChain.empty h0
    (fun p hp => by simp [TraceabilityChain.empty] at hp)
    (fun k hk => by simp [TraceabilityChain.empty] at hk)
  rw [hrun] at hc hl hreg
  simp only at hc hl hreg
  refine ⟨?_, hreg⟩
  rintro cropId ⟨p, hp, hpl⟩
  -- the record the first loop finds
  obtain ⟨cur, hcur⟩ : ∃ r, findLatest h cropId c.transactionMap none = some r := by
    apply findLatest_some_of_mem
    obtain ⟨kv, hkv, hkp⟩ := List.mem_map.mp hp
    exact ⟨kv, hkv, by rw [hkp]; exact hpl⟩
  have hcurR : registered c cur := by
    rcases findLatest_mem h cropId _ _ _ hcur with h1 | h1
    · exact h1
    · cases h1
  have hcurL : cur ∈ c.allTransactions := hc.2.1 cur hcurR
  have hcurl : (h cur).cropDetails.id = cropId :=
    findLatest_lot h cropId _ _ _ hcur (fun c0 hc0 => by cases hc0)
  have hcurmax : ∀ q, registered c q → (h q).cropDetails.id = cropId →
      (h q).timestamp ≤ (h cur).timestamp := by
    intro q hq hql
    obtain ⟨kv, hkv, hkq⟩ := List.mem_map.mp hq
    have := (findLatest_max h cropId _ _ _ hcur).2 kv hkv (by rw [hkq]; exact hql)
    rw [hkq] at this
    exact this
  -- its origin
  obtain ⟨o, ho, -, -⟩ := toOrigin_terminates hc _ cur fuel hcurL rfl
    (le_trans (le_of_lt (List.indexOf_lt_length.mpr hcurL)) hfuel)
  obtain ⟨hoL, hoP, n, hn⟩ := toOrigin_reaches hc hl fuel cur o hcurL ho
  -- the records collected from the origin
  obtain ⟨hist, hhist⟩ := collectForward_terminates hc _ o fuel [] hoL rfl
    (le_trans (Nat.sub_le _ _) hfuel)
  obtain ⟨path, e, hpath, he, hen, hall, hch, hwalk⟩ :=
    collectForward_linked hc fuel o [] hist hoL hhist
  rw [List.nil_append] at hpath
  have hget : getHistory fuel c h cropId = some hist := by
    simp only [getHistory, hcur, ho]
    exact hhist
  refine ⟨hist, cur, hget, by rw [hpath]; exact hwalk n cur hn, hcurR, hcurl, hcurmax,
    ⟨o, by rw [hpath]; rfl, hoP⟩, by rw [hpath]; exact hch, ⟨e, by rw [hpath]; exact he, hen⟩,
    ?_, ?_⟩
  · intro a ha b hb
    rw [hpath] at ha ⊢
    rcases hb with hb | hb
    · exact next_mem_of_chain h _ e hch he hen a ha b hb
    · rcases List.mem_cons.mp ha with h1 | h1
      · rw [h1, hoP] at hb; cases hb
      · obtain ⟨x, hx, hxn⟩ := previous_mem_of_chain h _ hch a (by simpa using h1)
        have := hl.2 x (hall x hx) a hxn
        rw [this] at hb
        simp only [Option.some.injEq] at hb
        rw [← hb]; exact hx
  · intro p1 hp1 hp1l honly hp1P hp1N
    have hcp : cur = p1 := honly cur hcurR hcurl
    subst hcp
    have ho2 : toOrigin h fuel cur = some cur := by
      cases fuel <;> simp [toOrigin, hp1P]
    rw [ho2] at ho
    simp only [Option.some.injEq] at ho
    subst ho
    obtain ⟨f, rfl⟩ : ∃ f, fuel = f + 1 := by
      have := List.length_pos_of_mem hcurL
      exact ⟨fuel - 1, by omega⟩
    rw [collectForward, hp1N] at hhist
    have : hist = [] ++ [cur] := by cases f <;> simpa [collectForward] using hhist.symm
    simpa using this

/-- C23 at a farmer record of one crop followed by a trader record that carries
another crop and an earlier timestamp: the history of the first crop holds both. -/
theorem getHistory_linked_chain_witness :
    ∃ hist, getHistory 2 (appendAll TraceabilityChain.empty mixedRecords [(0, none), (1, some 0)]).1
        (appendAll TraceabilityChain.empty mixedRecords [(0, none), (1, some 0)]).2 "CROP1001"
        = some hist ∧ 0 ∈ hist ∧ 1 ∈ hist ∧
      ((appendAll TraceabilityChain.empty mixedRecords [(0, none), (1, some 0)]).2 1).cropDetails.id
        = "CROP1004" ∧
      ((appendAll TraceabilityChain.empty mixedRecords [(0, none), (1, some 0)]).2 1).timestamp <
      ((appendAll TraceabilityChain.empty mixedRecords [(0, none), (1, some 0)]).2 0).timestamp := by
  obtain ⟨hist, latest, h1, h2, h3, h4, -, -, -, -, h9, -⟩ :=
    (getHistory_linked_chain mixedRecords [(0, none), (1, some 0)] _ _ 2 rfl
      ⟨⟨by decide, rfl, rfl, fun p hp => by cases hp⟩,
        ⟨by decide, rfl, rfl, fun p hp => by cases hp; exact ⟨by decide, rfl⟩⟩, trivial⟩
      (by decide)).1 "CROP1001" ⟨0, by decide, by decide⟩
  have hreg : latest = 0 ∨ latest = 1 := by
    have : registered (appendAll TraceabilityChain.empty mixedRecords
      [(0, none), (1, some 0)]).1 latest → latest = 0 ∨ latest = 1 := by
      intro hr
      have hm : (appendAll TraceabilityChain.empty mixedRecords
        [(0, none), (1, some 0)]).1.transactionMap.map Prod.snd = [0, 1] := by decide
      unfold registered at hr
      rw [hm] at hr
      simpa using hr
    exact this h3
  have hlatest : latest = 0 := by
    rcases hreg with h0 | h0
    · exact h0
    · rw [h0] at h4
      exact absurd h4 (by decide)
  subst hlatest
  exact ⟨hist, h1, h2, h9 0 h2 1 (Or.inl (by decide)), by decide, by decide⟩

/-! ## The frame of `dequeueFrom` -/

/-- What a call of `dequeueFrom` returns and what it leaves of the tree. -/
theorem dequeueFrom_cases (t : RoutingDecisionTree) (nodeId : String) :
    (getNode t nodeId = none ∧ dequeueFrom t nodeId = (.unknownNode, t)) ∨
    (∃ p, getNode t nodeId = some p ∧ (t.nodes p).processingQueue = [] ∧
      dequeueFrom t nodeId = (.empty, t)) ∨
    (∃ p x rest, getNode t nodeId = some p ∧ (t.nodes p).processingQueue = x :: rest ∧
      dequeueFrom t nodeId = (.record x,
        { t with nodes := Function.update t.nodes p { t.nodes p with processingQueue := rest } })) := by
  cases hget : getNode t nodeId with
  | none => exact Or.inl ⟨rfl, by simp [dequeueFrom, hget]⟩
  | some p =>
    right
    cases hqueue : (t.nodes p).processingQueue with
    | nil => exact Or.inl ⟨p, rfl, hqueue, dequeueFrom_empty t nodeId p hget hqueue⟩
    | cons x rest =>
      exact Or.inr ⟨p, x, rest, rfl, hqueue, dequeueFrom_record t nodeId p x rest hget hqueue⟩

/-- C21. `dequeueFrom` changes the queue it is called on and nothing else. When it
returns the record `x`, the queue of the node found was `x` followed by the queue
it has afterwards; every other node is as it was; the node keeps its identifier,
description, decision function and children; root, node index and demand table are
unchanged; and so are the chain and every `TransactionNode`: `x` is registered
exactly if it was, its fields and links are as before, and `getHistory` returns
what it returned before. When it returns `Empty`, nothing has changed. -/
theorem dequeueFrom_frame (app : AgriculturalSupplyChainApp) (nodeId : String) :
    (∀ x, (app.dequeueFrom nodeId).1 = DequeueResult.record x →
      ∃ p, getNode app.routingTree nodeId = some p ∧
        (app.routingTree.nodes p).processingQueue =
          x :: ((app.dequeueFrom nodeId).2.routingTree.nodes p).processingQueue ∧
        (∀ a, a ≠ p →
          (app.dequeueFrom nodeId).2.routingTree.nodes a = app.routingTree.nodes a) ∧
        SameShape ((app.dequeueFrom nodeId).2.routingTree.nodes p) (app.routingTree.nodes p) ∧
        (app.dequeueFrom nodeId).2.routingTree.root = app.routingTree.root ∧
        (app.dequeueFrom nodeId).2.routingTree.nodeMap = app.routingTree.nodeMap ∧
        (app.dequeueFrom nodeId).2.routingTree.regionalDemand = app.routingTree.regionalDemand ∧
        (app.dequeueFrom nodeId).2.traceabilityChain = app.traceabilityChain ∧
        (app.dequeueFrom nodeId).2.transactions = app.transactions ∧
        (registered (app.dequeueFrom nodeId).2.traceabilityChain x ↔
          registered app.traceabilityChain x) ∧
        (app.dequeueFrom nodeId).2.transactions x = app.transactions x ∧
        (∀ fuel cropId,
          getHistory fuel (app.dequeueFrom nodeId).2.traceabilityChain
            (app.dequeueFrom nodeId).2.transactions cropId =
          getHistory fuel app.traceabilityChain app.transactions cropId)) ∧
    ((app.dequeueFrom nodeId).1 = DequeueResult.empty → (app.dequeueFrom nodeId).2 = app) := by
  unfold AgriculturalSupplyChainApp.dequeueFrom
  rcases dequeueFrom_cases app.routingTree nodeId with ⟨-, h1⟩ | ⟨p, -, -, h1⟩ |
    ⟨p, y, rest, hget, hqueue, h1⟩
  · rw [h1]
    exact ⟨fun x hx => (by cases hx), fun hx => (by cases hx)⟩
  · rw [h1]
    exact ⟨fun x hx => (by cases hx), fun _ => rfl⟩
  · rw [h1]
    refine ⟨?_, fun hx => by cases hx⟩
    intro x hx
    simp only [DequeueResult.record.injEq] at hx
    subst hx
    refine ⟨p, hget, ?_, ?_, ?_, rfl, rfl, rfl, rfl, rfl, Iff.rfl, rfl, fun _ _ => rfl⟩
    · simp only [Function.update_same]; exact hqueue
    · intro a ha; simp only [Function.update_noteq ha]
    · simp only [Function.update_same]; exact ⟨rfl, rfl, rfl, rfl, rfl, rfl⟩

/-- The first `dequeueFrom` on `northPremium` in `wheatApp` returns the record routed there. -/
theorem dequeueFrom_wheatApp :
    (wheatApp.dequeueFrom "northPremium").1 = DequeueResult.record 0 := by
  have hres := routeCrop_ok _ inv_new wheatCrop 0 3 (le_refl 3)
    (addTransaction TraceabilityChain.empty (farmerHeap wheatCrop) 0 none).2 true
    qualityDecision_wheatCrop
  have ht : routeTarget wheatCrop true = 7 := by decide
  rw [ht] at hres
  obtain ⟨-, -, hmap, hnodes⟩ := hres
  have hget : getNode wheatApp.routingTree "northPremium" = some 7 := by
    unfold getNode wheatApp
    simp only
    rw [hmap]; rfl
  have hqueue : (wheatApp.routingTree.nodes 7).processingQueue = [0] := by
    unfold wheatApp
    simp only
    rw [hnodes, Function.update_same]; rfl
  unfold AgriculturalSupplyChainApp.dequeueFrom
  rw [dequeueFrom_record _ _ 7 0 [] hget hqueue]

/-- C21 at the application that holds one routed wheat record: the queue of
`northPremium` loses its front, the chain and the record stay as they were. -/
theorem dequeueFrom_frame_witness :
    ∃ p, getNode wheatApp.routingTree "northPremium" = some p ∧
      (wheatApp.routingTree.nodes p).processingQueue =
        0 :: ((wheatApp.dequeueFrom "northPremium").2.routingTree.nodes p).processingQueue ∧
      (wheatApp.dequeueFrom "northPremium").2.traceabilityChain = wheatApp.traceabilityChain ∧
      (wheatApp.dequeueFrom "northPremium").2.transactions 0 = wheatApp.transactions 0 := by
  obtain ⟨p, h1, h2, -, -, -, -, -, h8, -, -, h11, -⟩ :=
    (dequeueFrom_frame wheatApp "northPremium").1 0 dequeueFrom_wheatApp
  exact ⟨p, h1, h2, h8, h11⟩

end AgriChain
